import Mathlib

/-!
# Memory manager and context: allocation lists, reuse, retirement, context creation

A shallow embedding of `runtime/memory_manager/memory_manager.cpp` and of
`Context::createImpl`, `Context::getInfo` and `Context::getSupportedImageFormats` of
`runtime/context/context.cpp` (namespace `OCLRT`), with the properties of the two tracked
allocation lists, of the allocate path and of the context functions.

Conventions of the embedding

* `uint32_t` values (task counts, the completion counter) are natural numbers;
  a signed literal handed to a `uint32_t` goes through `toUInt32`.  Where a
  property depends on the 32-bit range, the range is an explicit hypothesis.
* An intrusive list is the sequence of its nodes, read from `head` along `next`.
  A node pointer inside a list is the node's position in that sequence.
* The volatile cell behind `csrTagAddress` is given by the value it holds while
  the manager's lock is held; a null pointer is `none`.  In
  `checkAllocationsForOverlapping`, which polls the cell while the hardware
  advances it, the successive reads are given by `Collaborators.tagReads`, and the
  wait for the hardware takes a bound `fuel` on the number of polls.
* Functions of the repository that are not in `memory_manager.cpp` are parameters
  (the fields of `Collaborators`); the calls made to them are recorded in `calls`.
* `freeGraphicsMemory` ends in the OS specific `freeGraphicsMemoryImpl`; the
  embedding records each allocation handed to it, in call order, in `freed`.
* In the context functions a nullable array is `none` or `some` list; a read of a null array
  or past the end of an array makes the result `none`.  What they consume from other files
  are the parameters `SurfaceFormatTables` and `ContextCollaborators`; the constants of the
  OpenCL headers have their standard values.
* `HostPtrManager::getAllocationRequirements` is not part of the sources embedded here; the
  definition of that name follows the specification's description of it.
-/

namespace OCLRT

/-! ## Data model -/

/-- Conversion of a signed integer to `uint32_t` (reduction modulo `2^32`). -/
def toUInt32 (i : Int) : Nat := (i % 4294967296).toNat

/-- Modelled from the spec: the `GraphicsAllocation` record (its header is not among the
sources): "size; underlying host/GPU buffer pointer; taskCount; coherent flag".  The intrusive
`next` pointer is the list structure itself. -/
structure GraphicsAllocation where
  cpuPtr : Nat
  size : Nat
  taskCount : Nat
  coherent : Bool
  deriving DecidableEq

/-- The accessor `getUnderlyingBufferSize()`. -/
def GraphicsAllocation.getUnderlyingBufferSize (a : GraphicsAllocation) : Nat := a.size

/-- The setter `setCoherent(coherent)`. -/
def GraphicsAllocation.setCoherent (a : GraphicsAllocation) (coherent : Bool) :
    GraphicsAllocation :=
  { a with coherent := coherent }

/-- Modelled from the spec: `IDList<GraphicsAllocation>` (header absent), "an ordered
singly/doubly linked structure of GraphicsAllocation ... order is insertion order". -/
abbrev IDList := List GraphicsAllocation

/-- The list class of the two tracked lists; it derives from `IDList`. -/
abbrev AllocationsList := IDList

/-- Modelled from the spec: `pushTailOne(node)`, "Pushes onto the corresponding list's tail". -/
def IDList.pushTailOne (l : IDList) (node : GraphicsAllocation) : IDList := l ++ [node]

/-- Modelled from the spec: `removeOneImpl(node, _)` unlinks the node at position `i` and returns
it ("removes it from the list"). -/
def IDList.removeOneImpl (l : IDList) (i : Nat) : Option GraphicsAllocation × IDList :=
  (l[i]?, l.eraseIdx i)

/-- Modelled from the spec: `detachNodes()`, "detaches the entire list": the chain that hung
from `head`, and the emptied list. -/
def IDList.detachNodes (l : IDList) : List GraphicsAllocation × IDList := (l, [])

/-- Modelled from the spec: `splice(chain)`, "splice back into the list": the chain is linked
after the current tail. -/
def IDList.splice (l : IDList) (chain : List GraphicsAllocation) : IDList := l ++ chain

/-- Modelled from the spec: `peekIsEmpty()`: whether `head` is null. -/
def IDList.peekIsEmpty (l : IDList) : Bool := l.isEmpty

/-- The record `ReusableAllocationRequirements`. -/
structure ReusableAllocationRequirements where
  requiredMinimalSize : Nat
  csrTagAddress : Option Nat
  deriving DecidableEq

/-- Modelled from the spec: what the manager consumes from the command-stream receiver:
`peekTaskCount()`, `peekLatestSentTaskCount()` and the cell behind `getTagAddress()`. -/
structure CommandStreamReceiver where
  taskCount : Nat
  latestSentTaskCount : Nat
  tagAddress : Nat
  deriving DecidableEq

/-- The accessor `peekTaskCount()`. -/
def CommandStreamReceiver.peekTaskCount (c : CommandStreamReceiver) : Nat := c.taskCount

/-- The accessor `peekLatestSentTaskCount()`. -/
def CommandStreamReceiver.peekLatestSentTaskCount (c : CommandStreamReceiver) : Nat :=
  c.latestSentTaskCount

/-- The accessor `getTagAddress()`; the address stands for the value stored there. -/
def CommandStreamReceiver.getTagAddress (c : CommandStreamReceiver) : Nat := c.tagAddress

/-- Modelled from the spec: the tag allocator, a "fixed-size pool allocator for small
hardware-timestamp/perf-counter records" (header absent).  The manager only holds it. -/
structure TagAllocatorBase where
  tagCount : Nat
  deriving DecidableEq

/-- Modelled from the spec: the enumerator for the "temporary" list (header absent). -/
def TEMPORARY_ALLOCATION : Nat := 0

/-- Modelled from the spec: the enumerator for the "reusable-for-recycling" list (header
absent). -/
def REUSABLE_ALLOCATION : Nat := 1

/-- The debug variables read by the manager (`DebugManager.flags`). -/
structure DebugVariables where
  DisableResourceRecycling : Bool
  deriving DecidableEq

/-- Modelled from the spec: "per-fragment status in {NOT_CHECKED, NO_OVERLAP,
OVERLAP_MATCHING_STORED, OVERLAP_AND_BIGGER_THAN_STORED}" (header absent).  The first two
constructors are the spec's NO_OVERLAP and OVERLAP_MATCHING_STORED; the other two carry the
names the source file uses. -/
inductive OverlapStatus
  | FRAGMENT_NOT_OVERLAPING_WITH_ANY_OTHER
  | FRAGMENT_WITHIN_STORED_FRAGMENT
  | FRAGMENT_OVERLAPING_AND_BIGGER_THEN_STORED_FRAGMENT
  | FRAGMENT_NOT_CHECKED
  deriving DecidableEq

/-- Modelled from the spec: the result of `checkAllocationsForOverlapping`, success or the
"fatal/unresolvable overlap" (header absent). -/
inductive RequirementsStatus
  | SUCCESS
  | FATAL
  deriving DecidableEq

/-- Modelled from the spec: a fragment "currently registered with the device (keyed by
pointer)" (header absent). -/
structure FragmentStorage where
  fragmentCpuPointer : Nat
  fragmentSize : Nat
  deriving DecidableEq

/-- Modelled from the spec: one of the "sub-fragment descriptors (pointer, size)" of a request
(header absent). -/
structure PartialAllocation where
  allocationPtr : Nat
  allocationSize : Nat
  deriving DecidableEq

instance : Inhabited PartialAllocation := ⟨{ allocationPtr := 0, allocationSize := 0 }⟩

/-- Modelled from the spec: `AllocationRequirements`, "a host pointer + size decomposed into ≤3
page-aligned sub-fragment descriptors" (header absent). -/
structure AllocationRequirements where
  AllocationFragments : List PartialAllocation
  requiredFragmentsCount : Nat
  deriving DecidableEq

/-- Modelled from the spec: the bound "≤3" on the fragments of one request (header absent). -/
def max_fragments_count : Nat := 3

/-- Modelled from the spec: `CheckedFragments`, "per-fragment status ... plus a reference to the
matched existing fragment, if any" (header absent).  The two arrays are maps from the slot
index; only the slots below `max_fragments_count` exist in the program. -/
structure CheckedFragments where
  fragments : Nat → Option FragmentStorage
  status : Nat → OverlapStatus
  count : Nat

/-- Modelled from the spec: the "opaque per-fragment OS-handle storage structure" with its
fragment count (header absent). -/
structure OsHandleStorage where
  fragmentStorageData : List FragmentStorage
  fragmentCount : Nat
  deriving DecidableEq

/-- Modelled from the spec: the deferred-deletion collaborator, "reference-counted activation"
(header absent).  The manager only tests whether it is present. -/
structure DeferredDeleter where
  numClients : Nat
  deriving DecidableEq

/-- A call the allocate path makes, kept in the manager's record `calls` in program order.
The first two constructors carry the index `i` of the fragment being resolved. -/
inductive Call
  | getFragmentAndCheckForOverlaps (i : Nat) (allocationPtr allocationSize : Nat)
      (status : OverlapStatus)
  | cleanAllocationList (i : Nat) (waitTaskCount allocationType : Nat)
  | abortExecution
  | populateAlreadyAllocatedFragments (osStorage : OsHandleStorage)
  | populateOsHandles (osStorage : OsHandleStorage) (success : Bool)
  | cleanOsHandles (osStorage : OsHandleStorage)
  | createGraphicsAllocation (osStorage : OsHandleStorage) (size ptr : Nat)
  | allocateGraphicsMemory64kb (size alignment : Nat) (forcePin : Bool)
  | allocateGraphicsMemory (size alignment : Nat)
  deriving DecidableEq

/-- The members of `MemoryManager` used by the list operations and the allocate path, the
record of the allocations passed to `freeGraphicsMemory`, and the record of the calls made by
the allocate path. -/
structure MemoryManager where
  graphicsAllocations : AllocationsList
  allocationsForReuse : AllocationsList
  csr : Option CommandStreamReceiver
  enable64kbpages : Bool
  paddingAllocation : Option GraphicsAllocation
  profilingTimeStampAllocator : Option TagAllocatorBase
  perfCounterAllocator : Option TagAllocatorBase
  freed : List GraphicsAllocation
  deferredDeleter : Option DeferredDeleter := none
  calls : List Call := []
  deriving DecidableEq

/-! ## AllocationsList::detachAllocation -/

/-- The `while (curr != nullptr)` loop of `detachAllocationImpl`: `l` is the whole list, the
last argument is the chain from `curr` on and `i` is the position of `curr` in `l`. -/
def AllocationsList.detachAllocationImpl.scan (req : ReusableAllocationRequirements)
    (l : AllocationsList) : Nat → List GraphicsAllocation →
    Option GraphicsAllocation × AllocationsList
  | _, [] => (none, l)
  | i, curr :: next =>
    let currentTagValue : Nat :=
      match req.csrTagAddress with
      | some v => v
      | none => toUInt32 (-1)
    if curr.getUnderlyingBufferSize ≥ req.requiredMinimalSize ∧
        (currentTagValue > curr.taskCount ∨ curr.taskCount = 0) then
      IDList.removeOneImpl l i
    else
      AllocationsList.detachAllocationImpl.scan req l (i + 1) next

/-- The function `AllocationsList::detachAllocationImpl`: the detached node (or null) and the
list afterwards. -/
def AllocationsList.detachAllocationImpl (l : AllocationsList)
    (req : ReusableAllocationRequirements) : Option GraphicsAllocation × AllocationsList :=
  AllocationsList.detachAllocationImpl.scan req l 0 l

/-- The function `AllocationsList::detachAllocation(requiredMinimalSize, csrTagAddress)`. -/
def AllocationsList.detachAllocation (l : AllocationsList) (requiredMinimalSize : Nat)
    (csrTagAddress : Option Nat) : Option GraphicsAllocation × AllocationsList :=
  AllocationsList.detachAllocationImpl l
    { requiredMinimalSize := requiredMinimalSize, csrTagAddress := csrTagAddress }

/-! ## MemoryManager: free, store, obtain, clean -/

/-- The function `MemoryManager::freeGraphicsMemory`: the allocation is handed to
`freeGraphicsMemoryImpl`, which is recorded. -/
def MemoryManager.freeGraphicsMemory (mm : MemoryManager) (gfxAllocation : GraphicsAllocation) :
    MemoryManager :=
  { mm with freed := mm.freed ++ [gfxAllocation] }

/-- The `while (curr != nullptr)` loop of `freeAllocationsList` over the detached chain. -/
def MemoryManager.freeAllocationsList.loop (waitTaskCount : Nat) :
    List GraphicsAllocation → MemoryManager → IDList → MemoryManager × IDList
  | [], mm, allocationsLeft => (mm, allocationsLeft)
  | curr :: next, mm, allocationsLeft =>
    if curr.taskCount ≤ waitTaskCount then
      MemoryManager.freeAllocationsList.loop waitTaskCount next (mm.freeGraphicsMemory curr)
        allocationsLeft
    else
      MemoryManager.freeAllocationsList.loop waitTaskCount next mm
        (allocationsLeft.pushTailOne curr)

/-- The function `MemoryManager::freeAllocationsList(waitTaskCount, allocationsList)`; the list
passed by reference is returned next to the manager. -/
def MemoryManager.freeAllocationsList (mm : MemoryManager) (waitTaskCount : Nat)
    (allocationsList : AllocationsList) : MemoryManager × AllocationsList :=
  let curr := (IDList.detachNodes allocationsList).1
  let allocationsList := (IDList.detachNodes allocationsList).2
  let r := MemoryManager.freeAllocationsList.loop waitTaskCount curr mm []
  if IDList.peekIsEmpty r.2 = false then
    (r.1, IDList.splice allocationsList (IDList.detachNodes r.2).1)
  else
    (r.1, allocationsList)

/-- The function `MemoryManager::cleanAllocationList(waitTaskCount, allocationType)`. -/
def MemoryManager.cleanAllocationList (mm : MemoryManager) (waitTaskCount : Nat)
    (allocationType : Nat) : MemoryManager × Bool :=
  if allocationType = TEMPORARY_ALLOCATION then
    let r := mm.freeAllocationsList waitTaskCount mm.graphicsAllocations
    ({ r.1 with graphicsAllocations := r.2 }, false)
  else
    let r := mm.freeAllocationsList waitTaskCount mm.allocationsForReuse
    ({ r.1 with allocationsForReuse := r.2 }, false)

/-- The three-argument `MemoryManager::storeAllocation(gfxAllocation, allocationType,
taskCount)`. -/
def MemoryManager.storeAllocation3 (DebugManager : DebugVariables) (mm : MemoryManager)
    (gfxAllocation : GraphicsAllocation) (allocationType : Nat) (taskCount : Nat) :
    MemoryManager :=
  if DebugManager.DisableResourceRecycling = true ∧ allocationType = REUSABLE_ALLOCATION then
    mm.freeGraphicsMemory gfxAllocation
  else
    let gfxAllocation := { gfxAllocation with taskCount := taskCount }
    if allocationType = TEMPORARY_ALLOCATION then
      { mm with graphicsAllocations := mm.graphicsAllocations.pushTailOne gfxAllocation }
    else
      { mm with allocationsForReuse := mm.allocationsForReuse.pushTailOne gfxAllocation }

/-- The two-argument `MemoryManager::storeAllocation(gfxAllocation, allocationType)`. -/
def MemoryManager.storeAllocation (DebugManager : DebugVariables) (mm : MemoryManager)
    (gfxAllocation : GraphicsAllocation) (allocationType : Nat) : MemoryManager :=
  let taskCount : Nat :=
    if allocationType = REUSABLE_ALLOCATION then
      match mm.csr with
      | some csr => csr.peekTaskCount
      | none => 0
    else gfxAllocation.taskCount
  mm.storeAllocation3 DebugManager gfxAllocation allocationType taskCount

/-- The function `MemoryManager::obtainReusableAllocation(requiredSize)`. -/
def MemoryManager.obtainReusableAllocation (mm : MemoryManager) (requiredSize : Nat) :
    Option GraphicsAllocation × MemoryManager :=
  let r := AllocationsList.detachAllocation mm.allocationsForReuse requiredSize
    (match mm.csr with
     | some csr => some csr.getTagAddress
     | none => none)
  (r.1, { mm with allocationsForReuse := r.2 })

/-- The destructor `MemoryManager::~MemoryManager()`. -/
def MemoryManager.destructor (mm : MemoryManager) : MemoryManager :=
  let r := mm.freeAllocationsList (toUInt32 (-1)) mm.graphicsAllocations
  let mm : MemoryManager := { r.1 with graphicsAllocations := r.2 }
  let r := mm.freeAllocationsList (toUInt32 (-1)) mm.allocationsForReuse
  { r.1 with allocationsForReuse := r.2 }

/-- The function `MemoryManager::applyCommonCleanup()`.  The tag allocator's
`cleanUpResources()` is defined outside this file and is taken as the parameter
`cleanUpResources`: its effect on the manager that owns the allocator. -/
def MemoryManager.applyCommonCleanup
    (cleanUpResources : TagAllocatorBase → MemoryManager → MemoryManager)
    (mm : MemoryManager) : MemoryManager :=
  let mm : MemoryManager :=
    match mm.paddingAllocation with
    | some paddingAllocation => mm.freeGraphicsMemory paddingAllocation
    | none => mm
  let mm : MemoryManager :=
    match mm.profilingTimeStampAllocator with
    | some profilingTimeStampAllocator => cleanUpResources profilingTimeStampAllocator mm
    | none => mm
  let mm : MemoryManager :=
    match mm.perfCounterAllocator with
    | some perfCounterAllocator => cleanUpResources perfCounterAllocator mm
    | none => mm
  let mm : MemoryManager := (mm.cleanAllocationList (toUInt32 (-1)) TEMPORARY_ALLOCATION).1
  (mm.cleanAllocationList (toUInt32 (-1)) REUSABLE_ALLOCATION).1

/-- Every node of the two tracked lists carries a task count in the `uint32_t` range. -/
def MemoryManager.taskCountsAre32Bit (mm : MemoryManager) : Prop :=
  (∀ a ∈ mm.graphicsAllocations, a.taskCount < 2 ^ 32) ∧
    (∀ a ∈ mm.allocationsForReuse, a.taskCount < 2 ^ 32)

/-- The spec's reuse-eligibility of a node: "size ≥ minSize AND (its recorded taskCount is 0
OR the current hardware completion value exceeds its taskCount)". -/
def reuseEligible (minSize : Nat) (completionValue : Nat) (a : GraphicsAllocation) : Prop :=
  minSize ≤ a.size ∧ (a.taskCount = 0 ∨ a.taskCount < completionValue)

instance (minSize completionValue : Nat) (a : GraphicsAllocation) :
    Decidable (reuseEligible minSize completionValue a) := by
  unfold reuseEligible; infer_instance

/-! ## The allocate path

The functions below call into the host pointer manager, the OS specific subclass and the
hardware, none of which is in `memory_manager.cpp`.  Their answers are the fields of
`Collaborators`; each is a function of the manager's state at the call, which includes the
records `freed` and `calls` of what has been released and called so far.  Every call is
appended to `calls`. -/

/-- What the allocate path consumes from outside `memory_manager.cpp`.

* `tagReads n` is the value the `n`-th read of the volatile completion counter yields during
  one run of `checkAllocationsForOverlapping` (the hardware advances it asynchronously).
* `drain` is the deferred deleter's `drain(blocking)`, any change of the manager's state.
* The other fields are the results of the functions of the same name. -/
structure Collaborators where
  tagReads : Nat → Nat
  getAllocationRequirements : Nat → Nat → AllocationRequirements
  drain : Bool → MemoryManager → MemoryManager
  getFragmentAndCheckForOverlaps :
    MemoryManager → Nat → Nat → Option FragmentStorage × OverlapStatus
  populateAlreadyAllocatedFragments :
    MemoryManager → AllocationRequirements → CheckedFragments → OsHandleStorage
  populateOsHandles : MemoryManager → OsHandleStorage → Bool × OsHandleStorage
  createGraphicsAllocation :
    MemoryManager → OsHandleStorage → Nat → Nat → Option GraphicsAllocation
  allocateGraphicsMemory64kb : MemoryManager → Nat → Nat → Bool → Option GraphicsAllocation
  allocateGraphicsMemory : MemoryManager → Nat → Nat → Option GraphicsAllocation

/-- Modelled from the spec: `MemoryConstants::pageSize`, the "fixed 4096-byte page size". -/
def pageSize : Nat := 4096

/-- Modelled from the spec: `MemoryConstants::pageSize64k`, the size of a "64KB-page". -/
def pageSize64k : Nat := 65536

/-- Appends a call to the manager's record of calls. -/
def MemoryManager.record (mm : MemoryManager) (c : Call) : MemoryManager :=
  { mm with calls := mm.calls ++ [c] }

/-- The statement `checkedFragments->fragments[i] = hostPtrManager.getFragmentAndCheckForOverlaps(
requirements->AllocationFragments[i].allocationPtr,
requirements->AllocationFragments[i].allocationSize, checkedFragments->status[i])`,
which occurs three times in `checkAllocationsForOverlapping`. -/
def MemoryManager.checkAllocationsForOverlapping.check (ext : Collaborators)
    (requirements : AllocationRequirements) (i : Nat)
    (s : MemoryManager × CheckedFragments) : MemoryManager × CheckedFragments :=
  let fragment := requirements.AllocationFragments.getD i default
  let r := ext.getFragmentAndCheckForOverlaps s.1 fragment.allocationPtr fragment.allocationSize
  (s.1.record (Call.getFragmentAndCheckForOverlaps i fragment.allocationPtr
      fragment.allocationSize r.2),
    { s.2 with
      fragments := Function.update s.2.fragments i r.1,
      status := Function.update s.2.status i r.2 })

/-- The statements `taskCount = *csr->getTagAddress(); cleanAllocationList(taskCount,
TEMPORARY_ALLOCATION);`, which occur twice: the counter is read for the `k`-th time, then the
temporary list is reclaimed at the value read. -/
def MemoryManager.checkAllocationsForOverlapping.reclaim (ext : Collaborators) (i k : Nat)
    (csr : CommandStreamReceiver) (mm : MemoryManager) : MemoryManager :=
  let taskCount := ext.tagReads k
  let mm : MemoryManager := { mm with csr := some { csr with tagAddress := taskCount } }
  let mm := mm.record (Call.cleanAllocationList i taskCount TEMPORARY_ALLOCATION)
  (mm.cleanAllocationList taskCount TEMPORARY_ALLOCATION).1

/-- The loop `while (*csr->getTagAddress() < csr->peekLatestSentTaskCount()) {}`: each test
reads the counter once, starting with read number `k`.  The result is the number of the next
read after the loop has ended, or `none` when the counter has not reached `latestSent`
within `fuel` tests. -/
def MemoryManager.checkAllocationsForOverlapping.wait (tagReads : Nat → Nat)
    (latestSent : Nat) : Nat → Nat → Option Nat
  | 0, _ => none
  | fuel + 1, k =>
    if tagReads k < latestSent then
      MemoryManager.checkAllocationsForOverlapping.wait tagReads latestSent fuel (k + 1)
    else
      some (k + 1)

/-- The body of the loop `for (i = 0; i < requirements->requiredFragmentsCount; i++)` of
`checkAllocationsForOverlapping`, for fragment `i`, with `k` reads of the counter made so
far.  The Boolean of the result says whether the body ended in `status = FATAL; break`. -/
def MemoryManager.checkAllocationsForOverlapping.fragment (ext : Collaborators) (fuel : Nat)
    (requirements : AllocationRequirements) (i : Nat) (mm : MemoryManager) (k : Nat)
    (checkedFragments : CheckedFragments) :
    Option (Bool × MemoryManager × Nat × CheckedFragments) :=
  let s1 := MemoryManager.checkAllocationsForOverlapping.check ext requirements i
    (mm, { checkedFragments with count := checkedFragments.count + 1 })
  if s1.2.status i = OverlapStatus.FRAGMENT_OVERLAPING_AND_BIGGER_THEN_STORED_FRAGMENT then
    match s1.1.csr with
    | some csr =>
      let s2 := MemoryManager.checkAllocationsForOverlapping.check ext requirements i
        (MemoryManager.checkAllocationsForOverlapping.reclaim ext i k csr s1.1, s1.2)
      if s2.2.status i =
          OverlapStatus.FRAGMENT_OVERLAPING_AND_BIGGER_THEN_STORED_FRAGMENT then
        match MemoryManager.checkAllocationsForOverlapping.wait ext.tagReads
            csr.peekLatestSentTaskCount fuel (k + 1) with
        | none => none
        | some k2 =>
          let s3 := MemoryManager.checkAllocationsForOverlapping.check ext requirements i
            (MemoryManager.checkAllocationsForOverlapping.reclaim ext i k2 csr s2.1, s2.2)
          if s3.2.status i =
              OverlapStatus.FRAGMENT_OVERLAPING_AND_BIGGER_THEN_STORED_FRAGMENT then
            some (true, s3.1, k2 + 1, s3.2)
          else
            some (false, s3.1, k2 + 1, s3.2)
      else
        some (false, s2.1, k + 1, s2.2)
    | none => some (true, s1.1, k, s1.2)
  else
    some (false, s1.1, k, s1.2)

/-- The loop `for (i = 0; i < requirements->requiredFragmentsCount; i++)` with `remaining`
iterations to go. -/
def MemoryManager.checkAllocationsForOverlapping.loop (ext : Collaborators) (fuel : Nat)
    (requirements : AllocationRequirements) :
    Nat → Nat → MemoryManager → Nat → CheckedFragments →
    Option (RequirementsStatus × MemoryManager × Nat × CheckedFragments)
  | 0, _, mm, k, checkedFragments => some (RequirementsStatus.SUCCESS, mm, k, checkedFragments)
  | remaining + 1, i, mm, k, checkedFragments =>
    match MemoryManager.checkAllocationsForOverlapping.fragment ext fuel requirements i mm k
        checkedFragments with
    | none => none
    | some (true, mm, k, checkedFragments) =>
      some (RequirementsStatus.FATAL, mm, k, checkedFragments)
    | some (false, mm, k, checkedFragments) =>
      MemoryManager.checkAllocationsForOverlapping.loop ext fuel requirements remaining (i + 1)
        mm k checkedFragments

/-- The first loop of `checkAllocationsForOverlapping` and `checkedFragments->count = 0`: the
slots below `max_fragments_count` are reset. -/
def CheckedFragments.reset (checkedFragments : CheckedFragments) : CheckedFragments :=
  { count := 0,
    status := fun i =>
      if i < max_fragments_count then OverlapStatus.FRAGMENT_NOT_CHECKED
      else checkedFragments.status i,
    fragments := fun i =>
      if i < max_fragments_count then none else checkedFragments.fragments i }

/-- The function `MemoryManager::checkAllocationsForOverlapping(requirements,
checkedFragments)`: the status returned, the manager afterwards and the checked fragments
written; `none` when a wait for the hardware does not end within `fuel` polls. -/
def MemoryManager.checkAllocationsForOverlapping (ext : Collaborators) (fuel : Nat)
    (mm : MemoryManager) (requirements : AllocationRequirements)
    (checkedFragments : CheckedFragments) :
    Option (RequirementsStatus × MemoryManager × CheckedFragments) :=
  (MemoryManager.checkAllocationsForOverlapping.loop ext fuel requirements
    requirements.requiredFragmentsCount 0 mm 0 checkedFragments.reset).map
    (fun r => (r.1, r.2.1, r.2.2.2))

/-- How a run of `allocateGraphicsMemory` ends: it returns a pointer (possibly null), or
`abortExecution()` ends the process. -/
inductive AllocationOutcome
  | returned (graphicsAllocation : Option GraphicsAllocation) (mm : MemoryManager)
  | aborted (mm : MemoryManager)
  deriving DecidableEq

/-- The contents of the local `CheckedFragments checkedFragments;` before it is passed on. -/
def CheckedFragments.uninitialised : CheckedFragments :=
  { count := 0, status := fun _ => OverlapStatus.FRAGMENT_NOT_CHECKED, fragments := fun _ => none }

/-- The state in which `allocateGraphicsMemory` reaches the overlap check: the deferred
deleter, when there is one, has drained. -/
def MemoryManager.drained (ext : Collaborators) (mm : MemoryManager) : MemoryManager :=
  match mm.deferredDeleter with
  | some _ => ext.drain true mm
  | none => mm

/-- The function `MemoryManager::allocateGraphicsMemory(size, ptr, forcePin)`; `none` when the
overlap check does not come back within `fuel` polls of the hardware. -/
def MemoryManager.allocateGraphicsMemory (ext : Collaborators) (fuel : Nat) (mm : MemoryManager)
    (size ptr : Nat) (_forcePin : Bool) : Option AllocationOutcome :=
  let requirements := ext.getAllocationRequirements ptr size
  let mm := mm.drained ext
  match mm.checkAllocationsForOverlapping ext fuel requirements
      CheckedFragments.uninitialised with
  | none => none
  | some (status, mm, checkedFragments) =>
    if status = RequirementsStatus.FATAL then
      some (AllocationOutcome.aborted (mm.record Call.abortExecution))
    else
      let osStorage := ext.populateAlreadyAllocatedFragments mm requirements checkedFragments
      let mm := mm.record (Call.populateAlreadyAllocatedFragments osStorage)
      if osStorage.fragmentCount = 0 then
        some (AllocationOutcome.returned none mm)
      else
        let success := ext.populateOsHandles mm osStorage
        let mm := mm.record (Call.populateOsHandles osStorage success.1)
        let osStorage := success.2
        if success.1 = false then
          some (AllocationOutcome.returned none (mm.record (Call.cleanOsHandles osStorage)))
        else
          let graphicsAllocation := ext.createGraphicsAllocation mm osStorage size ptr
          some (AllocationOutcome.returned graphicsAllocation
            (mm.record (Call.createGraphicsAllocation osStorage size ptr)))

/-- The function `MemoryManager::allocateGraphicsMemoryForSVM(size, coherent)`. -/
def MemoryManager.allocateGraphicsMemoryForSVM (ext : Collaborators) (mm : MemoryManager)
    (size : Nat) (coherent : Bool) : Option GraphicsAllocation × MemoryManager :=
  let r : Option GraphicsAllocation × MemoryManager :=
    if mm.enable64kbpages = true then
      (ext.allocateGraphicsMemory64kb mm size pageSize64k false,
        mm.record (Call.allocateGraphicsMemory64kb size pageSize64k false))
    else
      (ext.allocateGraphicsMemory mm size pageSize,
        mm.record (Call.allocateGraphicsMemory size pageSize))
  match r.1 with
  | some graphicsAllocation => (some (graphicsAllocation.setCoherent coherent), r.2)
  | none => (none, r.2)

/-- The statuses reported, in order, by the overlap checks of fragment `j` in a record of
calls. -/
def overlapChecksOf (j : Nat) (calls : List Call) : List OverlapStatus :=
  calls.filterMap (fun c =>
    match c with
    | Call.getFragmentAndCheckForOverlaps i _ _ status => if i = j then some status else none
    | _ => none)

/-- The task counts, in order, at which the temporary list was reclaimed while fragment `j`
was being resolved, in a record of calls. -/
def reclaimsOf (j : Nat) (calls : List Call) : List Nat :=
  calls.filterMap (fun c =>
    match c with
    | Call.cleanAllocationList i waitTaskCount _ => if i = j then some waitTaskCount else none
    | _ => none)

/-- Whether a call is an overlap check. -/
def Call.isOverlapCheck : Call → Bool
  | Call.getFragmentAndCheckForOverlaps _ _ _ _ => true
  | _ => false

/-- Whether a call is a reclaim of an allocation list. -/
def Call.isReclaim : Call → Bool
  | Call.cleanAllocationList _ _ _ => true
  | _ => false

/-- The status that the overlap check of fragment `i` reports when made in state `mm`. -/
def overlapReport (ext : Collaborators) (requirements : AllocationRequirements) (i : Nat)
    (mm : MemoryManager) : OverlapStatus :=
  (ext.getFragmentAndCheckForOverlaps mm
    (requirements.AllocationFragments.getD i default).allocationPtr
    (requirements.AllocationFragments.getD i default).allocationSize).2

/-- The entry that an overlap check of fragment `i` reporting `status` leaves in `calls`. -/
def overlapCheckCall (requirements : AllocationRequirements) (i : Nat)
    (status : OverlapStatus) : Call :=
  Call.getFragmentAndCheckForOverlaps i
    (requirements.AllocationFragments.getD i default).allocationPtr
    (requirements.AllocationFragments.getD i default).allocationSize status

/-- The manager after an overlap check of fragment `i` made in state `mm`: the call and the
status it reported are on record. -/
def MemoryManager.afterOverlapCheck (ext : Collaborators) (requirements : AllocationRequirements)
    (i : Nat) (mm : MemoryManager) : MemoryManager :=
  mm.record (overlapCheckCall requirements i (overlapReport ext requirements i mm))

/-- The state in which the body for fragment `i`, entered in state `mm` after `k` reads of the
counter with receiver `csr` attached, makes its recheck: after the first overlap check and the
first reclaim. -/
def MemoryManager.atRecheck (ext : Collaborators) (requirements : AllocationRequirements)
    (i k : Nat) (csr : CommandStreamReceiver) (mm : MemoryManager) : MemoryManager :=
  MemoryManager.checkAllocationsForOverlapping.reclaim ext i k csr
    (mm.afterOverlapCheck ext requirements i)

/-- The state in which that body makes its last check: after the recheck, the wait that ended
before read number `k2`, and the second reclaim. -/
def MemoryManager.atLastCheck (ext : Collaborators) (requirements : AllocationRequirements)
    (i k k2 : Nat) (csr : CommandStreamReceiver) (mm : MemoryManager) : MemoryManager :=
  MemoryManager.checkAllocationsForOverlapping.reclaim ext i k2 csr
    ((mm.atRecheck ext requirements i k csr).afterOverlapCheck ext requirements i)

/-- The single-membership invariant of the two tracked lists: no two nodes of the temporary
and the reusable list taken together are the same allocation.  The identity of an allocation
(the address of the object in the program) is given by `key`. -/
def MemoryManager.singleMembership {κ : Type} (key : GraphicsAllocation → κ)
    (mm : MemoryManager) : Prop :=
  ((mm.graphicsAllocations ++ mm.allocationsForReuse).map key).Nodup

/-- The manager after `remaining` bodies of the loop of `checkAllocationsForOverlapping`,
starting at fragment `i` in state `mm`, in each of which the initial overlap check is the
only thing done. -/
def MemoryManager.afterQuietChecks (ext : Collaborators) (requirements : AllocationRequirements) :
    Nat → Nat → MemoryManager → MemoryManager
  | 0, _, mm => mm
  | remaining + 1, i, mm =>
    MemoryManager.afterQuietChecks ext requirements remaining (i + 1)
      (mm.afterOverlapCheck ext requirements i)

/-- Whether in `remaining` bodies of the loop of `checkAllocationsForOverlapping`, starting at
fragment `i` in state `mm`, no fragment's initial overlap check reports
overlapping-and-bigger: the check of each fragment is asked in the state that the checks of
the fragments before it have left. -/
def MemoryManager.quietChecks (ext : Collaborators) (requirements : AllocationRequirements) :
    Nat → Nat → MemoryManager → Bool
  | 0, _, _ => true
  | remaining + 1, i, mm =>
    decide (overlapReport ext requirements i mm ≠
        OverlapStatus.FRAGMENT_OVERLAPING_AND_BIGGER_THEN_STORED_FRAGMENT) &&
      MemoryManager.quietChecks ext requirements remaining (i + 1)
        (mm.afterOverlapCheck ext requirements i)

/-- Whether, with a receiver attached, the overlap check of fragment `i` reports
overlapping-and-bigger three times in a row when the loop body is entered in state `mm` after
`k` reads of the counter: at the initial check, at the recheck after the first reclaim, and at
the recheck after the wait and the second reclaim. -/
def MemoryManager.overlapsThrice (ext : Collaborators) (fuel : Nat)
    (requirements : AllocationRequirements) (i k : Nat) (mm : MemoryManager) : Bool :=
  match mm.csr with
  | none => false
  | some csr =>
    decide (overlapReport ext requirements i mm =
        OverlapStatus.FRAGMENT_OVERLAPING_AND_BIGGER_THEN_STORED_FRAGMENT) &&
      decide (overlapReport ext requirements i (mm.atRecheck ext requirements i k csr) =
        OverlapStatus.FRAGMENT_OVERLAPING_AND_BIGGER_THEN_STORED_FRAGMENT) &&
      (match MemoryManager.checkAllocationsForOverlapping.wait ext.tagReads
          csr.peekLatestSentTaskCount fuel (k + 1) with
        | none => false
        | some k2 =>
          decide (overlapReport ext requirements i
              (mm.atLastCheck ext requirements i k k2 csr) =
            OverlapStatus.FRAGMENT_OVERLAPING_AND_BIGGER_THEN_STORED_FRAGMENT))

/-- The state, and the number of reads of the counter made, after the overlap of fragment `i`
has been dealt with from state `mm` and `k` reads: after the initial check if that reports no
overlapping-and-bigger or no receiver is attached; else after the first reclaim and the
recheck if that reports none; else after the wait, the second reclaim and the last check. -/
def MemoryManager.afterFragment (ext : Collaborators) (fuel : Nat)
    (requirements : AllocationRequirements) (i k : Nat) (mm : MemoryManager) :
    MemoryManager × Nat :=
  match mm.csr with
  | none => (mm.afterOverlapCheck ext requirements i, k)
  | some csr =>
    if overlapReport ext requirements i mm ≠
        OverlapStatus.FRAGMENT_OVERLAPING_AND_BIGGER_THEN_STORED_FRAGMENT then
      (mm.afterOverlapCheck ext requirements i, k)
    else if overlapReport ext requirements i (mm.atRecheck ext requirements i k csr) ≠
        OverlapStatus.FRAGMENT_OVERLAPING_AND_BIGGER_THEN_STORED_FRAGMENT then
      ((mm.atRecheck ext requirements i k csr).afterOverlapCheck ext requirements i, k + 1)
    else
      match MemoryManager.checkAllocationsForOverlapping.wait ext.tagReads
          csr.peekLatestSentTaskCount fuel (k + 1) with
      | none => (mm, k)
      | some k2 =>
        ((mm.atLastCheck ext requirements i k k2 csr).afterOverlapCheck ext requirements i,
          k2 + 1)

/-- The state, and the number of reads made, in which fragment `i + d` comes up when the
fragments `i, ..., i + d - 1` have been dealt with one after the other, starting in state `mm`
after `k` reads. -/
def MemoryManager.atFragment (ext : Collaborators) (fuel : Nat)
    (requirements : AllocationRequirements) :
    Nat → Nat → Nat → MemoryManager → MemoryManager × Nat
  | 0, _, k, mm => (mm, k)
  | d + 1, i, k, mm =>
    MemoryManager.atFragment ext fuel requirements d (i + 1)
      (mm.afterFragment ext fuel requirements i k).2
      (mm.afterFragment ext fuel requirements i k).1

/-! ## System memory -/

/-- The function `MemoryManager::allocateSystemMemory(size, alignment)`.  `alignedMalloc` is
defined outside this file and is taken as the parameter `alignedMalloc`: the result is whatever
it returns for the two arguments it is called with. -/
def MemoryManager.allocateSystemMemory {α : Type} (alignedMalloc : Nat → Nat → α)
    (size alignment : Nat) : α :=
  let minAlignment : Nat := 16
  alignedMalloc size (max alignment minAlignment)

/-! ## Host pointer requirements -/

/-- Modelled from the spec: `HostPtrManager::getAllocationRequirements(ptr, size)`, which
`allocateGraphicsMemory` calls and which is defined outside `memory_manager.cpp`.  The spec: it
"splits the half-open byte range `[hostPtr, hostPtr+size)` into at most three page-aligned
fragments: a prefix fragment if `hostPtr` is not page-aligned, a full-page-aligned interior
span, and a suffix fragment if the end is not page-aligned".  A fragment is listed only when
it is not empty, and the suffix fragment only when the end lies in another page than the
prefix fragment does. -/
def HostPtrManager.getAllocationRequirements (ptr size : Nat) : AllocationRequirements :=
  let endAddress := ptr + size
  let alignedUp := (ptr + (pageSize - 1)) / pageSize * pageSize
  let alignedEnd := endAddress / pageSize * pageSize
  let leading : List PartialAllocation :=
    if ptr % pageSize ≠ 0 ∧ 0 < size then
      [{ allocationPtr := ptr, allocationSize := min alignedUp endAddress - ptr }]
    else []
  let middle : List PartialAllocation :=
    if alignedUp < alignedEnd then
      [{ allocationPtr := alignedUp, allocationSize := alignedEnd - alignedUp }]
    else []
  let trailing : List PartialAllocation :=
    if endAddress % pageSize ≠ 0 ∧ alignedUp ≤ alignedEnd then
      [{ allocationPtr := alignedEnd, allocationSize := endAddress - alignedEnd }]
    else []
  { AllocationFragments := leading ++ middle ++ trailing,
    requiredFragmentsCount := (leading ++ middle ++ trailing).length }

/-! ## Context: the supported image formats

`Context::getSupportedImageFormats` of `runtime/context/context.cpp`.  The tables of surface
formats and the tests on the image type are defined in other files and are taken as the
parameter `SurfaceFormatTables`.  A table of the program is a pointer with a count; here it is
`some` list, or `none` for `nullptr`, and reading a null table or reading past the end of a
table makes the run undefined (`none`).  Every assignment `imageFormats[entry] = ...` is
recorded with its index. -/

/-- The OpenCL API constant `CL_SUCCESS` of the Khronos header `CL/cl.h`. -/
def CL_SUCCESS : Int := 0

/-- The OpenCL API constant `CL_MEM_WRITE_ONLY`, `(1 << 1)` in `CL/cl.h`. -/
def CL_MEM_WRITE_ONLY : Nat := 2

/-- The OpenCL API constant `CL_MEM_READ_ONLY`, `(1 << 2)` in `CL/cl.h`. -/
def CL_MEM_READ_ONLY : Nat := 4

/-- The OpenCL extension constant `CL_MEM_NO_ACCESS_INTEL`, `(1 << 24)`. -/
def CL_MEM_NO_ACCESS_INTEL : Nat := 16777216

/-- The conversion `static_cast<cl_uint>(n)` of a `size_t`. -/
def static_cast_cl_uint (n : Nat) : Nat := n % 4294967296

/-- The OpenCL type `cl_image_format`. -/
structure cl_image_format where
  image_channel_order : Nat
  image_channel_data_type : Nat
  deriving DecidableEq

/-- An entry of a table of surface formats, with the one member that
`getSupportedImageFormats` reads. -/
structure SurfaceFormatInfo where
  OCLImageFormat : cl_image_format
  deriving DecidableEq

/-- What `getSupportedImageFormats` consumes from outside `context.cpp`: the seven tables of
`surface_formats.h` (the constant `numXxxSurfaceFormats` of the program is the length of the
table `xxxSurfaceFormats`), and the tests `Image::isImage2d` and `Image::isImage2dOr2dArray`
on the image type. -/
structure SurfaceFormatTables where
  readOnlySurfaceFormats : List SurfaceFormatInfo
  writeOnlySurfaceFormats : List SurfaceFormatInfo
  readWriteSurfaceFormats : List SurfaceFormatInfo
  readOnlyDepthSurfaceFormats : List SurfaceFormatInfo
  readWriteDepthSurfaceFormats : List SurfaceFormatInfo
  planarYuvSurfaceFormats : List SurfaceFormatInfo
  packedYuvSurfaceFormats : List SurfaceFormatInfo
  isImage2d : Nat → Bool
  isImage2dOr2dArray : Nat → Bool

/-- The members of `DeviceInfo` that `getSupportedImageFormats` reads. -/
structure DeviceInfo where
  nv12Extension : Bool
  packedYuvExtension : Bool
  deriving DecidableEq

/-- A device: its `DeviceInfo` and the identity of its memory manager. -/
structure Device where
  deviceInfo : DeviceInfo
  memoryManager : Nat
  deriving DecidableEq

/-- The accessor `Device::getDeviceInfo()`. -/
def Device.getDeviceInfo (device : Device) : DeviceInfo := device.deviceInfo

/-- The accessor `Device::getMemoryManager()`. -/
def Device.getMemoryManager (device : Device) : Nat := device.memoryManager

/-- The locals of `getSupportedImageFormats` that the branches on `flags` and on the image
type set. -/
structure FormatSelection where
  numImageFormats : Nat
  numDepthFormats : Nat
  surfaceFormats : Option (List SurfaceFormatInfo)
  depthFormats : Option (List SurfaceFormatInfo)
  appendPlanarYUVSurfaces : Bool
  appendPackedYUVSurfaces : Bool
  appendDepthSurfaces : Bool

/-- The first part of `getSupportedImageFormats`: the initialisation of the locals, the
`if (flags & CL_MEM_READ_ONLY) ... else ...` chain and the two tests on the image type. -/
def Context.getSupportedImageFormats.select (tables : SurfaceFormatTables) (device : Device)
    (flags imageType : Nat) : FormatSelection :=
  let nv12ExtensionEnabled := device.getDeviceInfo.nv12Extension
  let l : FormatSelection :=
    { numImageFormats := 0, numDepthFormats := 0, surfaceFormats := none, depthFormats := none,
      appendPlanarYUVSurfaces := false, appendPackedYUVSurfaces := false,
      appendDepthSurfaces := true }
  let l : FormatSelection :=
    if flags &&& CL_MEM_READ_ONLY ≠ 0 then
      { l with
        numImageFormats := static_cast_cl_uint tables.readOnlySurfaceFormats.length,
        surfaceFormats := some tables.readOnlySurfaceFormats,
        depthFormats := some tables.readOnlyDepthSurfaceFormats,
        numDepthFormats := static_cast_cl_uint tables.readOnlyDepthSurfaceFormats.length,
        appendPlanarYUVSurfaces := true,
        appendPackedYUVSurfaces := true }
    else if flags &&& CL_MEM_WRITE_ONLY ≠ 0 then
      { l with
        numImageFormats := static_cast_cl_uint tables.writeOnlySurfaceFormats.length,
        surfaceFormats := some tables.writeOnlySurfaceFormats,
        depthFormats := some tables.readWriteDepthSurfaceFormats,
        numDepthFormats := static_cast_cl_uint tables.readWriteDepthSurfaceFormats.length }
    else if nv12ExtensionEnabled = true ∧ flags &&& CL_MEM_NO_ACCESS_INTEL ≠ 0 then
      { l with
        numImageFormats := static_cast_cl_uint tables.readOnlySurfaceFormats.length,
        surfaceFormats := some tables.readOnlySurfaceFormats,
        appendPlanarYUVSurfaces := true }
    else
      { l with
        numImageFormats := static_cast_cl_uint tables.readWriteSurfaceFormats.length,
        surfaceFormats := some tables.readWriteSurfaceFormats,
        depthFormats := some tables.readWriteDepthSurfaceFormats,
        numDepthFormats := static_cast_cl_uint tables.readWriteDepthSurfaceFormats.length }
  let l : FormatSelection :=
    if tables.isImage2d imageType = false then
      { l with appendPlanarYUVSurfaces := false, appendPackedYUVSurfaces := false }
    else l
  if tables.isImage2dOr2dArray imageType = false then
    { l with appendDepthSurfaces := false }
  else l

/-- The loop `for (entry = 0; entry < numImageFormats; ++entry) imageFormats[entry] =
surfaceFormats[entry].OCLImageFormat;` with `remaining = numImageFormats - entry` iterations
to go; the result is `entry` after the loop and the writes made so far. -/
def Context.getSupportedImageFormats.copyBase (surfaceFormats : Option (List SurfaceFormatInfo)) :
    Nat → Nat → List (Nat × cl_image_format) → Option (Nat × List (Nat × cl_image_format))
  | 0, entry, writes => some (entry, writes)
  | remaining + 1, entry, writes =>
    match surfaceFormats with
    | none => none
    | some table =>
      match table[entry]? with
      | none => none
      | some format =>
        Context.getSupportedImageFormats.copyBase surfaceFormats remaining (entry + 1)
          (writes ++ [(entry, format.OCLImageFormat)])

/-- Each of the three loops `for (uint32_t tableEntry = 0; tableEntry < count && (entry <
numEntries); ++tableEntry, ++entry) imageFormats[entry] = table[tableEntry].OCLImageFormat;`,
with `remaining = count - tableEntry`. -/
def Context.getSupportedImageFormats.appendFormats (table : Option (List SurfaceFormatInfo))
    (numEntries : Nat) :
    Nat → Nat → Nat → List (Nat × cl_image_format) →
    Option (Nat × List (Nat × cl_image_format))
  | 0, _, entry, writes => some (entry, writes)
  | remaining + 1, tableEntry, entry, writes =>
    if entry < numEntries then
      match table with
      | none => none
      | some formats =>
        match formats[tableEntry]? with
        | none => none
        | some format =>
          Context.getSupportedImageFormats.appendFormats table numEntries remaining
            (tableEntry + 1) (entry + 1) (writes ++ [(entry, format.OCLImageFormat)])
    else some (entry, writes)

/-- What a call of `getSupportedImageFormats` leaves behind: the value returned, the
assignments `imageFormats[entry] = format` as pairs `(entry, format)` in the order they were
made, and the value stored in `*numImageFormatsReturned` (`none` when that pointer is
null). -/
structure SupportedImageFormats where
  retVal : Int
  writes : List (Nat × cl_image_format)
  numImageFormatsReturned : Option Nat
  deriving DecidableEq

/-- The function `Context::getSupportedImageFormats(device, flags, imageType, numEntries,
imageFormats, numImageFormatsReturned)`.  The two pointers are given by whether they are not
null.  The result is `none` when a null table or a slot past the end of a table is read. -/
def Context.getSupportedImageFormats (tables : SurfaceFormatTables) (device : Device)
    (flags imageType numEntries : Nat) (imageFormats numImageFormatsReturned : Bool) :
    Option SupportedImageFormats :=
  let nv12ExtensionEnabled := device.getDeviceInfo.nv12Extension
  let packedYuvExtensionEnabled := device.getDeviceInfo.packedYuvExtension
  let l := Context.getSupportedImageFormats.select tables device flags imageType
  let copied : Option (Nat × List (Nat × cl_image_format)) :=
    if imageFormats = true then
      let numImageFormats := min numEntries l.numImageFormats
      (Context.getSupportedImageFormats.copyBase l.surfaceFormats numImageFormats 0 []).bind
        fun s1 =>
      (if nv12ExtensionEnabled = true ∧ l.appendPlanarYUVSurfaces = true then
          Context.getSupportedImageFormats.appendFormats (some tables.planarYuvSurfaceFormats)
            numEntries tables.planarYuvSurfaceFormats.length 0 s1.1 s1.2
        else some s1).bind fun s2 =>
      (if l.appendDepthSurfaces = true then
          Context.getSupportedImageFormats.appendFormats l.depthFormats numEntries
            l.numDepthFormats 0 s2.1 s2.2
        else some s2).bind fun s3 =>
      (if packedYuvExtensionEnabled = true ∧ l.appendPackedYUVSurfaces = true then
          Context.getSupportedImageFormats.appendFormats (some tables.packedYuvSurfaceFormats)
            numEntries tables.packedYuvSurfaceFormats.length 0 s3.1 s3.2
        else some s3).map fun s4 => (numImageFormats, s4.2)
    else some (l.numImageFormats, [])
  copied.map fun c =>
    { retVal := CL_SUCCESS,
      writes := c.2,
      numImageFormatsReturned :=
        if numImageFormatsReturned = true then
          let numImageFormats := c.1
          let numImageFormats :=
            if nv12ExtensionEnabled = true ∧ l.appendPlanarYUVSurfaces = true then
              (numImageFormats + static_cast_cl_uint tables.planarYuvSurfaceFormats.length)
                % 4294967296
            else numImageFormats
          let numImageFormats :=
            if packedYuvExtensionEnabled = true ∧ l.appendPackedYUVSurfaces = true then
              (numImageFormats + static_cast_cl_uint tables.packedYuvSurfaceFormats.length)
                % 4294967296
            else numImageFormats
          let numImageFormats :=
            if l.appendDepthSurfaces = true then
              (numImageFormats + l.numDepthFormats) % 4294967296
            else numImageFormats
          some numImageFormats
        else none }

/-- The tables have sizes in the `cl_uint` range, so that no `static_cast<cl_uint>` of a
size changes it. -/
def SurfaceFormatTables.sizesAre32Bit (tables : SurfaceFormatTables) : Prop :=
  tables.readOnlySurfaceFormats.length < 4294967296 ∧
    tables.writeOnlySurfaceFormats.length < 4294967296 ∧
    tables.readWriteSurfaceFormats.length < 4294967296 ∧
    tables.readOnlyDepthSurfaceFormats.length < 4294967296 ∧
    tables.readWriteDepthSurfaceFormats.length < 4294967296 ∧
    tables.planarYuvSurfaceFormats.length < 4294967296 ∧
    tables.packedYuvSurfaceFormats.length < 4294967296

/-- The supported image formats for a device, flags and image type, in the order base, planar
YUV, depth, packed YUV: the base table that the flags select, then each of the other three
tables when it applies (the extension is enabled where one is needed, the image type admits
the formats, and for the depth formats the flags select a depth table). -/
def supportedImageFormats (tables : SurfaceFormatTables) (device : Device)
    (flags imageType : Nat) : List cl_image_format :=
  let l := Context.getSupportedImageFormats.select tables device flags imageType
  (l.surfaceFormats.getD []).map SurfaceFormatInfo.OCLImageFormat ++
    (if device.getDeviceInfo.nv12Extension = true ∧ l.appendPlanarYUVSurfaces = true then
      tables.planarYuvSurfaceFormats.map SurfaceFormatInfo.OCLImageFormat else []) ++
    (if l.appendDepthSurfaces = true then
      (l.depthFormats.getD []).map SurfaceFormatInfo.OCLImageFormat else []) ++
    (if device.getDeviceInfo.packedYuvExtension = true ∧ l.appendPackedYUVSurfaces = true then
      tables.packedYuvSurfaceFormats.map SurfaceFormatInfo.OCLImageFormat else [])

/-! ## Context: creation and queries

`Context::createImpl` and `Context::getInfo` of `runtime/context/context.cpp`.  A property
list is a pointer to an array of `cl_context_properties` words that a 0 word ends; here it is
`none` for `nullptr` or `some` list, the words from the pointer on, and reading past the end
of that list makes the run undefined (`none`).  What the functions consume from other files
is the parameter `ContextCollaborators`. -/

/-- The OpenCL API constant `CL_INVALID_PLATFORM` of `CL/cl.h`. -/
def CL_INVALID_PLATFORM : Int := -32

/-- The OpenCL API constant `CL_CONTEXT_REFERENCE_COUNT` of `CL/cl.h`. -/
def CL_CONTEXT_REFERENCE_COUNT : Nat := 0x1080

/-- The OpenCL API constant `CL_CONTEXT_DEVICES` of `CL/cl.h`. -/
def CL_CONTEXT_DEVICES : Nat := 0x1081

/-- The OpenCL API constant `CL_CONTEXT_PROPERTIES` of `CL/cl.h`. -/
def CL_CONTEXT_PROPERTIES : Nat := 0x1082

/-- The OpenCL API constant `CL_CONTEXT_NUM_DEVICES` of `CL/cl.h`. -/
def CL_CONTEXT_NUM_DEVICES : Nat := 0x1083

/-- The OpenCL API constant `CL_CONTEXT_PLATFORM` of `CL/cl.h`. -/
def CL_CONTEXT_PLATFORM : Int := 0x1084

/-- The OpenCL API constant `CL_CONTEXT_INTEROP_USER_SYNC` of `CL/cl.h`. -/
def CL_CONTEXT_INTEROP_USER_SYNC : Int := 0x1085

/-- The OpenCL extension constant `CL_CONTEXT_SHOW_DIAGNOSTICS_INTEL`. -/
def CL_CONTEXT_SHOW_DIAGNOSTICS_INTEL : Int := 0x4106

/-- The size `sizeof(cl_context_properties)` of an `intptr_t`, in bytes. -/
def sizeof_cl_context_properties : Nat := 8

/-- The size `sizeof(cl_device_id)` of a pointer, in bytes. -/
def sizeof_cl_device_id : Nat := 8

/-- The size `sizeof(cl_uint)`, in bytes. -/
def sizeof_cl_uint : Nat := 4

/-- The members of `Context` that `createImpl` and `getInfo` read or write.  The memory
manager, the SVM manager and the special queue are given by their identities; `properties` is
the array the context owns (`none` for `nullptr`); `driverDiagnostics` is the verbose level
of the `DriverDiagnostics` object (`none` for `nullptr`); `sharingFunctions` stands for the
sharing functions registered with the context; `deleterClients` records the memory managers
whose deferred deleter got `addClient()` from this context. -/
structure Context where
  properties : Option (List Int)
  numProperties : Nat
  devices : List Device
  memoryManager : Option Nat
  svmAllocsManager : Option Nat
  specialQueue : Option Nat
  driverDiagnostics : Option Nat
  interopUserSync : Bool
  sharingFunctions : List Nat
  refApi : Int
  refInternal : Int
  deleterClients : List Nat
  deriving DecidableEq

/-- What `pValue` points to in `Context::getInfo`. -/
inductive InfoValue
  | null
  | deviceIDs (devices : List Device)
  | numDevices (numDevices : Nat)
  | properties (words : List Int)
  | refCount (refCount : Nat)
  | osContextInfo (paramName : Nat)
  deriving DecidableEq

/-- What `createImpl` and `getInfo` consume from outside `context.cpp`.

* `platform` is the result of `platform()`.
* `diagnosticsVerboseLevel value` is the conversion `(cl_diagnostics_verbose_level)value` of
  a property word; the type is declared in a header outside `context.cpp`.
* The sharing builder made by `sharingFactory.build()` is given by the list of the
  properties handed to it so far.  `processProperties builder type value errcodeRet` is the
  Boolean it returns and the value of `errcodeRet` afterwards; `finalizeProperties builder
  context errcodeRet` is the Boolean it returns, `errcodeRet` afterwards and the sharing
  functions registered with the context afterwards.
* `createContextOsProperties context type value` is the code it returns and the sharing
  functions registered with the context afterwards.
* `createCommandQueue context device errcodeRet` is the result of `CommandQueue::create(this,
  device, nullptr, errcodeRet)`: the queue (`none` for `nullptr`) and `errcodeRet` afterwards.
* `getOsContextInfo context paramName` is the pointer returned and the size stored.
* `getInfo paramValue paramValueSize pValue valueSize` is the result of the helper
  `::getInfo`; `paramValue` says whether the destination pointer is not null. -/
structure ContextCollaborators where
  platform : Int
  diagnosticsVerboseLevel : Int → Nat
  processProperties : List (Int × Int) → Int → Int → Int → Bool × Int
  finalizeProperties : List (Int × Int) → Context → Int → Bool × Int × List Nat
  createContextOsProperties : Context → Int → Int → Int × List Nat
  isAsyncDeleterEnabled : Nat → Bool
  createCommandQueue : Context → Device → Int → Option Nat × Int
  getOsContextInfo : Context → Nat → InfoValue × Nat
  getInfo : Bool → Nat → InfoValue → Nat → Int

/-- The constructor `Context::Context(funcNotify, data)`, for the members modelled: no
properties, no memory manager, no special queue, no driver diagnostics.  The members that the
constructor does not assign have the values of an object not yet used. -/
def Context.new : Context :=
  { properties := none, numProperties := 0, devices := [], memoryManager := none,
    svmAllocsManager := none, specialQueue := none, driverDiagnostics := none,
    interopUserSync := false, sharingFunctions := [], refApi := 1, refInternal := 1,
    deleterClients := [] }

/-- The locals of `createImpl` that the loop over the property list sets; `consumed` is
`ptrDiff(propertiesCurrent, properties) / sizeof(cl_context_properties)`. -/
structure PropertyLocals where
  errcodeRet : Int
  interopUserSync : Bool
  driverDiagnostics : Option Nat
  sharingBuilder : List (Int × Int)
  consumed : Nat
  deriving DecidableEq

/-- How the loop over the property list ends: by `return false` after a property left
`errcodeRet != CL_SUCCESS`, or by reaching the 0 word. -/
inductive PropertyLoopOutcome
  | rejected (errcodeRet : Int) (context : Context)
  | parsed (locals : PropertyLocals) (context : Context)
  deriving DecidableEq

/-- The body of the loop over the property list, from `errcodeRet = CL_SUCCESS` to the end
of the `switch (propertyType)`, for the pair `propertyType`, `propertyValue` just read. -/
def Context.createImpl.property (ext : ContextCollaborators) (propertyType propertyValue : Int)
    (l : PropertyLocals) (context : Context) : PropertyLocals × Context :=
  let l : PropertyLocals := { l with errcodeRet := CL_SUCCESS, consumed := l.consumed + 2 }
  if propertyType = CL_CONTEXT_PLATFORM then
    (if propertyValue ≠ ext.platform then { l with errcodeRet := CL_INVALID_PLATFORM } else l,
      context)
  else if propertyType = CL_CONTEXT_SHOW_DIAGNOSTICS_INTEL then
    ({ l with driverDiagnostics := some (ext.diagnosticsVerboseLevel propertyValue) }, context)
  else if propertyType = CL_CONTEXT_INTEROP_USER_SYNC then
    ({ l with interopUserSync := decide (propertyValue > 0) }, context)
  else
    let r := ext.processProperties l.sharingBuilder propertyType propertyValue l.errcodeRet
    let l : PropertyLocals :=
      { l with
        sharingBuilder := l.sharingBuilder ++ [(propertyType, propertyValue)],
        errcodeRet := r.2 }
    if r.1 = false then
      let o := ext.createContextOsProperties context propertyType propertyValue
      ({ l with errcodeRet := o.1 }, { context with sharingFunctions := o.2 })
    else (l, context)

/-- The loop `while (propertiesCurrent && *propertiesCurrent)` of `createImpl` for a non-null
`propertiesCurrent`; the first argument holds the words from `propertiesCurrent` on. -/
def Context.createImpl.loop (ext : ContextCollaborators) :
    List Int → PropertyLocals → Context → Option PropertyLoopOutcome
  | [], _, _ => none
  | [propertyType], l, context =>
    if propertyType = 0 then some (PropertyLoopOutcome.parsed l context) else none
  | propertyType :: propertyValue :: rest, l, context =>
    if propertyType = 0 then some (PropertyLoopOutcome.parsed l context)
    else
      let s := Context.createImpl.property ext propertyType propertyValue l context
      if s.1.errcodeRet ≠ CL_SUCCESS then
        some (PropertyLoopOutcome.rejected s.1.errcodeRet s.2)
      else Context.createImpl.loop ext rest s.1 s.2

/-- The part of `createImpl` from `auto numProperties = ptrDiff(...)` to
`this->setInteropUserSyncEnabled(interopUserSync)`: the words consumed are copied into a new
array with a 0 word after them, if there are any, and the properties, their number, the
devices and the interop flag are stored in the context. -/
def Context.createImpl.store (context : Context) (properties : Option (List Int))
    (devices : List Device) (l : PropertyLocals) : Context :=
  let numProperties := l.consumed
  let copied : Option (List Int) × Nat :=
    if numProperties ≠ 0 then
      (some ((properties.getD []).take numProperties ++ [0]), numProperties + 1)
    else (none, numProperties)
  { context with
    numProperties := copied.2, properties := copied.1, devices := devices,
    interopUserSync := l.interopUserSync }

/-- The part of `createImpl` from `sharingBuilder->finalizeProperties(*this, errcodeRet)` to
the end. -/
def Context.createImpl.finish (ext : ContextCollaborators) (context : Context)
    (devices : List Device) (l : PropertyLocals) : Option (Bool × Int × Context) :=
  let f := ext.finalizeProperties l.sharingBuilder context l.errcodeRet
  let context : Context := { context with sharingFunctions := f.2.2 }
  if f.1 = false then some (false, f.2.1, context)
  else
    let context : Context := { context with driverDiagnostics := l.driverDiagnostics }
    match devices with
    | [] => none
    | device :: _ =>
      let memoryManager := device.getMemoryManager
      let context : Context :=
        { context with
          memoryManager := some memoryManager, svmAllocsManager := some memoryManager,
          deleterClients :=
            if ext.isAsyncDeleterEnabled memoryManager = true then
              context.deleterClients ++ [memoryManager]
            else context.deleterClients }
      let q := ext.createCommandQueue context device f.2.1
      match q.1 with
      | none => none
      | some commandQueue =>
        some (true, q.2,
          { context with specialQueue := some commandQueue,
                         refInternal := context.refInternal - 1 })

/-- The function `Context::createImpl(properties, devices, funcNotify, data, errcodeRet)`:
the Boolean returned, `errcodeRet` afterwards and the context afterwards.  The result is
`none` when the run is undefined: the property list is read past its end, `devices[0]` is
taken of an empty vector, or the command queue created is null and is dereferenced. -/
def Context.createImpl (ext : ContextCollaborators) (context : Context)
    (properties : Option (List Int)) (devices : List Device) (_funcNotify _data : Option Nat)
    (errcodeRet : Int) : Option (Bool × Int × Context) :=
  let locals : PropertyLocals :=
    { errcodeRet := errcodeRet, interopUserSync := false, driverDiagnostics := none,
      sharingBuilder := [], consumed := 0 }
  let outcome : Option PropertyLoopOutcome :=
    match properties with
    | none => some (PropertyLoopOutcome.parsed locals context)
    | some words => Context.createImpl.loop ext words locals context
  match outcome with
  | none => none
  | some (PropertyLoopOutcome.rejected errcodeRet context) => some (false, errcodeRet, context)
  | some (PropertyLoopOutcome.parsed l context) =>
    Context.createImpl.finish ext (Context.createImpl.store context properties devices l)
      devices l

/-- The function `Context::getInfo(paramName, paramValueSize, paramValue,
paramValueSizeRet)`: the value returned and the value stored in `*paramValueSizeRet` (`none`
when that pointer is null).  The two pointers are given by whether they are not null. -/
def Context.getInfo (ext : ContextCollaborators) (context : Context)
    (paramName paramValueSize : Nat) (paramValue paramValueSizeRet : Bool) :
    Int × Option Nat :=
  let s : Nat × InfoValue × Bool :=
    if paramName = CL_CONTEXT_DEVICES then
      (context.devices.length * sizeof_cl_device_id, InfoValue.deviceIDs context.devices, true)
    else if paramName = CL_CONTEXT_NUM_DEVICES then
      (sizeof_cl_uint, InfoValue.numDevices (static_cast_cl_uint context.devices.length), true)
    else if paramName = CL_CONTEXT_PROPERTIES then
      let valueSize := context.numProperties * sizeof_cl_context_properties
      let pValue :=
        match context.properties with
        | some words => InfoValue.properties words
        | none => InfoValue.null
      (valueSize, pValue, if valueSize = 0 then false else true)
    else if paramName = CL_CONTEXT_REFERENCE_COUNT then
      (sizeof_cl_uint, InfoValue.refCount (toUInt32 context.refApi), true)
    else
      let o := ext.getOsContextInfo context paramName
      (o.2, o.1, true)
  let retVal : Int :=
    if s.2.2 = true then ext.getInfo paramValue paramValueSize s.2.1 s.1
    else CL_SUCCESS
  (retVal, if paramValueSizeRet = true then some s.1 else none)

/-- The words of a property list that holds the given key/value pairs, without the 0 word
that ends it. -/
def propertyWords : List (Int × Int) → List Int
  | [] => []
  | (propertyType, propertyValue) :: rest =>
    propertyType :: propertyValue :: propertyWords rest

/-! ## Concrete states used to instantiate the theorems -/

/-- An allocation of the given size and task count at host address 4096. -/
def sampleAllocation (size taskCount : Nat) : GraphicsAllocation :=
  { cpuPtr := 4096, size := size, taskCount := taskCount, coherent := false }

/-- A manager holding the given temporary and reusable lists and receiver, nothing else. -/
def sampleManager (graphicsAllocations allocationsForReuse : AllocationsList)
    (csr : Option CommandStreamReceiver) : MemoryManager :=
  { graphicsAllocations := graphicsAllocations, allocationsForReuse := allocationsForReuse,
    csr := csr, enable64kbpages := false, paddingAllocation := none,
    profilingTimeStampAllocator := none, perfCounterAllocator := none, freed := [] }

/-- A receiver with the given task count and completion counter value. -/
def sampleReceiver (taskCount tag : Nat) : CommandStreamReceiver :=
  { taskCount := taskCount, latestSentTaskCount := taskCount, tagAddress := tag }

/-- Collaborators for concrete runs: one fragment per request; the overlap check reports
overlapping-and-bigger exactly when `overlaps` holds of the manager; `fragmentCount` and
`handlesOk` are what fragment population and OS registration answer. -/
def sampleCollaborators (tagReads : Nat → Nat) (overlaps : MemoryManager → Bool)
    (fragmentCount : Nat) (handlesOk : Bool) : Collaborators :=
  { tagReads := tagReads
    getAllocationRequirements := fun ptr size =>
      { AllocationFragments := [{ allocationPtr := ptr, allocationSize := size }],
        requiredFragmentsCount := 1 }
    drain := fun _ mm => mm
    getFragmentAndCheckForOverlaps := fun mm _ _ =>
      if overlaps mm = true then
        (none, OverlapStatus.FRAGMENT_OVERLAPING_AND_BIGGER_THEN_STORED_FRAGMENT)
      else (none, OverlapStatus.FRAGMENT_NOT_OVERLAPING_WITH_ANY_OTHER)
    populateAlreadyAllocatedFragments := fun _ requirements _ =>
      { fragmentStorageData := requirements.AllocationFragments.map
          (fun f => { fragmentCpuPointer := f.allocationPtr, fragmentSize := f.allocationSize }),
        fragmentCount := fragmentCount }
    populateOsHandles := fun _ osStorage => (handlesOk, osStorage)
    createGraphicsAllocation := fun _ _ size ptr =>
      some { cpuPtr := ptr, size := size, taskCount := 0, coherent := false }
    allocateGraphicsMemory64kb := fun _ size _ _ =>
      some { cpuPtr := 65536, size := size, taskCount := 0, coherent := false }
    allocateGraphicsMemory := fun _ size _ =>
      some { cpuPtr := 4096, size := size, taskCount := 0, coherent := false } }

/-- A surface format told apart by its channel order. -/
def sampleFormat (order : Nat) : SurfaceFormatInfo :=
  { OCLImageFormat := { image_channel_order := order, image_channel_data_type := 0 } }

/-- Tables with three read-only, two write-only and one read-write base format, one depth
format of each kind, one planar YUV and two packed YUV formats; image type `0x10F1` is the
2D image and `0x10F3` the 2D image array. -/
def sampleTables : SurfaceFormatTables :=
  { readOnlySurfaceFormats := [sampleFormat 1, sampleFormat 2, sampleFormat 3]
    writeOnlySurfaceFormats := [sampleFormat 4, sampleFormat 5]
    readWriteSurfaceFormats := [sampleFormat 6]
    readOnlyDepthSurfaceFormats := [sampleFormat 7]
    readWriteDepthSurfaceFormats := [sampleFormat 8]
    planarYuvSurfaceFormats := [sampleFormat 9]
    packedYuvSurfaceFormats := [sampleFormat 10, sampleFormat 11]
    isImage2d := fun imageType => imageType == 0x10F1
    isImage2dOr2dArray := fun imageType => imageType == 0x10F1 || imageType == 0x10F3 }

/-- A device with both YUV extensions enabled, served by memory manager 1. -/
def sampleDevice : Device :=
  { deviceInfo := { nv12Extension := true, packedYuvExtension := true }, memoryManager := 1 }

/-- Collaborators for concrete runs of `createImpl`: the current platform is 7; the sharing
builder handles no property and finalizes according to `finalizes`; the OS specific part
knows no property (it answers `CL_INVALID_PROPERTY`, -64); queue creation succeeds. -/
def sampleContextCollaborators (finalizes : Bool) : ContextCollaborators :=
  { platform := 7
    diagnosticsVerboseLevel := fun value => toUInt32 value
    processProperties := fun _ _ _ errcodeRet => (false, errcodeRet)
    finalizeProperties := fun _ context errcodeRet =>
      (finalizes, errcodeRet, context.sharingFunctions)
    createContextOsProperties := fun context _ _ => (-64, context.sharingFunctions)
    isAsyncDeleterEnabled := fun _ => false
    createCommandQueue := fun _ _ _ => (some 5, CL_SUCCESS)
    getOsContextInfo := fun _ _ => (InfoValue.null, 0)
    getInfo := fun paramValue paramValueSize _ valueSize =>
      if paramValue = true ∧ paramValueSize < valueSize then -30 else CL_SUCCESS }

/-! ## Helper lemmas -/

/-- The test made on `curr` in the loop of `detachAllocationImpl`, as a Boolean function. -/
def detachTest (req : ReusableAllocationRequirements) (curr : GraphicsAllocation) : Bool :=
  decide (curr.getUnderlyingBufferSize ≥ req.requiredMinimalSize ∧
    ((match req.csrTagAddress with
      | some v => v
      | none => toUInt32 (-1)) > curr.taskCount ∨ curr.taskCount = 0))

theorem scan_eq (req : ReusableAllocationRequirements) (l : AllocationsList) :
    ∀ (chain sofar : List GraphicsAllocation), l = sofar ++ chain →
      AllocationsList.detachAllocationImpl.scan req l sofar.length chain =
        (chain.find? (detachTest req), sofar ++ chain.eraseP (detachTest req)) := by
  intro chain
  induction chain with
  | nil =>
    intro sofar h
    simp [AllocationsList.detachAllocationImpl.scan, h]
  | cons curr next ih =>
    intro sofar h
    by_cases hc : detachTest req curr = true
    · have hc' := hc
      simp only [detachTest, decide_eq_true_eq] at hc'
      have hget : l[sofar.length]? = some curr := by
        rw [h, List.getElem?_append_right (Nat.le_refl _)]; simp
      have herase : l.eraseIdx sofar.length = sofar ++ next := by
        rw [h, List.eraseIdx_append_of_length_le (Nat.le_refl _)]; simp
      simp only [AllocationsList.detachAllocationImpl.scan, if_pos hc', IDList.removeOneImpl,
        hget, herase, List.find?_cons_of_pos _ hc, List.eraseP_cons_of_pos hc]
    · have hc' := hc
      simp only [detachTest, decide_eq_true_eq] at hc'
      have h2 : l = (sofar ++ [curr]) ++ next := by simp [h]
      have := ih (sofar ++ [curr]) h2
      simp only [List.length_append, List.length_singleton] at this
      simp only [AllocationsList.detachAllocationImpl.scan, if_neg hc', this,
        List.find?_cons_of_neg _ hc, List.eraseP_cons_of_neg hc, List.append_assoc,
        List.singleton_append]

theorem detachAllocationImpl_eq (l : AllocationsList) (req : ReusableAllocationRequirements) :
    AllocationsList.detachAllocationImpl l req =
      (l.find? (detachTest req), l.eraseP (detachTest req)) := by
  have := scan_eq req l l [] rfl
  simpa [AllocationsList.detachAllocationImpl] using this

theorem detachTest_tag (minSize tag : Nat) (a : GraphicsAllocation) :
    detachTest { requiredMinimalSize := minSize, csrTagAddress := some tag } a = true ↔
      reuseEligible minSize tag a := by
  simp only [detachTest, decide_eq_true_eq, reuseEligible,
    GraphicsAllocation.getUnderlyingBufferSize]
  constructor
  · rintro ⟨h1, h2⟩
    exact ⟨h1, h2.symm⟩
  · rintro ⟨h1, h2⟩
    exact ⟨h1, h2.symm⟩

theorem freeLoop_eq (waitTaskCount : Nat) :
    ∀ (chain : List GraphicsAllocation) (mm : MemoryManager) (allocationsLeft : IDList),
      MemoryManager.freeAllocationsList.loop waitTaskCount chain mm allocationsLeft =
        ({ mm with freed := mm.freed ++
            chain.filter (fun a => decide (a.taskCount ≤ waitTaskCount)) },
          allocationsLeft ++ chain.filter (fun a => decide (waitTaskCount < a.taskCount))) := by
  intro chain
  induction chain with
  | nil =>
    intro mm left
    simp [MemoryManager.freeAllocationsList.loop]
  | cons curr next ih =>
    intro mm left
    by_cases hc : curr.taskCount ≤ waitTaskCount
    · have hn : ¬ waitTaskCount < curr.taskCount := by omega
      simp [MemoryManager.freeAllocationsList.loop, hc, hn, ih,
        MemoryManager.freeGraphicsMemory]
    · have hn : waitTaskCount < curr.taskCount := by omega
      simp [MemoryManager.freeAllocationsList.loop, hc, hn, ih, IDList.pushTailOne]

theorem freeAllocationsList_eq (mm : MemoryManager) (waitTaskCount : Nat)
    (allocationsList : AllocationsList) :
    mm.freeAllocationsList waitTaskCount allocationsList =
      ({ mm with freed := mm.freed ++
          allocationsList.filter (fun a => decide (a.taskCount ≤ waitTaskCount)) },
        allocationsList.filter (fun a => decide (waitTaskCount < a.taskCount))) := by
  unfold MemoryManager.freeAllocationsList
  simp only [IDList.detachNodes, freeLoop_eq, List.nil_append, IDList.peekIsEmpty,
    IDList.splice]
  split
  · rfl
  · rename_i h
    simp only [Bool.not_eq_false, List.isEmpty_iff] at h
    simp [h]

theorem obtainReusableAllocation_eq (mm : MemoryManager) (requiredSize : Nat) :
    mm.obtainReusableAllocation requiredSize =
      (mm.allocationsForReuse.find? (detachTest
          { requiredMinimalSize := requiredSize,
            csrTagAddress := mm.csr.map CommandStreamReceiver.getTagAddress }),
        { mm with allocationsForReuse := mm.allocationsForReuse.eraseP (detachTest
          { requiredMinimalSize := requiredSize,
            csrTagAddress := mm.csr.map CommandStreamReceiver.getTagAddress }) }) := by
  unfold MemoryManager.obtainReusableAllocation AllocationsList.detachAllocation
  rw [detachAllocationImpl_eq]
  cases mm.csr <;> rfl

/-- In a list that holds a node passing the test `p` at position `before.length`, the first
node passing `p` sits at a position `j ≤ before.length`, and erasing the first such node is
erasing position `j`. -/
theorem first_match_not_after (p : GraphicsAllocation → Bool) (s : GraphicsAllocation)
    (after : List GraphicsAllocation) (hs : p s = true) :
    ∀ before : List GraphicsAllocation, ∃ j x, j ≤ before.length ∧
      (before ++ s :: after)[j]? = some x ∧ p x = true ∧
      (∀ i a, i < j → (before ++ s :: after)[i]? = some a → p a = false) ∧
      (before ++ s :: after).find? p = some x ∧
      (before ++ s :: after).eraseP p = (before ++ s :: after).eraseIdx j := by
  intro before
  induction before with
  | nil =>
    refine ⟨0, s, Nat.le_refl _, by simp, hs, ?_, by simp [hs], by simp [hs]⟩
    intro i a hi
    omega
  | cons b bs ih =>
    by_cases hb : p b = true
    · refine ⟨0, b, Nat.zero_le _, by simp, hb, ?_, by simp [hb], by simp [hb]⟩
      intro i a hi
      omega
    · obtain ⟨j, x, hj, hget, hx, hmin, hfind, herase⟩ := ih
      refine ⟨j + 1, x, by simp; omega, by simpa using hget, hx, ?_, ?_, ?_⟩
      · intro i a hi hia
        cases i with
        | zero =>
          simp at hia
          subst hia
          simpa using hb
        | succ k =>
          simp at hia
          exact hmin k a (by omega) hia
      · simp [hb, hfind]
      · simp [hb, herase]

/-! ## Detach: first fit among the eligible nodes -/

/-- C1: with a non-null tag address holding `tag`, `detachAllocation(minSize, tagAddress)`
returns the first node from the head whose size is at least `minSize` and whose task count is
0 or below `tag`: the nodes in front of the returned one are all ineligible; and it returns
null exactly when no node of the list is eligible. -/
theorem detachAllocation_returns_first_eligible (l : AllocationsList) (minSize tag : Nat) :
    (AllocationsList.detachAllocation l minSize (some tag)).1 =
        l.find? (fun a => decide (reuseEligible minSize tag a)) ∧
      (∀ x, (AllocationsList.detachAllocation l minSize (some tag)).1 = some x →
        reuseEligible minSize tag x ∧
          ∃ before after, l = before ++ x :: after ∧
            ∀ a ∈ before, ¬ reuseEligible minSize tag a) ∧
      ((AllocationsList.detachAllocation l minSize (some tag)).1 = none ↔
        ∀ a ∈ l, ¬ reuseEligible minSize tag a) := by
  have hfun : detachTest { requiredMinimalSize := minSize, csrTagAddress := some tag } =
      fun a => decide (reuseEligible minSize tag a) := by
    funext a
    rw [Bool.eq_iff_iff, detachTest_tag]
    simp
  have hres : (AllocationsList.detachAllocation l minSize (some tag)).1 =
      l.find? (fun a => decide (reuseEligible minSize tag a)) := by
    unfold AllocationsList.detachAllocation
    rw [detachAllocationImpl_eq, hfun]
  refine ⟨hres, ?_, ?_⟩
  · intro x hx
    rw [hres, List.find?_eq_some] at hx
    obtain ⟨hp, before, after, hl, hbefore⟩ := hx
    refine ⟨by simpa using hp, before, after, hl, ?_⟩
    intro a ha
    simpa using hbefore a ha
  · rw [hres, List.find?_eq_none]
    simp

/-! ## Retirement -/

/-- C2: `freeAllocationsList(N, list)` leaves in the list exactly the nodes with
`taskCount > N`, in their original relative order, and hands to `freeGraphicsMemory` exactly
the nodes with `taskCount ≤ N`, each once and in list order; nothing else of the manager
changes.  This holds for every list and every `N`. -/
theorem freeAllocationsList_keeps_later_frees_retired (mm : MemoryManager) (N : Nat)
    (list : AllocationsList) :
    (mm.freeAllocationsList N list).2 = list.filter (fun a => decide (N < a.taskCount)) ∧
      (mm.freeAllocationsList N list).1.freed =
        mm.freed ++ list.filter (fun a => decide (a.taskCount ≤ N)) ∧
      (mm.freeAllocationsList N list).1 =
        { mm with freed := (mm.freeAllocationsList N list).1.freed } := by
  rw [freeAllocationsList_eq]
  exact ⟨rfl, rfl, rfl⟩

/-- The three-argument store with recycling enabled: stamp, then push on the tail of the
list chosen by the kind. -/
theorem storeAllocation3_recycling (D : DebugVariables) (mm : MemoryManager)
    (A : GraphicsAllocation) (allocationType taskCount : Nat)
    (hD : D.DisableResourceRecycling = false) :
    mm.storeAllocation3 D A allocationType taskCount =
      if allocationType = TEMPORARY_ALLOCATION then
        { mm with graphicsAllocations :=
            mm.graphicsAllocations ++ [{ A with taskCount := taskCount }] }
      else
        { mm with allocationsForReuse :=
            mm.allocationsForReuse ++ [{ A with taskCount := taskCount }] } := by
  simp [MemoryManager.storeAllocation3, hD, IDList.pushTailOne]

/-- The three-argument store of kind temporary does not look at the recycling override. -/
theorem storeAllocation3_temporary (D : DebugVariables) (mm : MemoryManager)
    (A : GraphicsAllocation) (taskCount : Nat) :
    mm.storeAllocation3 D A TEMPORARY_ALLOCATION taskCount =
      { mm with graphicsAllocations :=
          mm.graphicsAllocations ++ [{ A with taskCount := taskCount }] } := by
  simp [MemoryManager.storeAllocation3, IDList.pushTailOne, TEMPORARY_ALLOCATION,
    REUSABLE_ALLOCATION]

/-- The three-argument store of kind reusable with recycling disabled frees at once. -/
theorem storeAllocation3_reusable_disabled (D : DebugVariables) (mm : MemoryManager)
    (A : GraphicsAllocation) (taskCount : Nat) (hD : D.DisableResourceRecycling = true) :
    mm.storeAllocation3 D A REUSABLE_ALLOCATION taskCount = mm.freeGraphicsMemory A := by
  simp [MemoryManager.storeAllocation3, hD]

/-- What a two-argument store of kind reusable that did append a node has appended. -/
theorem stored_reusable_node (D : DebugVariables) (mm0 : MemoryManager)
    (A stored : GraphicsAllocation)
    (hstore : (mm0.storeAllocation D A REUSABLE_ALLOCATION).allocationsForReuse =
      mm0.allocationsForReuse ++ [stored]) :
    stored.size = A.size ∧
      (∀ csr0, mm0.csr = some csr0 → stored.taskCount = csr0.peekTaskCount) ∧
      (mm0.csr = none → stored.taskCount = 0) := by
  unfold MemoryManager.storeAllocation at hstore
  cases hD : D.DisableResourceRecycling with
  | true =>
    rw [if_pos rfl, storeAllocation3_reusable_disabled D mm0 A _ hD] at hstore
    simp [MemoryManager.freeGraphicsMemory] at hstore
  | false =>
    rw [if_pos rfl, storeAllocation3_recycling D mm0 A _ _ hD] at hstore
    simp only [REUSABLE_ALLOCATION, TEMPORARY_ALLOCATION, Nat.succ_ne_zero, if_false,
      List.append_cancel_left_eq, List.cons.injEq, and_true] at hstore
    subst hstore
    refine ⟨rfl, ?_, ?_⟩
    · intro csr0 h
      simp [h]
    · intro h
      simp [h]

/-! ## Reuse correctness -/

/-- C3: let `stored` be the node that `storeAllocation(A, REUSABLE_ALLOCATION)` appended, let it
sit anywhere in the reusable list of a later state `mm` with a receiver attached, and let the
completion counter exceed its stamp.  Then `obtainReusableAllocation(minSize)` with
`minSize ≤ size(A)` does not return null: it returns the node at some position `j` not
after the position of `stored`, that node is eligible, it is `stored` itself when `j` is
the position of `stored`, and it is the node removed from the list. -/
theorem obtainReusableAllocation_returns_stored_or_earlier (D : DebugVariables)
    (mm0 mm : MemoryManager) (A stored : GraphicsAllocation) (csr : CommandStreamReceiver)
    (before after : List GraphicsAllocation) (minSize : Nat)
    (hstore : (mm0.storeAllocation D A REUSABLE_ALLOCATION).allocationsForReuse =
      mm0.allocationsForReuse ++ [stored])
    (hlist : mm.allocationsForReuse = before ++ stored :: after)
    (hcsr : mm.csr = some csr)
    (hadv : stored.taskCount < csr.getTagAddress)
    (hsize : minSize ≤ A.size) :
    ∃ j x, j ≤ before.length ∧ mm.allocationsForReuse[j]? = some x ∧
      (mm.obtainReusableAllocation minSize).1 = some x ∧
      reuseEligible minSize csr.getTagAddress x ∧
      (j = before.length → x = stored) ∧
      (mm.obtainReusableAllocation minSize).2.allocationsForReuse =
        mm.allocationsForReuse.eraseIdx j := by
  obtain ⟨hsz, -, -⟩ := stored_reusable_node D mm0 A stored hstore
  have hs : detachTest (ReusableAllocationRequirements.mk minSize
      (some csr.getTagAddress)) stored = true := by
    rw [detachTest_tag]
    exact ⟨by omega, Or.inr hadv⟩
  obtain ⟨j, x, hj, hget, hx, -, hfind, herase⟩ :=
    first_match_not_after _ stored after hs before
  refine ⟨j, x, hj, by rw [hlist]; exact hget, ?_, (detachTest_tag _ _ _).1 hx, ?_, ?_⟩
  · rw [obtainReusableAllocation_eq, hcsr, hlist]
    exact hfind
  · intro hjeq
    rw [hjeq, List.getElem?_append_right (Nat.le_refl _)] at hget
    simpa using hget.symm
  · rw [obtainReusableAllocation_eq, hcsr, hlist]
    exact herase

/-- Witness for C3: a node of size 64 stored at receiver task count 5, found again once the
counter reads 6. -/
theorem obtainReusableAllocation_returns_stored_or_earlier_witness :
    ∃ j x, j ≤ ([] : List GraphicsAllocation).length ∧
      (sampleManager [] [sampleAllocation 64 5]
        (some (sampleReceiver 5 6))).allocationsForReuse[j]? = some x ∧
      ((sampleManager [] [sampleAllocation 64 5]
        (some (sampleReceiver 5 6))).obtainReusableAllocation 32).1 = some x ∧
      reuseEligible 32 (sampleReceiver 5 6).getTagAddress x ∧
      (j = ([] : List GraphicsAllocation).length → x = sampleAllocation 64 5) ∧
      ((sampleManager [] [sampleAllocation 64 5]
        (some (sampleReceiver 5 6))).obtainReusableAllocation 32).2.allocationsForReuse =
        (sampleManager [] [sampleAllocation 64 5]
          (some (sampleReceiver 5 6))).allocationsForReuse.eraseIdx j :=
  obtainReusableAllocation_returns_stored_or_earlier
    { DisableResourceRecycling := false }
    (sampleManager [] [] (some (sampleReceiver 5 0)))
    (sampleManager [] [sampleAllocation 64 5] (some (sampleReceiver 5 6)))
    (sampleAllocation 64 0) (sampleAllocation 64 5) (sampleReceiver 5 6) [] [] 32
    (by decide) (by decide) (by decide) (by decide) (by decide)

/-- C4, the claim as stated fails: with a receiver attached whose task count is 0, a reusable
store stamps 0; the completion counter reads 0, so it has not advanced past the stamp, and
`obtainReusableAllocation(64)` still returns the stored node of size 64. -/
theorem obtainReusableAllocation_returns_zero_stamp_unadvanced :
    ((sampleManager [] [] (some (sampleReceiver 0 0))).storeAllocation
        { DisableResourceRecycling := false } (sampleAllocation 64 9)
        REUSABLE_ALLOCATION).allocationsForReuse = [sampleAllocation 64 0] ∧
      ((sampleManager [] [] (some (sampleReceiver 0 0))).storeAllocation
        { DisableResourceRecycling := false } (sampleAllocation 64 9)
        REUSABLE_ALLOCATION).csr = some (sampleReceiver 0 0) ∧
      (sampleReceiver 0 0).getTagAddress ≤ (sampleAllocation 64 0).taskCount ∧
      (((sampleManager [] [] (some (sampleReceiver 0 0))).storeAllocation
        { DisableResourceRecycling := false } (sampleAllocation 64 9)
        REUSABLE_ALLOCATION).obtainReusableAllocation 64).1 = some (sampleAllocation 64 0) := by
  decide

/-- C4, amended: let `stored` be the node that `storeAllocation(A, REUSABLE_ALLOCATION)`
appended while receiver `csr0` was attached; its stamp is `csr0`'s task count.  In any later
state `mm` that holds it in the reusable list with a receiver attached, as long as the
completion counter is at most that stamp and the stamp is not 0, `obtainReusableAllocation`
returns, for every `minSize`, neither `stored` nor any node with the same task count, and
`stored` is still in the list afterwards. -/
theorem obtainReusableAllocation_never_returns_unretired (D : DebugVariables)
    (mm0 mm : MemoryManager) (A stored : GraphicsAllocation)
    (csr0 csr : CommandStreamReceiver) (before after : List GraphicsAllocation)
    (hcsr0 : mm0.csr = some csr0)
    (hstore : (mm0.storeAllocation D A REUSABLE_ALLOCATION).allocationsForReuse =
      mm0.allocationsForReuse ++ [stored])
    (hlist : mm.allocationsForReuse = before ++ stored :: after)
    (hcsr : mm.csr = some csr)
    (hnot : csr.getTagAddress ≤ csr0.peekTaskCount)
    (hnz : csr0.peekTaskCount ≠ 0) :
    stored.taskCount = csr0.peekTaskCount ∧
      ∀ minSize : Nat,
        (mm.obtainReusableAllocation minSize).1 ≠ some stored ∧
        (∀ x, (mm.obtainReusableAllocation minSize).1 = some x →
          x.taskCount ≠ stored.taskCount) ∧
        stored ∈ (mm.obtainReusableAllocation minSize).2.allocationsForReuse := by
  obtain ⟨-, hstamp, -⟩ := stored_reusable_node D mm0 A stored hstore
  have hst := hstamp csr0 hcsr0
  refine ⟨hst, ?_⟩
  intro minSize
  have hne : ∀ x, (mm.obtainReusableAllocation minSize).1 = some x →
      x.taskCount ≠ stored.taskCount := by
    intro x hx
    rw [obtainReusableAllocation_eq, hcsr] at hx
    have hp := List.find?_some hx
    have hel := (detachTest_tag minSize csr.getTagAddress x).1 hp
    rcases hel.2 with h0 | hlt
    · omega
    · omega
  refine ⟨?_, hne, ?_⟩
  · intro h
    exact hne stored h rfl
  · rw [obtainReusableAllocation_eq, hcsr]
    have hneg : ¬ detachTest (ReusableAllocationRequirements.mk minSize
        (some csr.getTagAddress)) stored = true := by
      rw [detachTest_tag]
      rintro ⟨-, h0 | hlt⟩
      · omega
      · omega
    show stored ∈ List.eraseP (detachTest (ReusableAllocationRequirements.mk minSize
      (some csr.getTagAddress))) mm.allocationsForReuse
    rw [List.mem_eraseP_of_neg hneg, hlist]
    simp

/-- Witness for C4 (amended): a node stored at receiver task count 5 is not handed out
while the counter reads 5. -/
theorem obtainReusableAllocation_never_returns_unretired_witness :
    (sampleAllocation 64 5).taskCount = (sampleReceiver 5 0).peekTaskCount ∧
      ∀ minSize : Nat,
        ((sampleManager [] [sampleAllocation 64 5]
          (some (sampleReceiver 7 5))).obtainReusableAllocation minSize).1 ≠
            some (sampleAllocation 64 5) ∧
        (∀ x, ((sampleManager [] [sampleAllocation 64 5]
          (some (sampleReceiver 7 5))).obtainReusableAllocation minSize).1 = some x →
            x.taskCount ≠ (sampleAllocation 64 5).taskCount) ∧
        sampleAllocation 64 5 ∈ ((sampleManager [] [sampleAllocation 64 5]
          (some (sampleReceiver 7 5))).obtainReusableAllocation minSize).2.allocationsForReuse :=
  obtainReusableAllocation_never_returns_unretired
    { DisableResourceRecycling := false }
    (sampleManager [] [] (some (sampleReceiver 5 0)))
    (sampleManager [] [sampleAllocation 64 5] (some (sampleReceiver 7 5)))
    (sampleAllocation 64 0) (sampleAllocation 64 5) (sampleReceiver 5 0) (sampleReceiver 7 5)
    [] [] (by decide) (by decide) (by decide) (by decide) (by decide) (by decide)

/-- C5: when the reusable list holds a stamp-5 and a stamp-10 allocation, in this order or
the reverse, and the completion counter reads 7, then `obtainReusableAllocation(minSize)`
with `minSize` at most the size of the stamp-5 allocation returns the stamp-5 allocation and
the list afterwards holds just the stamp-10 allocation.  The size of the stamp-10 allocation
plays no part, so the case where it is at least `minSize` too is included. -/
theorem obtainReusableAllocation_scenario_five_ten (mm : MemoryManager)
    (csr : CommandStreamReceiver) (a5 a10 : GraphicsAllocation) (minSize : Nat)
    (h5 : a5.taskCount = 5) (h10 : a10.taskCount = 10)
    (hs5 : minSize ≤ a5.size)
    (hcsr : mm.csr = some csr) (htag : csr.getTagAddress = 7)
    (hlist : mm.allocationsForReuse = [a5, a10] ∨ mm.allocationsForReuse = [a10, a5]) :
    (mm.obtainReusableAllocation minSize).1 = some a5 ∧
      (mm.obtainReusableAllocation minSize).2.allocationsForReuse = [a10] := by
  have t5 : detachTest (ReusableAllocationRequirements.mk minSize (some csr.getTagAddress))
      a5 = true := by
    rw [detachTest_tag]
    exact ⟨hs5, Or.inr (by omega)⟩
  have t10 : ¬ detachTest (ReusableAllocationRequirements.mk minSize
      (some csr.getTagAddress)) a10 = true := by
    rw [detachTest_tag]
    rintro ⟨-, h0 | hlt⟩
    · omega
    · omega
  rw [obtainReusableAllocation_eq, hcsr]
  rcases hlist with h | h
  · rw [h]
    simp [t5]
  · rw [h]
    simp [t5, t10]

/-- Witness for C5: the stamp-10 allocation first, the stamp-5 allocation second. -/
theorem obtainReusableAllocation_scenario_five_ten_witness :
    ((sampleManager [] [sampleAllocation 128 10, sampleAllocation 64 5]
        (some (sampleReceiver 10 7))).obtainReusableAllocation 64).1 =
        some (sampleAllocation 64 5) ∧
      ((sampleManager [] [sampleAllocation 128 10, sampleAllocation 64 5]
        (some (sampleReceiver 10 7))).obtainReusableAllocation 64).2.allocationsForReuse =
        [sampleAllocation 128 10] :=
  obtainReusableAllocation_scenario_five_ten
    (sampleManager [] [sampleAllocation 128 10, sampleAllocation 64 5]
      (some (sampleReceiver 10 7)))
    (sampleReceiver 10 7) (sampleAllocation 64 5) (sampleAllocation 128 10) 64
    (by decide) (by decide) (by decide) (by decide) (by decide)
    (Or.inr (by decide))

/-- C6, the claim as stated fails: with no receiver attached and the reusable list holding
a node of size 64 stamped `0xFFFFFFFF` followed by a node of size 64 stamped 3,
`obtainReusableAllocation(1)` passes over the first node, although its size is at least 1,
and returns the second. -/
theorem obtainReusableAllocation_no_receiver_skips_max_stamp :
    (sampleManager [] [sampleAllocation 64 4294967295, sampleAllocation 64 3] none).csr = none ∧
      1 ≤ (sampleAllocation 64 4294967295).size ∧
      (sampleAllocation 64 4294967295).taskCount < 2 ^ 32 ∧
      ((sampleManager [] [sampleAllocation 64 4294967295, sampleAllocation 64 3]
        none).obtainReusableAllocation 1).1 = some (sampleAllocation 64 3) ∧
      ((sampleManager [] [sampleAllocation 64 4294967295]
        none).obtainReusableAllocation 1).1 = none := by
  decide

/-- C6, amended: with no receiver attached, `obtainReusableAllocation(minSize)` compares
against the maximum 32-bit value in place of the counter: it returns the first node of the
reusable list whose size is at least `minSize` and whose task count is below `0xFFFFFFFF`
(every 32-bit task count except `0xFFFFFFFF`), and null when there is none. -/
theorem obtainReusableAllocation_no_receiver_first_below_max (mm : MemoryManager)
    (minSize : Nat) (hcsr : mm.csr = none) :
    (mm.obtainReusableAllocation minSize).1 =
        mm.allocationsForReuse.find?
          (fun a => decide (minSize ≤ a.size ∧ a.taskCount < 4294967295)) ∧
      (∀ x, (mm.obtainReusableAllocation minSize).1 = some x →
        minSize ≤ x.size ∧ x.taskCount < 4294967295 ∧
          ∃ before after, mm.allocationsForReuse = before ++ x :: after ∧
            ∀ a ∈ before, ¬ (minSize ≤ a.size ∧ a.taskCount < 4294967295)) := by
  have hfun : detachTest (ReusableAllocationRequirements.mk minSize none) =
      fun a => decide (minSize ≤ a.size ∧ a.taskCount < 4294967295) := by
    funext a
    have h32 : toUInt32 (-1) = 4294967295 := by decide
    rw [Bool.eq_iff_iff]
    simp only [detachTest, h32, decide_eq_true_eq, GraphicsAllocation.getUnderlyingBufferSize]
    constructor
    · rintro ⟨h1, h2 | h2⟩
      · exact ⟨h1, h2⟩
      · exact ⟨h1, by omega⟩
    · rintro ⟨h1, h2⟩
      exact ⟨h1, Or.inl h2⟩
  have hres : (mm.obtainReusableAllocation minSize).1 =
      mm.allocationsForReuse.find?
        (fun a => decide (minSize ≤ a.size ∧ a.taskCount < 4294967295)) := by
    rw [obtainReusableAllocation_eq, hcsr]
    show List.find? (detachTest (ReusableAllocationRequirements.mk minSize none)) _ = _
    rw [hfun]
  refine ⟨hres, ?_⟩
  intro x hx
  rw [hres, List.find?_eq_some] at hx
  obtain ⟨hp, before, after, hl, hbefore⟩ := hx
  simp only [decide_eq_true_eq] at hp
  refine ⟨hp.1, hp.2, before, after, hl, ?_⟩
  intro a ha hcontra
  have hb := hbefore a ha
  simp only [Bool.not_eq_eq_eq_not, Bool.not_true, decide_eq_false_iff_not] at hb
  exact hb hcontra

/-- Witness for C6 (amended): no receiver, a node stamped 7 of size 64. -/
theorem obtainReusableAllocation_no_receiver_first_below_max_witness :
    ((sampleManager [] [sampleAllocation 64 7] none).obtainReusableAllocation 64).1 =
        (sampleManager [] [sampleAllocation 64 7] none).allocationsForReuse.find?
          (fun a => decide (64 ≤ a.size ∧ a.taskCount < 4294967295)) ∧
      (∀ x, ((sampleManager [] [sampleAllocation 64 7] none).obtainReusableAllocation 64).1 =
          some x →
        64 ≤ x.size ∧ x.taskCount < 4294967295 ∧
          ∃ before after,
            (sampleManager [] [sampleAllocation 64 7] none).allocationsForReuse =
              before ++ x :: after ∧
            ∀ a ∈ before, ¬ (64 ≤ a.size ∧ a.taskCount < 4294967295)) :=
  obtainReusableAllocation_no_receiver_first_below_max
    (sampleManager [] [sampleAllocation 64 7] none) 64 (by decide)

/-! ## Store -/

/-- C7: the two-argument `storeAllocation(allocation, kind)` hands the three-argument one
the receiver's `peekTaskCount()` for kind reusable, 0 when no receiver is attached, and the
allocation's own task count for kind temporary.  So a reusable store that stores (recycling
not disabled) appends the allocation stamped with that value, and a temporary store appends
the allocation with its task count unchanged. -/
theorem storeAllocation_stamp (D : DebugVariables) (mm : MemoryManager)
    (A : GraphicsAllocation) :
    mm.storeAllocation D A REUSABLE_ALLOCATION =
        mm.storeAllocation3 D A REUSABLE_ALLOCATION
          ((mm.csr.map CommandStreamReceiver.peekTaskCount).getD 0) ∧
      mm.storeAllocation D A TEMPORARY_ALLOCATION =
        mm.storeAllocation3 D A TEMPORARY_ALLOCATION A.taskCount ∧
      (D.DisableResourceRecycling = false →
        (mm.storeAllocation D A REUSABLE_ALLOCATION).allocationsForReuse =
          mm.allocationsForReuse ++
            [{ A with taskCount := (mm.csr.map CommandStreamReceiver.peekTaskCount).getD 0 }]) ∧
      (mm.storeAllocation D A TEMPORARY_ALLOCATION).graphicsAllocations =
        mm.graphicsAllocations ++ [A] := by
  have h1 : mm.storeAllocation D A REUSABLE_ALLOCATION =
      mm.storeAllocation3 D A REUSABLE_ALLOCATION
        ((mm.csr.map CommandStreamReceiver.peekTaskCount).getD 0) := by
    unfold MemoryManager.storeAllocation
    cases mm.csr <;> simp
  have h2 : mm.storeAllocation D A TEMPORARY_ALLOCATION =
      mm.storeAllocation3 D A TEMPORARY_ALLOCATION A.taskCount := by
    simp [MemoryManager.storeAllocation, TEMPORARY_ALLOCATION, REUSABLE_ALLOCATION]
  refine ⟨h1, h2, ?_, ?_⟩
  · intro hD
    rw [h1, storeAllocation3_recycling D mm A _ _ hD]
    simp [REUSABLE_ALLOCATION, TEMPORARY_ALLOCATION]
  · rw [h2, storeAllocation3_temporary]

/-- Witness for C7: a reusable store with a receiver at task count 5 stamps 5. -/
theorem storeAllocation_stamp_witness :
    ((sampleManager [] [] (some (sampleReceiver 5 2))).storeAllocation
        { DisableResourceRecycling := false } (sampleAllocation 64 9)
        REUSABLE_ALLOCATION).allocationsForReuse =
      (sampleManager [] [] (some (sampleReceiver 5 2))).allocationsForReuse ++
        [{ sampleAllocation 64 9 with
            taskCount := (((sampleManager [] [] (some (sampleReceiver 5 2))).csr.map
              CommandStreamReceiver.peekTaskCount).getD 0) }] :=
  (storeAllocation_stamp { DisableResourceRecycling := false }
    (sampleManager [] [] (some (sampleReceiver 5 2))) (sampleAllocation 64 9)).2.2.1 rfl

/-- C8: with recycling enabled, `storeAllocation(allocation, kind, taskCount)` appends the
allocation, stamped with `taskCount`, at the tail of the list selected by the kind: for
kind temporary the temporary list becomes its previous contents followed by the allocation and
the reusable list is unchanged; for kind reusable the other way round.  Nothing is freed. -/
theorem storeAllocation3_appends_at_tail (D : DebugVariables) (mm : MemoryManager)
    (A : GraphicsAllocation) (taskCount : Nat) (hD : D.DisableResourceRecycling = false) :
    ((mm.storeAllocation3 D A TEMPORARY_ALLOCATION taskCount).graphicsAllocations =
        mm.graphicsAllocations ++ [{ A with taskCount := taskCount }] ∧
      (mm.storeAllocation3 D A TEMPORARY_ALLOCATION taskCount).allocationsForReuse =
        mm.allocationsForReuse ∧
      (mm.storeAllocation3 D A TEMPORARY_ALLOCATION taskCount).freed = mm.freed) ∧
    ((mm.storeAllocation3 D A REUSABLE_ALLOCATION taskCount).allocationsForReuse =
        mm.allocationsForReuse ++ [{ A with taskCount := taskCount }] ∧
      (mm.storeAllocation3 D A REUSABLE_ALLOCATION taskCount).graphicsAllocations =
        mm.graphicsAllocations ∧
      (mm.storeAllocation3 D A REUSABLE_ALLOCATION taskCount).freed = mm.freed) := by
  constructor
  · rw [storeAllocation3_temporary]
    exact ⟨rfl, rfl, rfl⟩
  · rw [storeAllocation3_recycling D mm A _ _ hD]
    simp [REUSABLE_ALLOCATION, TEMPORARY_ALLOCATION]

/-- Witness for C8: storing into a manager that already holds one node in each list. -/
theorem storeAllocation3_appends_at_tail_witness :
    (((sampleManager [sampleAllocation 8 1] [sampleAllocation 16 2] none).storeAllocation3
          { DisableResourceRecycling := false } (sampleAllocation 64 9)
          TEMPORARY_ALLOCATION 4).graphicsAllocations =
        (sampleManager [sampleAllocation 8 1] [sampleAllocation 16 2] none).graphicsAllocations
          ++ [{ sampleAllocation 64 9 with taskCount := 4 }] ∧
      ((sampleManager [sampleAllocation 8 1] [sampleAllocation 16 2] none).storeAllocation3
          { DisableResourceRecycling := false } (sampleAllocation 64 9)
          TEMPORARY_ALLOCATION 4).allocationsForReuse =
        (sampleManager [sampleAllocation 8 1] [sampleAllocation 16 2] none).allocationsForReuse ∧
      ((sampleManager [sampleAllocation 8 1] [sampleAllocation 16 2] none).storeAllocation3
          { DisableResourceRecycling := false } (sampleAllocation 64 9)
          TEMPORARY_ALLOCATION 4).freed =
        (sampleManager [sampleAllocation 8 1] [sampleAllocation 16 2] none).freed) ∧
    (((sampleManager [sampleAllocation 8 1] [sampleAllocation 16 2] none).storeAllocation3
          { DisableResourceRecycling := false } (sampleAllocation 64 9)
          REUSABLE_ALLOCATION 4).allocationsForReuse =
        (sampleManager [sampleAllocation 8 1] [sampleAllocation 16 2] none).allocationsForReuse
          ++ [{ sampleAllocation 64 9 with taskCount := 4 }] ∧
      ((sampleManager [sampleAllocation 8 1] [sampleAllocation 16 2] none).storeAllocation3
          { DisableResourceRecycling := false } (sampleAllocation 64 9)
          REUSABLE_ALLOCATION 4).graphicsAllocations =
        (sampleManager [sampleAllocation 8 1] [sampleAllocation 16 2] none).graphicsAllocations ∧
      ((sampleManager [sampleAllocation 8 1] [sampleAllocation 16 2] none).storeAllocation3
          { DisableResourceRecycling := false } (sampleAllocation 64 9)
          REUSABLE_ALLOCATION 4).freed =
        (sampleManager [sampleAllocation 8 1] [sampleAllocation 16 2] none).freed) :=
  storeAllocation3_appends_at_tail { DisableResourceRecycling := false }
    (sampleManager [sampleAllocation 8 1] [sampleAllocation 16 2] none)
    (sampleAllocation 64 9) 4 rfl

/-- C9: when `DisableResourceRecycling` is set, a store of kind reusable (either overload)
hands the allocation to `freeGraphicsMemory` at once, with its task count untouched, and
leaves both tracked lists unchanged; a store of kind temporary does what it does with the
flag clear: the allocation is appended to the temporary list. -/
theorem storeAllocation_recycling_disabled (D : DebugVariables) (mm : MemoryManager)
    (A : GraphicsAllocation) (taskCount : Nat) (hD : D.DisableResourceRecycling = true) :
    (mm.storeAllocation3 D A REUSABLE_ALLOCATION taskCount = mm.freeGraphicsMemory A ∧
      mm.storeAllocation D A REUSABLE_ALLOCATION = mm.freeGraphicsMemory A ∧
      (mm.freeGraphicsMemory A).freed = mm.freed ++ [A] ∧
      (mm.freeGraphicsMemory A).graphicsAllocations = mm.graphicsAllocations ∧
      (mm.freeGraphicsMemory A).allocationsForReuse = mm.allocationsForReuse) ∧
    (mm.storeAllocation3 D A TEMPORARY_ALLOCATION taskCount =
        mm.storeAllocation3 { DisableResourceRecycling := false } A TEMPORARY_ALLOCATION
          taskCount ∧
      (mm.storeAllocation3 D A TEMPORARY_ALLOCATION taskCount).graphicsAllocations =
        mm.graphicsAllocations ++ [{ A with taskCount := taskCount }] ∧
      (mm.storeAllocation3 D A TEMPORARY_ALLOCATION taskCount).allocationsForReuse =
        mm.allocationsForReuse ∧
      (mm.storeAllocation3 D A TEMPORARY_ALLOCATION taskCount).freed = mm.freed) := by
  refine ⟨⟨storeAllocation3_reusable_disabled D mm A taskCount hD, ?_, rfl, rfl, rfl⟩, ?_⟩
  · unfold MemoryManager.storeAllocation
    exact storeAllocation3_reusable_disabled D mm A _ hD
  · rw [storeAllocation3_temporary, storeAllocation3_temporary]
    exact ⟨rfl, rfl, rfl, rfl⟩

/-- Witness for C9: the override set, one node already in each list. -/
theorem storeAllocation_recycling_disabled_witness :
    ((sampleManager [sampleAllocation 8 1] [sampleAllocation 16 2]
          (some (sampleReceiver 5 2))).storeAllocation
        { DisableResourceRecycling := true } (sampleAllocation 64 9) REUSABLE_ALLOCATION =
      (sampleManager [sampleAllocation 8 1] [sampleAllocation 16 2]
          (some (sampleReceiver 5 2))).freeGraphicsMemory (sampleAllocation 64 9)) ∧
    ((sampleManager [sampleAllocation 8 1] [sampleAllocation 16 2]
          (some (sampleReceiver 5 2))).storeAllocation3
        { DisableResourceRecycling := true } (sampleAllocation 64 9)
        TEMPORARY_ALLOCATION 4).graphicsAllocations =
      (sampleManager [sampleAllocation 8 1] [sampleAllocation 16 2]
          (some (sampleReceiver 5 2))).graphicsAllocations ++
        [{ sampleAllocation 64 9 with taskCount := 4 }] :=
  ⟨(storeAllocation_recycling_disabled { DisableResourceRecycling := true }
      (sampleManager [sampleAllocation 8 1] [sampleAllocation 16 2]
        (some (sampleReceiver 5 2)))
      (sampleAllocation 64 9) 4 rfl).1.2.1,
    (storeAllocation_recycling_disabled { DisableResourceRecycling := true }
      (sampleManager [sampleAllocation 8 1] [sampleAllocation 16 2]
        (some (sampleReceiver 5 2)))
      (sampleAllocation 64 9) 4 rfl).2.2.1⟩

/-! ## Full reclamation -/

/-- Reclaiming at `-1` a list of 32-bit task counts frees the whole list. -/
theorem freeAllocationsList_all (mm : MemoryManager) (list : AllocationsList)
    (hlist : ∀ a ∈ list, a.taskCount < 2 ^ 32) :
    mm.freeAllocationsList (toUInt32 (-1)) list =
      ({ mm with freed := mm.freed ++ list }, []) := by
  have h32 : toUInt32 (-1) = 4294967295 := by decide
  rw [freeAllocationsList_eq, h32]
  have hall : list.filter (fun a => decide (a.taskCount ≤ 4294967295)) = list := by
    rw [List.filter_eq_self]
    intro a ha
    have := hlist a ha
    simp only [decide_eq_true_eq]
    omega
  have hnone : list.filter (fun a => decide (4294967295 < a.taskCount)) = [] := by
    rw [List.filter_eq_nil_iff]
    intro a ha
    have := hlist a ha
    simp only [decide_eq_true_eq]
    omega
  rw [hall, hnone]

/-- Cleaning the temporary list at `-1` frees all of it. -/
theorem cleanAllocationList_temporary_all (m : MemoryManager)
    (hm : ∀ a ∈ m.graphicsAllocations, a.taskCount < 2 ^ 32) :
    (m.cleanAllocationList (toUInt32 (-1)) TEMPORARY_ALLOCATION).1 =
      { m with graphicsAllocations := [], freed := m.freed ++ m.graphicsAllocations } := by
  unfold MemoryManager.cleanAllocationList
  rw [if_pos rfl, freeAllocationsList_all m _ hm]

/-- Cleaning the reusable list at `-1` frees all of it. -/
theorem cleanAllocationList_reusable_all (m : MemoryManager)
    (hm : ∀ a ∈ m.allocationsForReuse, a.taskCount < 2 ^ 32) :
    (m.cleanAllocationList (toUInt32 (-1)) REUSABLE_ALLOCATION).1 =
      { m with allocationsForReuse := [], freed := m.freed ++ m.allocationsForReuse } := by
  unfold MemoryManager.cleanAllocationList
  rw [if_neg (by decide), freeAllocationsList_all m _ hm]

/-- C10: for every list whose task counts are 32-bit values (the type of `taskCount`),
`freeAllocationsList(-1, list)`, where `-1` converts to `0xFFFFFFFF`, frees every node and
leaves the list empty.  Consequently both tracked lists are empty after the destructor and
after `applyCommonCleanup`, whatever the tag allocators' `cleanUpResources` does as long as it
leaves 32-bit task counts in the lists. -/
theorem freeAllocationsList_minus_one_empties (mm : MemoryManager) (list : AllocationsList)
    (cleanUpResources : TagAllocatorBase → MemoryManager → MemoryManager)
    (hlist : ∀ a ∈ list, a.taskCount < 2 ^ 32)
    (hmm : mm.taskCountsAre32Bit)
    (hclean : ∀ t m, MemoryManager.taskCountsAre32Bit m →
      MemoryManager.taskCountsAre32Bit (cleanUpResources t m)) :
    ((mm.freeAllocationsList (toUInt32 (-1)) list).2 = [] ∧
      (mm.freeAllocationsList (toUInt32 (-1)) list).1.freed = mm.freed ++ list) ∧
    (mm.destructor.graphicsAllocations = [] ∧ mm.destructor.allocationsForReuse = []) ∧
    ((mm.applyCommonCleanup cleanUpResources).graphicsAllocations = [] ∧
      (mm.applyCommonCleanup cleanUpResources).allocationsForReuse = []) := by
  refine ⟨?_, ?_, ?_⟩
  · rw [freeAllocationsList_all mm list hlist]
    exact ⟨rfl, rfl⟩
  · unfold MemoryManager.destructor
    simp only []
    rw [freeAllocationsList_all mm _ hmm.1]
    rw [freeAllocationsList_all _ _ hmm.2]
    exact ⟨rfl, rfl⟩
  · have key : ∀ m : MemoryManager, m.taskCountsAre32Bit →
        ((m.cleanAllocationList (toUInt32 (-1)) TEMPORARY_ALLOCATION).1.cleanAllocationList
          (toUInt32 (-1)) REUSABLE_ALLOCATION).1.graphicsAllocations = [] ∧
        ((m.cleanAllocationList (toUInt32 (-1)) TEMPORARY_ALLOCATION).1.cleanAllocationList
          (toUInt32 (-1)) REUSABLE_ALLOCATION).1.allocationsForReuse = [] := by
      intro m hm
      rw [cleanAllocationList_temporary_all m hm.1]
      rw [cleanAllocationList_reusable_all
        { m with graphicsAllocations := [], freed := m.freed ++ m.graphicsAllocations } hm.2]
      exact ⟨rfl, rfl⟩
    have hfree : ∀ (m : MemoryManager) (a : GraphicsAllocation), m.taskCountsAre32Bit →
        (m.freeGraphicsMemory a).taskCountsAre32Bit := fun m a hm => hm
    have h1 : (match mm.paddingAllocation with
        | some paddingAllocation => mm.freeGraphicsMemory paddingAllocation
        | none => mm).taskCountsAre32Bit := by
      cases mm.paddingAllocation with
      | none => exact hmm
      | some pad => exact hfree mm pad hmm
    have hstep : ∀ (m : MemoryManager) (o : Option TagAllocatorBase),
        m.taskCountsAre32Bit →
        (match o with
          | some t => cleanUpResources t m
          | none => m).taskCountsAre32Bit := by
      intro m o hm
      cases o with
      | none => exact hm
      | some t => exact hclean t m hm
    unfold MemoryManager.applyCommonCleanup
    exact key _ (hstep _ _ (hstep _ _ h1))

/-- Witness for C10: a manager with nodes in both lists, among them one stamped `0xFFFFFFFF`,
a padding allocation and a tag allocator whose clean-up frees one allocation. -/
theorem freeAllocationsList_minus_one_empties_witness :
    (({ sampleManager [sampleAllocation 8 1, sampleAllocation 8 4294967295]
            [sampleAllocation 16 0] (some (sampleReceiver 5 2)) with
          paddingAllocation := some (sampleAllocation 4096 0),
          profilingTimeStampAllocator := some { tagCount := 512 } } :
        MemoryManager).freeAllocationsList (toUInt32 (-1))
          [sampleAllocation 32 7, sampleAllocation 32 4294967295]).2 = [] ∧
    (({ sampleManager [sampleAllocation 8 1, sampleAllocation 8 4294967295]
            [sampleAllocation 16 0] (some (sampleReceiver 5 2)) with
          paddingAllocation := some (sampleAllocation 4096 0),
          profilingTimeStampAllocator := some { tagCount := 512 } } :
        MemoryManager).destructor.graphicsAllocations = [] ∧
      ({ sampleManager [sampleAllocation 8 1, sampleAllocation 8 4294967295]
            [sampleAllocation 16 0] (some (sampleReceiver 5 2)) with
          paddingAllocation := some (sampleAllocation 4096 0),
          profilingTimeStampAllocator := some { tagCount := 512 } } :
        MemoryManager).destructor.allocationsForReuse = []) ∧
    ((({ sampleManager [sampleAllocation 8 1, sampleAllocation 8 4294967295]
            [sampleAllocation 16 0] (some (sampleReceiver 5 2)) with
          paddingAllocation := some (sampleAllocation 4096 0),
          profilingTimeStampAllocator := some { tagCount := 512 } } :
        MemoryManager).applyCommonCleanup
          (fun _ m => m.freeGraphicsMemory (sampleAllocation 64 0))).graphicsAllocations = [] ∧
      (({ sampleManager [sampleAllocation 8 1, sampleAllocation 8 4294967295]
            [sampleAllocation 16 0] (some (sampleReceiver 5 2)) with
          paddingAllocation := some (sampleAllocation 4096 0),
          profilingTimeStampAllocator := some { tagCount := 512 } } :
        MemoryManager).applyCommonCleanup
          (fun _ m => m.freeGraphicsMemory (sampleAllocation 64 0))).allocationsForReuse = []) :=
  have h := freeAllocationsList_minus_one_empties
    ({ sampleManager [sampleAllocation 8 1, sampleAllocation 8 4294967295]
          [sampleAllocation 16 0] (some (sampleReceiver 5 2)) with
        paddingAllocation := some (sampleAllocation 4096 0),
        profilingTimeStampAllocator := some { tagCount := 512 } } : MemoryManager)
    [sampleAllocation 32 7, sampleAllocation 32 4294967295]
    (fun _ m => m.freeGraphicsMemory (sampleAllocation 64 0))
    (by decide)
    (by unfold MemoryManager.taskCountsAre32Bit; decide)
    (fun _ _ hm => hm)
  ⟨h.1.1, h.2.1, h.2.2⟩

/-! ## Detach: the frame -/

/-- C11: `detachAllocation` removes exactly the node it returns, for a null and a non-null tag
address alike.  When it returns a node `x`, the list was `before ++ x :: after` with no node
of `before` passing the scan's test, and the list afterwards is `before ++ after`: `x` is
deleted at its position and every other node keeps its place in the order.  When it returns
null the list is unchanged. -/
theorem detachAllocation_removes_exactly_returned (l : AllocationsList) (minSize : Nat)
    (csrTagAddress : Option Nat) :
    (∀ x, (AllocationsList.detachAllocation l minSize csrTagAddress).1 = some x →
      ∃ before after, l = before ++ x :: after ∧
        (∀ a ∈ before, detachTest (ReusableAllocationRequirements.mk minSize csrTagAddress) a
          = false) ∧
        (AllocationsList.detachAllocation l minSize csrTagAddress).2 = before ++ after) ∧
      ((AllocationsList.detachAllocation l minSize csrTagAddress).1 = none →
        (AllocationsList.detachAllocation l minSize csrTagAddress).2 = l) := by
  unfold AllocationsList.detachAllocation
  rw [detachAllocationImpl_eq]
  constructor
  · intro x hx
    obtain ⟨hp, before, after, hl, hbefore⟩ := List.find?_eq_some.1 hx
    refine ⟨before, after, hl, ?_, ?_⟩
    · intro a ha
      simpa using hbefore a ha
    · show List.eraseP _ l = before ++ after
      rw [hl, List.eraseP_append_right]
      · rw [List.eraseP_cons_of_pos hp]
      · intro b hb
        have := hbefore b hb
        simpa using this
  · intro hnone
    exact List.eraseP_of_forall_not (List.find?_eq_none.1 hnone)

/-! ## The overlap check: helper lemmas -/

theorem check_fst (ext : Collaborators) (requirements : AllocationRequirements) (i : Nat)
    (s : MemoryManager × CheckedFragments) :
    (MemoryManager.checkAllocationsForOverlapping.check ext requirements i s).1 =
      s.1.record (overlapCheckCall requirements i (overlapReport ext requirements i s.1)) :=
  rfl

theorem check_status_self (ext : Collaborators) (requirements : AllocationRequirements)
    (i : Nat) (s : MemoryManager × CheckedFragments) :
    (MemoryManager.checkAllocationsForOverlapping.check ext requirements i s).2.status i =
      overlapReport ext requirements i s.1 := by
  simp [MemoryManager.checkAllocationsForOverlapping.check, overlapReport]

theorem check_status_of_ne (ext : Collaborators) (requirements : AllocationRequirements)
    (i j : Nat) (s : MemoryManager × CheckedFragments) (h : j ≠ i) :
    (MemoryManager.checkAllocationsForOverlapping.check ext requirements i s).2.status j =
      s.2.status j := by
  simp [MemoryManager.checkAllocationsForOverlapping.check, Function.update_noteq h]

theorem check_fragments_of_ne (ext : Collaborators) (requirements : AllocationRequirements)
    (i j : Nat) (s : MemoryManager × CheckedFragments) (h : j ≠ i) :
    (MemoryManager.checkAllocationsForOverlapping.check ext requirements i s).2.fragments j =
      s.2.fragments j := by
  simp [MemoryManager.checkAllocationsForOverlapping.check, Function.update_noteq h]

theorem check_count (ext : Collaborators) (requirements : AllocationRequirements)
    (i : Nat) (s : MemoryManager × CheckedFragments) :
    (MemoryManager.checkAllocationsForOverlapping.check ext requirements i s).2.count =
      s.2.count :=
  rfl

/-- One reclaim step of the overlap check, in closed form. -/
theorem reclaim_eq (ext : Collaborators) (i k : Nat) (csr : CommandStreamReceiver)
    (mm : MemoryManager) :
    MemoryManager.checkAllocationsForOverlapping.reclaim ext i k csr mm =
      { mm with
        csr := some { csr with tagAddress := ext.tagReads k },
        calls := mm.calls ++ [Call.cleanAllocationList i (ext.tagReads k) TEMPORARY_ALLOCATION],
        graphicsAllocations :=
          mm.graphicsAllocations.filter (fun a => decide (ext.tagReads k < a.taskCount)),
        freed := mm.freed ++
          mm.graphicsAllocations.filter (fun a => decide (a.taskCount ≤ ext.tagReads k)) } := by
  unfold MemoryManager.checkAllocationsForOverlapping.reclaim MemoryManager.cleanAllocationList
  simp only [freeAllocationsList_eq, MemoryManager.record, if_true]

/-- The wait loop, when it ends, ends at the first read from `k` on that is not below
`latestSent`. -/
theorem wait_eq_some (tagReads : Nat → Nat) (latestSent : Nat) :
    ∀ (fuel k k2 : Nat),
      MemoryManager.checkAllocationsForOverlapping.wait tagReads latestSent fuel k = some k2 →
        ∃ kw, k2 = kw + 1 ∧ k ≤ kw ∧ kw < k + fuel ∧ latestSent ≤ tagReads kw ∧
          ∀ j, k ≤ j → j < kw → tagReads j < latestSent := by
  intro fuel
  induction fuel with
  | zero =>
    intro k k2 h
    simp [MemoryManager.checkAllocationsForOverlapping.wait] at h
  | succ n ih =>
    intro k k2 h
    unfold MemoryManager.checkAllocationsForOverlapping.wait at h
    by_cases hlt : tagReads k < latestSent
    · rw [if_pos hlt] at h
      obtain ⟨kw, hk2, hle, hlt2, hge, hbelow⟩ := ih (k + 1) k2 h
      refine ⟨kw, hk2, by omega, by omega, hge, ?_⟩
      intro j hj1 hj2
      by_cases hjk : j = k
      · subst hjk; exact hlt
      · exact hbelow j (by omega) hj2
    · rw [if_neg hlt] at h
      refine ⟨k, ?_, Nat.le_refl _, by omega, by omega, ?_⟩
      · exact (Option.some.inj h).symm
      · intro j hj1 hj2
        omega

/-- The wait loop ends when the counter reaches `latestSent` within `fuel` reads. -/
theorem wait_isSome (tagReads : Nat → Nat) (latestSent : Nat) :
    ∀ (fuel k : Nat), (∃ j, j < fuel ∧ latestSent ≤ tagReads (k + j)) →
      ∃ k2, MemoryManager.checkAllocationsForOverlapping.wait tagReads latestSent fuel k =
        some k2 := by
  intro fuel
  induction fuel with
  | zero =>
    rintro k ⟨j, hj, -⟩
    omega
  | succ n ih =>
    rintro k ⟨j, hj, hge⟩
    unfold MemoryManager.checkAllocationsForOverlapping.wait
    by_cases hlt : tagReads k < latestSent
    · rw [if_pos hlt]
      cases j with
      | zero =>
        simp at hge
        omega
      | succ j' =>
        apply ih (k + 1)
        refine ⟨j', by omega, ?_⟩
        have : k + 1 + j' = k + (j' + 1) := by omega
        rw [this]
        exact hge
    · rw [if_neg hlt]
      exact ⟨k + 1, rfl⟩

/-- The ways the body for one fragment can end.  `cf1`, `cf2`, `cf3` are the checked fragments
after the first, second and third overlap check. -/
theorem fragment_cases (ext : Collaborators) (fuel : Nat) (requirements : AllocationRequirements)
    (i : Nat) (mm : MemoryManager) (k : Nat) (cf : CheckedFragments)
    (fatal : Bool) (mm' : MemoryManager) (k' : Nat) (cf' : CheckedFragments)
    (h : MemoryManager.checkAllocationsForOverlapping.fragment ext fuel requirements i mm k cf =
      some (fatal, mm', k', cf')) :
    (overlapReport ext requirements i mm ≠
        OverlapStatus.FRAGMENT_OVERLAPING_AND_BIGGER_THEN_STORED_FRAGMENT ∧
      fatal = false ∧ mm' = mm.afterOverlapCheck ext requirements i ∧ k' = k ∧
      cf' = (MemoryManager.checkAllocationsForOverlapping.check ext requirements i
        (mm, { cf with count := cf.count + 1 })).2) ∨
    (overlapReport ext requirements i mm =
        OverlapStatus.FRAGMENT_OVERLAPING_AND_BIGGER_THEN_STORED_FRAGMENT ∧
      mm.csr = none ∧
      fatal = true ∧ mm' = mm.afterOverlapCheck ext requirements i ∧ k' = k ∧
      cf' = (MemoryManager.checkAllocationsForOverlapping.check ext requirements i
        (mm, { cf with count := cf.count + 1 })).2) ∨
    (∃ c, overlapReport ext requirements i mm =
        OverlapStatus.FRAGMENT_OVERLAPING_AND_BIGGER_THEN_STORED_FRAGMENT ∧
      mm.csr = some c ∧
      overlapReport ext requirements i (mm.atRecheck ext requirements i k c) ≠
        OverlapStatus.FRAGMENT_OVERLAPING_AND_BIGGER_THEN_STORED_FRAGMENT ∧
      fatal = false ∧
      mm' = (mm.atRecheck ext requirements i k c).afterOverlapCheck ext requirements i ∧
      k' = k + 1 ∧
      cf' = (MemoryManager.checkAllocationsForOverlapping.check ext requirements i
        (mm.atRecheck ext requirements i k c,
          (MemoryManager.checkAllocationsForOverlapping.check ext requirements i
            (mm, { cf with count := cf.count + 1 })).2)).2) ∨
    (∃ c k2, overlapReport ext requirements i mm =
        OverlapStatus.FRAGMENT_OVERLAPING_AND_BIGGER_THEN_STORED_FRAGMENT ∧
      mm.csr = some c ∧
      overlapReport ext requirements i (mm.atRecheck ext requirements i k c) =
        OverlapStatus.FRAGMENT_OVERLAPING_AND_BIGGER_THEN_STORED_FRAGMENT ∧
      MemoryManager.checkAllocationsForOverlapping.wait ext.tagReads c.peekLatestSentTaskCount
        fuel (k + 1) = some k2 ∧
      (fatal = true ↔
        overlapReport ext requirements i (mm.atLastCheck ext requirements i k k2 c) =
          OverlapStatus.FRAGMENT_OVERLAPING_AND_BIGGER_THEN_STORED_FRAGMENT) ∧
      mm' = (mm.atLastCheck ext requirements i k k2 c).afterOverlapCheck ext requirements i ∧
      k' = k2 + 1 ∧
      cf' = (MemoryManager.checkAllocationsForOverlapping.check ext requirements i
        (mm.atLastCheck ext requirements i k k2 c,
          (MemoryManager.checkAllocationsForOverlapping.check ext requirements i
            (mm.atRecheck ext requirements i k c,
              (MemoryManager.checkAllocationsForOverlapping.check ext requirements i
                (mm, { cf with count := cf.count + 1 })).2)).2)).2) := by
  unfold MemoryManager.checkAllocationsForOverlapping.fragment at h
  simp only [check_status_self, check_fst] at h
  by_cases h1 : overlapReport ext requirements i mm =
      OverlapStatus.FRAGMENT_OVERLAPING_AND_BIGGER_THEN_STORED_FRAGMENT
  · rw [if_pos h1] at h
    cases hc : mm.csr with
    | none =>
      have hrec : (mm.record (overlapCheckCall requirements i
          (overlapReport ext requirements i mm))).csr = none := hc
      simp only [hrec, Option.some.injEq, Prod.mk.injEq] at h
      obtain ⟨hf, hm, hk, hcf⟩ := h
      exact Or.inr (Or.inl ⟨h1, rfl, hf.symm, hm.symm, hk.symm, hcf.symm⟩)
    | some c =>
      have hrec : (mm.record (overlapCheckCall requirements i
          (overlapReport ext requirements i mm))).csr = some c := hc
      simp only [hrec] at h
      by_cases h2 : overlapReport ext requirements i (mm.atRecheck ext requirements i k c) =
          OverlapStatus.FRAGMENT_OVERLAPING_AND_BIGGER_THEN_STORED_FRAGMENT
      · have h2' := h2
        unfold MemoryManager.atRecheck MemoryManager.afterOverlapCheck at h2'
        rw [if_pos h2'] at h
        cases hw : MemoryManager.checkAllocationsForOverlapping.wait ext.tagReads
            c.peekLatestSentTaskCount fuel (k + 1) with
        | none =>
          rw [hw] at h
          exact absurd h (by simp)
        | some k2 =>
          rw [hw] at h
          simp only [] at h
          by_cases h3 : overlapReport ext requirements i
              (mm.atLastCheck ext requirements i k k2 c) =
              OverlapStatus.FRAGMENT_OVERLAPING_AND_BIGGER_THEN_STORED_FRAGMENT
          · have h3' := h3
            unfold MemoryManager.atLastCheck MemoryManager.atRecheck
              MemoryManager.afterOverlapCheck at h3'
            rw [if_pos h3'] at h
            simp only [Option.some.injEq, Prod.mk.injEq] at h
            obtain ⟨hf, hm, hk, hcf⟩ := h
            refine Or.inr (Or.inr (Or.inr ⟨c, k2, h1, rfl, h2, hw, ?_, hm.symm, hk.symm,
              hcf.symm⟩))
            rw [← hf]
            simp [h3]
          · have h3' := h3
            unfold MemoryManager.atLastCheck MemoryManager.atRecheck
              MemoryManager.afterOverlapCheck at h3'
            rw [if_neg h3'] at h
            simp only [Option.some.injEq, Prod.mk.injEq] at h
            obtain ⟨hf, hm, hk, hcf⟩ := h
            refine Or.inr (Or.inr (Or.inr ⟨c, k2, h1, rfl, h2, hw, ?_, hm.symm, hk.symm,
              hcf.symm⟩))
            rw [← hf]
            simp [h3]
      · have h2' := h2
        unfold MemoryManager.atRecheck MemoryManager.afterOverlapCheck at h2'
        rw [if_neg h2'] at h
        simp only [Option.some.injEq, Prod.mk.injEq] at h
        obtain ⟨hf, hm, hk, hcf⟩ := h
        exact Or.inr (Or.inr (Or.inl ⟨c, h1, rfl, h2, hf.symm, hm.symm, hk.symm, hcf.symm⟩))
  · rw [if_neg h1] at h
    simp only [Option.some.injEq, Prod.mk.injEq] at h
    obtain ⟨hf, hm, hk, hcf⟩ := h
    exact Or.inl ⟨h1, hf.symm, hm.symm, hk.symm, hcf.symm⟩

theorem afterOverlapCheck_eq (ext : Collaborators) (requirements : AllocationRequirements)
    (i : Nat) (mm : MemoryManager) :
    mm.afterOverlapCheck ext requirements i =
      { mm with calls := mm.calls ++
          [overlapCheckCall requirements i (overlapReport ext requirements i mm)] } :=
  rfl

theorem atRecheck_eq (ext : Collaborators) (requirements : AllocationRequirements)
    (i k : Nat) (c : CommandStreamReceiver) (mm : MemoryManager) :
    mm.atRecheck ext requirements i k c =
      { mm with
        csr := some { c with tagAddress := ext.tagReads k },
        calls := mm.calls ++
          [overlapCheckCall requirements i (overlapReport ext requirements i mm),
            Call.cleanAllocationList i (ext.tagReads k) TEMPORARY_ALLOCATION],
        graphicsAllocations :=
          mm.graphicsAllocations.filter (fun a => decide (ext.tagReads k < a.taskCount)),
        freed := mm.freed ++
          mm.graphicsAllocations.filter (fun a => decide (a.taskCount ≤ ext.tagReads k)) } := by
  unfold MemoryManager.atRecheck
  rw [reclaim_eq, afterOverlapCheck_eq]
  simp

theorem atLastCheck_eq (ext : Collaborators) (requirements : AllocationRequirements)
    (i k k2 : Nat) (c : CommandStreamReceiver) (mm : MemoryManager) :
    mm.atLastCheck ext requirements i k k2 c =
      { mm with
        csr := some { c with tagAddress := ext.tagReads k2 },
        calls := mm.calls ++
          [overlapCheckCall requirements i (overlapReport ext requirements i mm),
            Call.cleanAllocationList i (ext.tagReads k) TEMPORARY_ALLOCATION,
            overlapCheckCall requirements i
              (overlapReport ext requirements i (mm.atRecheck ext requirements i k c)),
            Call.cleanAllocationList i (ext.tagReads k2) TEMPORARY_ALLOCATION],
        graphicsAllocations :=
          (mm.graphicsAllocations.filter (fun a => decide (ext.tagReads k < a.taskCount))).filter
            (fun a => decide (ext.tagReads k2 < a.taskCount)),
        freed := (mm.freed ++
          mm.graphicsAllocations.filter (fun a => decide (a.taskCount ≤ ext.tagReads k))) ++
          (mm.graphicsAllocations.filter (fun a => decide (ext.tagReads k < a.taskCount))).filter
            (fun a => decide (a.taskCount ≤ ext.tagReads k2)) } := by
  unfold MemoryManager.atLastCheck
  rw [reclaim_eq, afterOverlapCheck_eq]
  generalize overlapReport ext requirements i (mm.atRecheck ext requirements i k c) = s2
  rw [atRecheck_eq]
  simp

/-- The record of calls that the body for fragment `i` leaves, by the way it ended. -/
theorem fragment_trace (ext : Collaborators) (fuel : Nat) (requirements : AllocationRequirements)
    (i : Nat) (mm : MemoryManager) (k : Nat) (cf : CheckedFragments)
    (fatal : Bool) (mm' : MemoryManager) (k' : Nat) (cf' : CheckedFragments)
    (h : MemoryManager.checkAllocationsForOverlapping.fragment ext fuel requirements i mm k cf =
      some (fatal, mm', k', cf')) :
    ∃ t, mm'.calls = mm.calls ++ t ∧
      ((∃ s1, s1 ≠ OverlapStatus.FRAGMENT_OVERLAPING_AND_BIGGER_THEN_STORED_FRAGMENT ∧
          t = [overlapCheckCall requirements i s1] ∧ fatal = false ∧ cf'.status i = s1) ∨
        (mm.csr = none ∧
          t = [overlapCheckCall requirements i
            OverlapStatus.FRAGMENT_OVERLAPING_AND_BIGGER_THEN_STORED_FRAGMENT] ∧
          fatal = true ∧
          cf'.status i = OverlapStatus.FRAGMENT_OVERLAPING_AND_BIGGER_THEN_STORED_FRAGMENT) ∨
        (∃ c1 s2, mm.csr ≠ none ∧
          s2 ≠ OverlapStatus.FRAGMENT_OVERLAPING_AND_BIGGER_THEN_STORED_FRAGMENT ∧
          t = [overlapCheckCall requirements i
              OverlapStatus.FRAGMENT_OVERLAPING_AND_BIGGER_THEN_STORED_FRAGMENT,
            Call.cleanAllocationList i c1 TEMPORARY_ALLOCATION,
            overlapCheckCall requirements i s2] ∧
          fatal = false ∧ cf'.status i = s2) ∨
        (∃ c1 c2 s3, mm.csr ≠ none ∧
          t = [overlapCheckCall requirements i
              OverlapStatus.FRAGMENT_OVERLAPING_AND_BIGGER_THEN_STORED_FRAGMENT,
            Call.cleanAllocationList i c1 TEMPORARY_ALLOCATION,
            overlapCheckCall requirements i
              OverlapStatus.FRAGMENT_OVERLAPING_AND_BIGGER_THEN_STORED_FRAGMENT,
            Call.cleanAllocationList i c2 TEMPORARY_ALLOCATION,
            overlapCheckCall requirements i s3] ∧
          (fatal = true ↔
            s3 = OverlapStatus.FRAGMENT_OVERLAPING_AND_BIGGER_THEN_STORED_FRAGMENT) ∧
          cf'.status i = s3)) := by
  rcases fragment_cases ext fuel requirements i mm k cf fatal mm' k' cf' h with
    ⟨h1, hf, hm, -, hcf⟩ | ⟨h1, hc, hf, hm, -, hcf⟩ | ⟨c, h1, hc, h2, hf, hm, -, hcf⟩ |
    ⟨c, k2, h1, hc, h2, -, hf, hm, -, hcf⟩
  · refine ⟨[overlapCheckCall requirements i (overlapReport ext requirements i mm)],
      by rw [hm, afterOverlapCheck_eq], Or.inl ⟨_, h1, rfl, hf, ?_⟩⟩
    rw [hcf, check_status_self]
  · refine ⟨[overlapCheckCall requirements i (overlapReport ext requirements i mm)],
      by rw [hm, afterOverlapCheck_eq], Or.inr (Or.inl ⟨hc, by rw [h1], hf, ?_⟩)⟩
    rw [hcf, check_status_self, h1]
  · refine ⟨[overlapCheckCall requirements i (overlapReport ext requirements i mm),
        Call.cleanAllocationList i (ext.tagReads k) TEMPORARY_ALLOCATION,
        overlapCheckCall requirements i
          (overlapReport ext requirements i (mm.atRecheck ext requirements i k c))], ?_, ?_⟩
    · rw [hm, afterOverlapCheck_eq]
      generalize overlapReport ext requirements i (mm.atRecheck ext requirements i k c) = s2
      rw [atRecheck_eq]
      simp
    · refine Or.inr (Or.inr (Or.inl ⟨ext.tagReads k, _, by simp [hc], h2, ?_, hf, ?_⟩))
      · rw [h1]
      · rw [hcf, check_status_self]
  · refine ⟨[overlapCheckCall requirements i (overlapReport ext requirements i mm),
        Call.cleanAllocationList i (ext.tagReads k) TEMPORARY_ALLOCATION,
        overlapCheckCall requirements i
          (overlapReport ext requirements i (mm.atRecheck ext requirements i k c)),
        Call.cleanAllocationList i (ext.tagReads k2) TEMPORARY_ALLOCATION,
        overlapCheckCall requirements i
          (overlapReport ext requirements i (mm.atLastCheck ext requirements i k k2 c))],
      ?_, ?_⟩
    · rw [hm, afterOverlapCheck_eq]
      generalize overlapReport ext requirements i (mm.atLastCheck ext requirements i k k2 c) = s3
      rw [atLastCheck_eq]
      simp
    · refine Or.inr (Or.inr (Or.inr ⟨ext.tagReads k, ext.tagReads k2, _, by simp [hc], ?_, hf,
        ?_⟩))
      · rw [h1, h2]
      · rw [hcf, check_status_self]

/-- What the body for fragment `i` leaves alone. -/
theorem fragment_frame (ext : Collaborators) (fuel : Nat) (requirements : AllocationRequirements)
    (i : Nat) (mm : MemoryManager) (k : Nat) (cf : CheckedFragments)
    (fatal : Bool) (mm' : MemoryManager) (k' : Nat) (cf' : CheckedFragments)
    (h : MemoryManager.checkAllocationsForOverlapping.fragment ext fuel requirements i mm k cf =
      some (fatal, mm', k', cf')) :
    mm'.allocationsForReuse = mm.allocationsForReuse ∧
      mm'.graphicsAllocations.Sublist mm.graphicsAllocations ∧
      (mm.csr = none → mm' = { mm with calls := mm'.calls }) ∧
      (∀ c, mm.csr = some c → ∃ c', mm'.csr = some c' ∧
        c'.latestSentTaskCount = c.latestSentTaskCount ∧ c'.taskCount = c.taskCount) ∧
      cf'.count = cf.count + 1 ∧
      (∀ j, j ≠ i → cf'.status j = cf.status j ∧ cf'.fragments j = cf.fragments j) := by
  rcases fragment_cases ext fuel requirements i mm k cf fatal mm' k' cf' h with
    ⟨-, -, hm, -, hcf⟩ | ⟨-, -, -, hm, -, hcf⟩ | ⟨c, -, hc, -, -, hm, -, hcf⟩ |
    ⟨c, k2, -, hc, -, -, -, hm, -, hcf⟩
  · refine ⟨by rw [hm]; rfl, by rw [hm]; exact List.Sublist.refl _, ?_, ?_, by rw [hcf]; rfl, ?_⟩
    · intro _
      rw [hm]
      rfl
    · intro c hc
      exact ⟨c, by rw [hm]; exact hc, rfl, rfl⟩
    · intro j hj
      rw [hcf]
      exact ⟨check_status_of_ne _ _ _ _ _ hj, check_fragments_of_ne _ _ _ _ _ hj⟩
  · refine ⟨by rw [hm]; rfl, by rw [hm]; exact List.Sublist.refl _, ?_, ?_, by rw [hcf]; rfl, ?_⟩
    · intro _
      rw [hm]
      rfl
    · intro c hc
      exact ⟨c, by rw [hm]; exact hc, rfl, rfl⟩
    · intro j hj
      rw [hcf]
      exact ⟨check_status_of_ne _ _ _ _ _ hj, check_fragments_of_ne _ _ _ _ _ hj⟩
  · refine ⟨by simp [hm, afterOverlapCheck_eq, atRecheck_eq], ?_, ?_, ?_, by rw [hcf]; rfl, ?_⟩
    · simp only [hm, afterOverlapCheck_eq, atRecheck_eq]
      exact List.filter_sublist _
    · intro hn
      rw [hn] at hc
      exact absurd hc (by simp)
    · intro c0 hc0
      rw [hc] at hc0
      cases hc0
      exact ⟨{ c with tagAddress := ext.tagReads k },
        by simp only [hm, afterOverlapCheck_eq, atRecheck_eq], rfl, rfl⟩
    · intro j hj
      rw [hcf]
      rw [check_status_of_ne _ _ _ _ _ hj, check_fragments_of_ne _ _ _ _ _ hj,
        check_status_of_ne _ _ _ _ _ hj, check_fragments_of_ne _ _ _ _ _ hj]
      exact ⟨rfl, rfl⟩
  · refine ⟨by simp [hm, afterOverlapCheck_eq, atLastCheck_eq], ?_, ?_, ?_, by rw [hcf]; rfl, ?_⟩
    · simp only [hm, afterOverlapCheck_eq, atLastCheck_eq]
      exact (List.filter_sublist _).trans (List.filter_sublist _)
    · intro hn
      rw [hn] at hc
      exact absurd hc (by simp)
    · intro c0 hc0
      rw [hc] at hc0
      cases hc0
      exact ⟨{ c with tagAddress := ext.tagReads k2 },
        by simp only [hm, afterOverlapCheck_eq, atLastCheck_eq], rfl, rfl⟩
    · intro j hj
      rw [hcf]
      rw [check_status_of_ne _ _ _ _ _ hj, check_fragments_of_ne _ _ _ _ _ hj,
        check_status_of_ne _ _ _ _ _ hj, check_fragments_of_ne _ _ _ _ _ hj,
        check_status_of_ne _ _ _ _ _ hj, check_fragments_of_ne _ _ _ _ _ hj]
      exact ⟨rfl, rfl⟩

theorem overlapChecksOf_append (j : Nat) (a b : List Call) :
    overlapChecksOf j (a ++ b) = overlapChecksOf j a ++ overlapChecksOf j b := by
  simp [overlapChecksOf, List.filterMap_append]

theorem reclaimsOf_append (j : Nat) (a b : List Call) :
    reclaimsOf j (a ++ b) = reclaimsOf j a ++ reclaimsOf j b := by
  simp [reclaimsOf, List.filterMap_append]

theorem overlapChecksOf_nil (j : Nat) : overlapChecksOf j [] = [] := rfl

theorem reclaimsOf_nil (j : Nat) : reclaimsOf j [] = [] := rfl

theorem overlapChecksOf_check (requirements : AllocationRequirements) (i j : Nat)
    (s : OverlapStatus) (t : List Call) :
    overlapChecksOf j (overlapCheckCall requirements i s :: t) =
      if i = j then s :: overlapChecksOf j t else overlapChecksOf j t := by
  by_cases h : i = j <;> simp [overlapChecksOf, overlapCheckCall, List.filterMap_cons, h]

theorem overlapChecksOf_clean (i j c ty : Nat) (t : List Call) :
    overlapChecksOf j (Call.cleanAllocationList i c ty :: t) = overlapChecksOf j t := by
  simp [overlapChecksOf, List.filterMap_cons]

theorem reclaimsOf_check (requirements : AllocationRequirements) (i j : Nat)
    (s : OverlapStatus) (t : List Call) :
    reclaimsOf j (overlapCheckCall requirements i s :: t) = reclaimsOf j t := by
  simp [reclaimsOf, overlapCheckCall, List.filterMap_cons]

theorem reclaimsOf_clean (i j c ty : Nat) (t : List Call) :
    reclaimsOf j (Call.cleanAllocationList i c ty :: t) =
      if i = j then c :: reclaimsOf j t else reclaimsOf j t := by
  by_cases h : i = j <;> simp [reclaimsOf, List.filterMap_cons, h]

/-- Summary of the calls the body for fragment `i` records. -/
theorem fragment_summary (ext : Collaborators) (fuel : Nat)
    (requirements : AllocationRequirements)
    (i : Nat) (mm : MemoryManager) (k : Nat) (cf : CheckedFragments)
    (fatal : Bool) (mm' : MemoryManager) (k' : Nat) (cf' : CheckedFragments)
    (h : MemoryManager.checkAllocationsForOverlapping.fragment ext fuel requirements i mm k cf =
      some (fatal, mm', k', cf')) :
    ∃ t, mm'.calls = mm.calls ++ t ∧
      (∀ e ∈ t, e.isOverlapCheck = true ∨ e.isReclaim = true) ∧
      (∀ j, j ≠ i → overlapChecksOf j t = [] ∧ reclaimsOf j t = []) ∧
      (overlapChecksOf i t).length ≤ 3 ∧ (reclaimsOf i t).length ≤ 2 ∧
      (mm.csr ≠ none → (fatal = true ↔ overlapChecksOf i t =
        [OverlapStatus.FRAGMENT_OVERLAPING_AND_BIGGER_THEN_STORED_FRAGMENT,
          OverlapStatus.FRAGMENT_OVERLAPING_AND_BIGGER_THEN_STORED_FRAGMENT,
          OverlapStatus.FRAGMENT_OVERLAPING_AND_BIGGER_THEN_STORED_FRAGMENT])) ∧
      (mm.csr = none → (∀ e ∈ t, e.isOverlapCheck = true) ∧
        overlapChecksOf i t = [cf'.status i] ∧
        (fatal = true ↔ overlapChecksOf i t =
          [OverlapStatus.FRAGMENT_OVERLAPING_AND_BIGGER_THEN_STORED_FRAGMENT])) ∧
      (fatal = true →
        cf'.status i = OverlapStatus.FRAGMENT_OVERLAPING_AND_BIGGER_THEN_STORED_FRAGMENT) := by
  obtain ⟨t, hcalls, hshape⟩ := fragment_trace ext fuel requirements i mm k cf fatal mm' k' cf' h
  refine ⟨t, hcalls, ?_⟩
  rcases hshape with ⟨s1, hs1, rfl, hf, hst⟩ | ⟨hc, rfl, hf, hst⟩ |
    ⟨c1, s2, hc, hs2, rfl, hf, hst⟩ | ⟨c1, c2, s3, hc, rfl, hf, hst⟩
  · refine ⟨?_, ?_, ?_, ?_, ?_, ?_, ?_⟩
    · intro e he
      simp at he
      subst he
      exact Or.inl rfl
    · intro j hj
      simp [overlapChecksOf_check, reclaimsOf_check, overlapChecksOf_nil, reclaimsOf_nil,
        Ne.symm hj]
    · simp [overlapChecksOf_check, overlapChecksOf_nil]
    · simp [reclaimsOf_check, reclaimsOf_nil]
    · intro _
      simp [overlapChecksOf_check, overlapChecksOf_nil, hf]
    · intro _
      refine ⟨?_, ?_, ?_⟩
      · intro e he
        simp at he
        subst he
        rfl
      · simp [overlapChecksOf_check, overlapChecksOf_nil, hst]
      · simp [overlapChecksOf_check, overlapChecksOf_nil, hf, hs1]
    · intro hft
      rw [hf] at hft
      exact absurd hft (by simp)
  · refine ⟨?_, ?_, ?_, ?_, ?_, ?_, ?_⟩
    · intro e he
      simp at he
      subst he
      exact Or.inl rfl
    · intro j hj
      simp [overlapChecksOf_check, reclaimsOf_check, overlapChecksOf_nil, reclaimsOf_nil,
        Ne.symm hj]
    · simp [overlapChecksOf_check, overlapChecksOf_nil]
    · simp [reclaimsOf_check, reclaimsOf_nil]
    · intro hne
      exact absurd hc hne
    · intro _
      refine ⟨?_, ?_, ?_⟩
      · intro e he
        simp at he
        subst he
        rfl
      · simp [overlapChecksOf_check, overlapChecksOf_nil, hst]
      · simp [overlapChecksOf_check, overlapChecksOf_nil, hf]
    · intro _
      exact hst
  · refine ⟨?_, ?_, ?_, ?_, ?_, ?_, ?_⟩
    · intro e he
      simp at he
      rcases he with rfl | rfl | rfl
      · exact Or.inl rfl
      · exact Or.inr rfl
      · exact Or.inl rfl
    · intro j hj
      simp [overlapChecksOf_check, reclaimsOf_check, overlapChecksOf_clean, reclaimsOf_clean,
        overlapChecksOf_nil, reclaimsOf_nil, Ne.symm hj]
    · simp [overlapChecksOf_check, overlapChecksOf_clean, overlapChecksOf_nil]
    · simp [reclaimsOf_check, reclaimsOf_clean, reclaimsOf_nil]
    · intro _
      simp [overlapChecksOf_check, overlapChecksOf_clean, overlapChecksOf_nil, hf]
    · intro hn
      exact absurd hn hc
    · intro hft
      rw [hf] at hft
      exact absurd hft (by simp)
  · refine ⟨?_, ?_, ?_, ?_, ?_, ?_, ?_⟩
    · intro e he
      simp at he
      rcases he with rfl | rfl | rfl | rfl | rfl
      · exact Or.inl rfl
      · exact Or.inr rfl
      · exact Or.inl rfl
      · exact Or.inr rfl
      · exact Or.inl rfl
    · intro j hj
      simp [overlapChecksOf_check, reclaimsOf_check, overlapChecksOf_clean, reclaimsOf_clean,
        overlapChecksOf_nil, reclaimsOf_nil, Ne.symm hj]
    · simp [overlapChecksOf_check, overlapChecksOf_clean, overlapChecksOf_nil]
    · simp [reclaimsOf_check, reclaimsOf_clean, reclaimsOf_nil]
    · intro _
      simp [overlapChecksOf_check, overlapChecksOf_clean, overlapChecksOf_nil, hf]
    · intro hn
      exact absurd hn hc
    · intro hft
      rw [hst]
      exact hf.1 hft

/-- Summary of a run of the loop over the fragments `i, i + 1, ...`: `m` is the number of
fragments the loop worked on and `t` the calls it recorded. -/
theorem loop_summary (ext : Collaborators) (fuel : Nat) (requirements : AllocationRequirements) :
    ∀ (remaining i : Nat) (mm : MemoryManager) (k : Nat) (cf : CheckedFragments)
      (st : RequirementsStatus) (mm' : MemoryManager) (k' : Nat) (cf' : CheckedFragments),
      MemoryManager.checkAllocationsForOverlapping.loop ext fuel requirements remaining i mm k cf
        = some (st, mm', k', cf') →
      ∃ (t : List Call) (m : Nat), mm'.calls = mm.calls ++ t ∧
        m ≤ remaining ∧ cf'.count = cf.count + m ∧
        (st = RequirementsStatus.SUCCESS → m = remaining) ∧
        (st = RequirementsStatus.FATAL → 0 < m ∧ cf'.status (i + m - 1) =
          OverlapStatus.FRAGMENT_OVERLAPING_AND_BIGGER_THEN_STORED_FRAGMENT) ∧
        (∀ e ∈ t, e.isOverlapCheck = true ∨ e.isReclaim = true) ∧
        (∀ j, (j < i ∨ i + m ≤ j) → overlapChecksOf j t = [] ∧ reclaimsOf j t = []) ∧
        (∀ j, (overlapChecksOf j t).length ≤ 3 ∧ (reclaimsOf j t).length ≤ 2) ∧
        (mm.csr ≠ none → (st = RequirementsStatus.FATAL ↔
          ∃ j, i ≤ j ∧ j < i + remaining ∧ overlapChecksOf j t =
            [OverlapStatus.FRAGMENT_OVERLAPING_AND_BIGGER_THEN_STORED_FRAGMENT,
              OverlapStatus.FRAGMENT_OVERLAPING_AND_BIGGER_THEN_STORED_FRAGMENT,
              OverlapStatus.FRAGMENT_OVERLAPING_AND_BIGGER_THEN_STORED_FRAGMENT])) ∧
        (mm.csr = none →
          mm' = { mm with calls := mm'.calls } ∧
          (∀ e ∈ t, e.isOverlapCheck = true) ∧
          (∀ j, (overlapChecksOf j t).length ≤ 1) ∧
          (st = RequirementsStatus.FATAL ↔
            ∃ j, i ≤ j ∧ j < i + remaining ∧ overlapChecksOf j t =
              [OverlapStatus.FRAGMENT_OVERLAPING_AND_BIGGER_THEN_STORED_FRAGMENT]) ∧
          (∀ j, overlapChecksOf j t =
              [OverlapStatus.FRAGMENT_OVERLAPING_AND_BIGGER_THEN_STORED_FRAGMENT] →
            st = RequirementsStatus.FATAL ∧ i + m = j + 1)) ∧
        mm'.allocationsForReuse = mm.allocationsForReuse ∧
        mm'.graphicsAllocations.Sublist mm.graphicsAllocations ∧
        (∀ j, (j < i ∨ i + m ≤ j) →
          cf'.status j = cf.status j ∧ cf'.fragments j = cf.fragments j) := by
  intro remaining
  induction remaining with
  | zero =>
    intro i mm k cf st mm' k' cf' h
    simp only [MemoryManager.checkAllocationsForOverlapping.loop, Option.some.injEq,
      Prod.mk.injEq] at h
    obtain ⟨rfl, rfl, rfl, rfl⟩ := h
    refine ⟨[], 0, by simp, Nat.le_refl _, rfl, fun _ => rfl, ?_, ?_, ?_, ?_, ?_, ?_, rfl,
      List.Sublist.refl _, fun _ _ => ⟨rfl, rfl⟩⟩
    · intro hst
      exact absurd hst (by decide)
    · intro e he
      simp at he
    · intro j _
      exact ⟨rfl, rfl⟩
    · intro j
      simp [overlapChecksOf_nil, reclaimsOf_nil]
    · intro _
      constructor
      · intro hst
        exact absurd hst (by decide)
      · rintro ⟨j, h1, h2, -⟩
        omega
    · intro _
      refine ⟨rfl, ?_, ?_, ?_, ?_⟩
      · intro e he
        simp at he
      · intro j
        simp [overlapChecksOf_nil]
      · constructor
        · intro hst
          exact absurd hst (by decide)
        · rintro ⟨j, h1, h2, -⟩
          omega
      · intro j hj
        simp [overlapChecksOf_nil] at hj
  | succ n ih =>
    intro i mm k cf st mm' k' cf' h
    unfold MemoryManager.checkAllocationsForOverlapping.loop at h
    cases hfr : MemoryManager.checkAllocationsForOverlapping.fragment ext fuel requirements i
        mm k cf with
    | none =>
      rw [hfr] at h
      exact absurd h (by simp)
    | some r =>
      obtain ⟨b, mm1, k1, cf1⟩ := r
      rw [hfr] at h
      obtain ⟨t1, hcalls1, honly1, hother1, hlen1, hrlen1, hatt1, hdet1, hfat1⟩ :=
        fragment_summary ext fuel requirements i mm k cf b mm1 k1 cf1 hfr
      obtain ⟨hreuse1, hsub1, hsame1, hcsr1, hcount1, hcf1⟩ :=
        fragment_frame ext fuel requirements i mm k cf b mm1 k1 cf1 hfr
      cases b with
      | true =>
        simp only [Option.some.injEq, Prod.mk.injEq] at h
        obtain ⟨rfl, rfl, rfl, rfl⟩ := h
        refine ⟨t1, 1, hcalls1, by omega, hcount1, ?_, ?_, honly1, ?_, ?_, ?_, ?_, hreuse1,
          hsub1, ?_⟩
        · intro hst
          exact absurd hst (by decide)
        · intro _
          refine ⟨by omega, ?_⟩
          have : i + 1 - 1 = i := by omega
          rw [this]
          exact hfat1 rfl
        · intro j hj
          exact hother1 j (by omega)
        · intro j
          by_cases hj : j = i
          · subst hj
            exact ⟨hlen1, hrlen1⟩
          · rw [(hother1 j hj).1, (hother1 j hj).2]
            simp
        · intro hne
          constructor
          · intro _
            exact ⟨i, Nat.le_refl _, by omega, (hatt1 hne).1 rfl⟩
          · intro _
            rfl
        · intro hn
          obtain ⟨honly, hone, hiff⟩ := hdet1 hn
          refine ⟨hsame1 hn, honly, ?_, ?_, ?_⟩
          · intro j
            by_cases hj : j = i
            · subst hj
              rw [hone]
              simp
            · rw [(hother1 j hj).1]
              simp
          · constructor
            · intro _
              exact ⟨i, Nat.le_refl _, by omega, hiff.1 rfl⟩
            · intro _
              rfl
          · intro j hj
            by_cases hji : j = i
            · subst hji
              exact ⟨rfl, rfl⟩
            · rw [(hother1 j hji).1] at hj
              exact absurd hj (by simp)
        · intro j hj
          exact hcf1 j (by omega)
      | false =>
        simp only [] at h
        obtain ⟨t2, m2, hcalls2, hm2, hcount2, hsucc2, hfat2, honly2, hout2, hlen2, hatt2,
          hdet2, hreuse2, hsub2, hcf2⟩ := ih (i + 1) mm1 k1 cf1 st mm' k' cf' h
        have hi2 : overlapChecksOf i t2 = [] ∧ reclaimsOf i t2 = [] :=
          hout2 i (Or.inl (by omega))
        have hcsrIff : mm1.csr = none ↔ mm.csr = none := by
          constructor
          · intro h1
            cases hc : mm.csr with
            | none => rfl
            | some c =>
              obtain ⟨c', hc', -⟩ := hcsr1 c hc
              rw [hc'] at h1
              exact absurd h1 (by simp)
          · intro h1
            rw [hsame1 h1]
            exact h1
        refine ⟨t1 ++ t2, m2 + 1, ?_, by omega, by rw [hcount2, hcount1]; omega, ?_, ?_, ?_,
          ?_, ?_, ?_, ?_, by rw [hreuse2, hreuse1], hsub2.trans hsub1, ?_⟩
        · rw [hcalls2, hcalls1, List.append_assoc]
        · intro hst
          have := hsucc2 hst
          omega
        · intro hst
          obtain ⟨hpos, hstat⟩ := hfat2 hst
          refine ⟨by omega, ?_⟩
          have : i + (m2 + 1) - 1 = i + 1 + m2 - 1 := by omega
          rw [this]
          exact hstat
        · intro e he
          rcases List.mem_append.1 he with he1 | he2
          · exact honly1 e he1
          · exact honly2 e he2
        · intro j hj
          have hji : j ≠ i := by omega
          have h2 := hout2 j (by omega)
          rw [overlapChecksOf_append, reclaimsOf_append, (hother1 j hji).1, (hother1 j hji).2,
            h2.1, h2.2]
          exact ⟨rfl, rfl⟩
        · intro j
          rw [overlapChecksOf_append, reclaimsOf_append]
          by_cases hj : j = i
          · subst hj
            rw [hi2.1, hi2.2]
            simpa using ⟨hlen1, hrlen1⟩
          · rw [(hother1 j hj).1, (hother1 j hj).2]
            simpa using hlen2 j
        · intro hne
          have hne1 : mm1.csr ≠ none := fun h1 => hne (hcsrIff.1 h1)
          rw [hatt2 hne1]
          constructor
          · rintro ⟨j, hj1, hj2, hj3⟩
            refine ⟨j, by omega, by omega, ?_⟩
            rw [overlapChecksOf_append, (hother1 j (by omega)).1, hj3]
            rfl
          · rintro ⟨j, hj1, hj2, hj3⟩
            rw [overlapChecksOf_append] at hj3
            by_cases hj : j = i
            · subst hj
              rw [hi2.1, List.append_nil] at hj3
              exact absurd ((hatt1 hne).2 hj3) (by simp)
            · rw [(hother1 j hj).1, List.nil_append] at hj3
              exact ⟨j, by omega, by omega, hj3⟩
        · intro hn
          have hn1 : mm1.csr = none := hcsrIff.2 hn
          obtain ⟨hsame2, honlyc2, hone2, hiff2, hsoon2⟩ := hdet2 hn1
          obtain ⟨honlyc1, hone1, hiff1⟩ := hdet1 hn
          refine ⟨?_, ?_, ?_, ?_, ?_⟩
          · rw [hsame2, hsame1 hn]
          · intro e he
            rcases List.mem_append.1 he with he1 | he2
            · exact honlyc1 e he1
            · exact honlyc2 e he2
          · intro j
            rw [overlapChecksOf_append]
            by_cases hj : j = i
            · subst hj
              rw [hi2.1, hone1]
              simp
            · rw [(hother1 j hj).1]
              simpa using hone2 j
          · rw [hiff2]
            constructor
            · rintro ⟨j, hj1, hj2, hj3⟩
              refine ⟨j, by omega, by omega, ?_⟩
              rw [overlapChecksOf_append, (hother1 j (by omega)).1, hj3]
              rfl
            · rintro ⟨j, hj1, hj2, hj3⟩
              rw [overlapChecksOf_append] at hj3
              by_cases hj : j = i
              · subst hj
                rw [hi2.1, List.append_nil] at hj3
                exact absurd (hiff1.2 hj3) (by simp)
              · rw [(hother1 j hj).1, List.nil_append] at hj3
                exact ⟨j, by omega, by omega, hj3⟩
          · intro j hj3
            rw [overlapChecksOf_append] at hj3
            by_cases hj : j = i
            · subst hj
              rw [hi2.1, List.append_nil] at hj3
              exact absurd (hiff1.2 hj3) (by simp)
            · rw [(hother1 j hj).1, List.nil_append] at hj3
              obtain ⟨hst, hidx⟩ := hsoon2 j hj3
              exact ⟨hst, by omega⟩
        · intro j hj
          have h2 := hcf2 j (by omega)
          have h1 := hcf1 j (by omega)
          exact ⟨h2.1.trans h1.1, h2.2.trans h1.2⟩

/-- The body for one fragment comes back when every wait it may start ends within `fuel`
polls. -/
theorem fragment_isSome (ext : Collaborators) (fuel : Nat)
    (requirements : AllocationRequirements)
    (i : Nat) (mm : MemoryManager) (k : Nat) (cf : CheckedFragments)
    (hprog : ∀ c, mm.csr = some c →
      ∀ n, ∃ j, j < fuel ∧ c.peekLatestSentTaskCount ≤ ext.tagReads (n + j)) :
    ∃ r, MemoryManager.checkAllocationsForOverlapping.fragment ext fuel requirements i mm k cf =
      some r := by
  unfold MemoryManager.checkAllocationsForOverlapping.fragment
  simp only [check_status_self, check_fst]
  split
  · cases hc : mm.csr with
    | none =>
      have hrec : (mm.record (overlapCheckCall requirements i
          (overlapReport ext requirements i mm))).csr = none := hc
      simp only [hrec]
      exact ⟨_, rfl⟩
    | some c =>
      have hrec : (mm.record (overlapCheckCall requirements i
          (overlapReport ext requirements i mm))).csr = some c := hc
      simp only [hrec]
      split
      · obtain ⟨k2, hk2⟩ := wait_isSome ext.tagReads c.peekLatestSentTaskCount fuel (k + 1)
          (hprog c hc (k + 1))
        rw [hk2]
        simp only []
        split
        · exact ⟨_, rfl⟩
        · exact ⟨_, rfl⟩
      · exact ⟨_, rfl⟩
  · exact ⟨_, rfl⟩

/-- The loop over the fragments comes back when every wait it may start ends within `fuel`
polls. -/
theorem loop_isSome (ext : Collaborators) (fuel : Nat) (requirements : AllocationRequirements) :
    ∀ (remaining i : Nat) (mm : MemoryManager) (k : Nat) (cf : CheckedFragments),
      (∀ c, mm.csr = some c →
        ∀ n, ∃ j, j < fuel ∧ c.peekLatestSentTaskCount ≤ ext.tagReads (n + j)) →
      ∃ r, MemoryManager.checkAllocationsForOverlapping.loop ext fuel requirements remaining i
        mm k cf = some r := by
  intro remaining
  induction remaining with
  | zero =>
    intro i mm k cf _
    exact ⟨_, rfl⟩
  | succ n ih =>
    intro i mm k cf hprog
    unfold MemoryManager.checkAllocationsForOverlapping.loop
    obtain ⟨⟨b, mm1, k1, cf1⟩, hfr⟩ := fragment_isSome ext fuel requirements i mm k cf hprog
    rw [hfr]
    cases b with
    | true => exact ⟨_, rfl⟩
    | false =>
      simp only []
      apply ih
      intro c1 hc1
      obtain ⟨-, -, hsame1, hcsr1, -, -⟩ :=
        fragment_frame ext fuel requirements i mm k cf false mm1 k1 cf1 hfr
      cases hc : mm.csr with
      | none =>
        have h1 : mm1.csr = none := by
          rw [hsame1 hc]
          exact hc
        rw [h1] at hc1
        exact absurd hc1 (by simp)
      | some c =>
        obtain ⟨c', hc', hlat, -⟩ := hcsr1 c hc
        rw [hc'] at hc1
        cases hc1
        have := hprog c hc
        unfold CommandStreamReceiver.peekLatestSentTaskCount at this ⊢
        rw [hlat]
        exact this

/-! ## Overlap resolution -/

/-- C14: in the loop body of `checkAllocationsForOverlapping` for fragment `i`, entered with
receiver `csr` attached after `k` reads of the counter, let the first overlap check report
overlapping-and-bigger, and let the counter reach the last submitted task count within
`fuel` reads.  The recheck is made in the state `atRecheck`, in which the temporary list
holds exactly its former nodes with `taskCount > c`, in order, where `c` is the value read
from the tag address; the nodes with `taskCount ≤ c` have been freed and the reusable list is
as before.  If the recheck does not report overlapping-and-bigger the body ends there, with
no further reclaim.  If it does, the body waits to the first read `kw` that is not below the
last submitted task count, reads the counter once more and reclaims at that value, so that the
last check is made with the temporary list cut down to `taskCount >` that value; the body
ends fatal exactly when the last check reports overlapping-and-bigger again. -/
theorem checkAllocationsForOverlapping_escalation (ext : Collaborators) (fuel : Nat)
    (requirements : AllocationRequirements) (i : Nat) (mm : MemoryManager) (k : Nat)
    (cf : CheckedFragments) (csr : CommandStreamReceiver)
    (hcsr : mm.csr = some csr)
    (hfirst : overlapReport ext requirements i mm =
      OverlapStatus.FRAGMENT_OVERLAPING_AND_BIGGER_THEN_STORED_FRAGMENT)
    (hprog : ∀ n, ∃ j, j < fuel ∧ csr.peekLatestSentTaskCount ≤ ext.tagReads (n + j)) :
    ((mm.atRecheck ext requirements i k csr).graphicsAllocations =
        mm.graphicsAllocations.filter (fun a => decide (ext.tagReads k < a.taskCount)) ∧
      (mm.atRecheck ext requirements i k csr).freed = mm.freed ++
        mm.graphicsAllocations.filter (fun a => decide (a.taskCount ≤ ext.tagReads k)) ∧
      (mm.atRecheck ext requirements i k csr).allocationsForReuse = mm.allocationsForReuse) ∧
    (overlapReport ext requirements i (mm.atRecheck ext requirements i k csr) ≠
        OverlapStatus.FRAGMENT_OVERLAPING_AND_BIGGER_THEN_STORED_FRAGMENT →
      ∃ cf', MemoryManager.checkAllocationsForOverlapping.fragment ext fuel requirements i mm k
          cf = some (false,
            (mm.atRecheck ext requirements i k csr).afterOverlapCheck ext requirements i,
            k + 1, cf') ∧
        cf'.status i = overlapReport ext requirements i (mm.atRecheck ext requirements i k csr) ∧
        reclaimsOf i (((mm.atRecheck ext requirements i k csr).afterOverlapCheck ext
          requirements i).calls.drop mm.calls.length) = [ext.tagReads k]) ∧
    (overlapReport ext requirements i (mm.atRecheck ext requirements i k csr) =
        OverlapStatus.FRAGMENT_OVERLAPING_AND_BIGGER_THEN_STORED_FRAGMENT →
      ∃ kw cf', k + 1 ≤ kw ∧ csr.peekLatestSentTaskCount ≤ ext.tagReads kw ∧
        (∀ j, k + 1 ≤ j → j < kw → ext.tagReads j < csr.peekLatestSentTaskCount) ∧
        (mm.atLastCheck ext requirements i k (kw + 1) csr).graphicsAllocations =
          (mm.atRecheck ext requirements i k csr).graphicsAllocations.filter
            (fun a => decide (ext.tagReads (kw + 1) < a.taskCount)) ∧
        MemoryManager.checkAllocationsForOverlapping.fragment ext fuel requirements i mm k cf =
          some (decide (overlapReport ext requirements i
              (mm.atLastCheck ext requirements i k (kw + 1) csr) =
              OverlapStatus.FRAGMENT_OVERLAPING_AND_BIGGER_THEN_STORED_FRAGMENT),
            (mm.atLastCheck ext requirements i k (kw + 1) csr).afterOverlapCheck ext
              requirements i,
            kw + 2, cf') ∧
        cf'.status i =
          overlapReport ext requirements i (mm.atLastCheck ext requirements i k (kw + 1) csr) ∧
        reclaimsOf i (((mm.atLastCheck ext requirements i k (kw + 1) csr).afterOverlapCheck ext
          requirements i).calls.drop mm.calls.length) =
            [ext.tagReads k, ext.tagReads (kw + 1)]) := by
  have hprog' : ∀ c, mm.csr = some c →
      ∀ n, ∃ j, j < fuel ∧ c.peekLatestSentTaskCount ≤ ext.tagReads (n + j) := by
    intro c hc
    rw [hcsr] at hc
    cases hc
    exact hprog
  obtain ⟨⟨fatal, mm', k', cf'⟩, hfr⟩ :=
    fragment_isSome ext fuel requirements i mm k cf hprog'
  refine ⟨?_, ?_, ?_⟩
  · rw [atRecheck_eq]
    exact ⟨rfl, rfl, rfl⟩
  · intro h2
    rcases fragment_cases ext fuel requirements i mm k cf fatal mm' k' cf' hfr with
      ⟨h1, -⟩ | ⟨-, hc, -⟩ | ⟨c, -, hc, -, hf, hm, hk, hcf⟩ | ⟨c, k2, -, hc, h2', -⟩
    · exact absurd hfirst h1
    · rw [hcsr] at hc
      exact absurd hc (by simp)
    · rw [hcsr] at hc
      cases hc
      refine ⟨cf', by rw [hfr, hf, hm, hk], by rw [hcf, check_status_self], ?_⟩
      rw [afterOverlapCheck_eq]
      generalize overlapReport ext requirements i (mm.atRecheck ext requirements i k csr) = s2
      rw [atRecheck_eq]
      simp [reclaimsOf_check, reclaimsOf_clean, reclaimsOf_nil]
    · rw [hcsr] at hc
      cases hc
      exact absurd h2' h2
  · intro h2
    rcases fragment_cases ext fuel requirements i mm k cf fatal mm' k' cf' hfr with
      ⟨h1, -⟩ | ⟨-, hc, -⟩ | ⟨c, -, hc, h2', -⟩ | ⟨c, k2, -, hc, -, hw, hf, hm, hk, hcf⟩
    · exact absurd hfirst h1
    · rw [hcsr] at hc
      exact absurd hc (by simp)
    · rw [hcsr] at hc
      cases hc
      exact absurd h2 h2'
    · rw [hcsr] at hc
      cases hc
      obtain ⟨kw, rfl, hle, -, hge, hbelow⟩ :=
        wait_eq_some ext.tagReads csr.peekLatestSentTaskCount fuel (k + 1) k2 hw
      refine ⟨kw, cf', hle, hge, hbelow, ?_, ?_, by rw [hcf, check_status_self], ?_⟩
      · rw [atLastCheck_eq, atRecheck_eq]
      · rw [hfr, hm, hk]
        congr 2
        rw [Bool.eq_iff_iff]
        simpa using hf
      · rw [afterOverlapCheck_eq]
        generalize overlapReport ext requirements i
          (mm.atLastCheck ext requirements i k (kw + 1) csr) = s3
        rw [atLastCheck_eq]
        simp [reclaimsOf_check, reclaimsOf_clean, reclaimsOf_nil]

/-- Witness for C14: the temporary list holds nodes stamped 3 and 9, the counter reads 2 at
the first reclaim, and the overlap persists while the temporary list is not empty. -/
theorem checkAllocationsForOverlapping_escalation_witness :
    ((sampleManager [sampleAllocation 8 3, sampleAllocation 8 9] [sampleAllocation 16 2]
        (some (sampleReceiver 9 2))).atRecheck
        (sampleCollaborators (fun n => 2 + 4 * n)
          (fun m => !m.graphicsAllocations.isEmpty) 1 true)
        { AllocationFragments := [{ allocationPtr := 4097, allocationSize := 100 }],
          requiredFragmentsCount := 1 } 0 0 (sampleReceiver 9 2)).graphicsAllocations =
      (sampleManager [sampleAllocation 8 3, sampleAllocation 8 9] [sampleAllocation 16 2]
        (some (sampleReceiver 9 2))).graphicsAllocations.filter
        (fun a => decide ((sampleCollaborators (fun n => 2 + 4 * n)
          (fun m => !m.graphicsAllocations.isEmpty) 1 true).tagReads 0 < a.taskCount)) :=
  (checkAllocationsForOverlapping_escalation
    (sampleCollaborators (fun n => 2 + 4 * n) (fun m => !m.graphicsAllocations.isEmpty) 1 true)
    3
    { AllocationFragments := [{ allocationPtr := 4097, allocationSize := 100 }],
      requiredFragmentsCount := 1 } 0
    (sampleManager [sampleAllocation 8 3, sampleAllocation 8 9] [sampleAllocation 16 2]
      (some (sampleReceiver 9 2)))
    0 CheckedFragments.uninitialised (sampleReceiver 9 2) rfl (by decide)
    (fun n => ⟨2, by decide, by
      show 9 ≤ 2 + 4 * (n + 2)
      omega⟩)).1.1

/-! ## The allocate path -/

theorem record_calls (m : MemoryManager) (a : Call) : (m.record a).calls = m.calls ++ [a] :=
  rfl

theorem record_calls_two (m : MemoryManager) (a b : Call) :
    ((m.record a).record b).calls = m.calls ++ [a, b] := by
  simp [MemoryManager.record]

theorem record_calls_three (m : MemoryManager) (a b c : Call) :
    (((m.record a).record b).record c).calls = m.calls ++ [a, b, c] := by
  simp [MemoryManager.record]

/-- The overlap check of `allocateGraphicsMemory` records overlap checks and reclaims only. -/
theorem checkAllocationsForOverlapping_calls (ext : Collaborators) (fuel : Nat)
    (mm : MemoryManager) (requirements : AllocationRequirements)
    (checkedFragments : CheckedFragments)
    (r : RequirementsStatus × MemoryManager × CheckedFragments)
    (h : mm.checkAllocationsForOverlapping ext fuel requirements checkedFragments = some r) :
    ∃ t, r.2.1.calls = mm.calls ++ t ∧
      (∀ e ∈ t, e.isOverlapCheck = true ∨ e.isReclaim = true) ∧
      r.2.1.allocationsForReuse = mm.allocationsForReuse ∧
      r.2.1.graphicsAllocations.Sublist mm.graphicsAllocations := by
  unfold MemoryManager.checkAllocationsForOverlapping at h
  cases hloop : MemoryManager.checkAllocationsForOverlapping.loop ext fuel requirements
      requirements.requiredFragmentsCount 0 mm 0 checkedFragments.reset with
  | none =>
    rw [hloop] at h
    exact absurd h (by simp)
  | some q =>
    obtain ⟨st, mm', k', cf'⟩ := q
    rw [hloop] at h
    simp only [Option.map_some', Option.some.injEq] at h
    subst h
    obtain ⟨t, m, hcalls, -, -, -, -, honly, -, -, -, -, hreuse, hsub, -⟩ :=
      loop_summary ext fuel requirements _ _ _ _ _ _ _ _ _ hloop
    exact ⟨t, hcalls, honly, hreuse, hsub⟩

/-- C15: let the overlap check of `allocateGraphicsMemory(size, ptr)` come back with `r`.
If its status is FATAL the run ends in `abortExecution()`, and between the entry to the
overlap check and the abort only overlap checks and reclaims were called: nothing was
populated or registered.  If its status is SUCCESS the run returns and `abortExecution()` is
not among the calls made after the overlap check. -/
theorem allocateGraphicsMemory_aborts_iff_fatal (ext : Collaborators) (fuel : Nat)
    (mm : MemoryManager) (size ptr : Nat) (forcePin : Bool)
    (r : RequirementsStatus × MemoryManager × CheckedFragments)
    (hcheck : (mm.drained ext).checkAllocationsForOverlapping ext fuel
      (ext.getAllocationRequirements ptr size) CheckedFragments.uninitialised = some r) :
    (r.1 = RequirementsStatus.FATAL →
      ∃ t, mm.allocateGraphicsMemory ext fuel size ptr forcePin =
          some (AllocationOutcome.aborted (r.2.1.record Call.abortExecution)) ∧
        (r.2.1.record Call.abortExecution).calls =
          (mm.drained ext).calls ++ t ++ [Call.abortExecution] ∧
        ∀ e ∈ t, e.isOverlapCheck = true ∨ e.isReclaim = true) ∧
    (r.1 = RequirementsStatus.SUCCESS →
      ∃ g mm2 t, mm.allocateGraphicsMemory ext fuel size ptr forcePin =
          some (AllocationOutcome.returned g mm2) ∧
        mm2.calls = r.2.1.calls ++ t ∧ Call.abortExecution ∉ t) := by
  obtain ⟨st, mm1, cf⟩ := r
  obtain ⟨t0, hcalls0, honly0, -, -⟩ := checkAllocationsForOverlapping_calls _ _ _ _ _ _ hcheck
  constructor
  · intro hst
    simp only at hst
    subst hst
    refine ⟨t0, ?_, ?_, honly0⟩
    · unfold MemoryManager.allocateGraphicsMemory
      simp only [hcheck, if_true]
    · show mm1.calls ++ [Call.abortExecution] = _
      rw [hcalls0]
  · intro hst
    simp only at hst
    subst hst
    unfold MemoryManager.allocateGraphicsMemory
    simp only [hcheck]
    rw [if_neg (by decide)]
    split
    · exact ⟨none, _, _, rfl, record_calls _ _, by simp⟩
    · split
      · exact ⟨none, _, _, rfl, record_calls_three _ _ _ _, by simp⟩
      · exact ⟨_, _, _, rfl, record_calls_three _ _ _ _, by simp⟩

/-- The overlap check of the run used to instantiate C15 comes back. -/
theorem sample_abort_run_isSome :
    (((sampleManager [sampleAllocation 8 3] [] (some (sampleReceiver 9 2))).drained
      (sampleCollaborators (fun n => 2 + 4 * n) (fun _ => true) 1 true)).checkAllocationsForOverlapping
        (sampleCollaborators (fun n => 2 + 4 * n) (fun _ => true) 1 true) 3
        ((sampleCollaborators (fun n => 2 + 4 * n) (fun _ => true) 1 true).getAllocationRequirements
          4097 100) CheckedFragments.uninitialised).isSome = true := by
  decide

/-- Witness for C15: a receiver is attached, the counter read for the `n`-th time yields
`2 + 4 n`, and the overlap check reports overlapping-and-bigger every time: the run aborts. -/
theorem allocateGraphicsMemory_aborts_iff_fatal_witness :
    ∃ mmA,
      (sampleManager [sampleAllocation 8 3] [] (some (sampleReceiver 9 2))).allocateGraphicsMemory
        (sampleCollaborators (fun n => 2 + 4 * n) (fun _ => true) 1 true) 3 100 4097 false =
          some (AllocationOutcome.aborted mmA) :=
  match (allocateGraphicsMemory_aborts_iff_fatal
      (sampleCollaborators (fun n => 2 + 4 * n) (fun _ => true) 1 true) 3
      (sampleManager [sampleAllocation 8 3] [] (some (sampleReceiver 9 2))) 100 4097 false
      (Option.get _ sample_abort_run_isSome) (Option.some_get sample_abort_run_isSome).symm).1
      (by decide) with
  | ⟨_, halloc, _⟩ => ⟨_, halloc⟩

/-- C16: when the overlap check of `allocateGraphicsMemory(size, ptr)` comes back with
SUCCESS and `populateAlreadyAllocatedFragments` yields `fragmentCount == 0`, the run returns
null, and the only call made after the overlap check is `populateAlreadyAllocatedFragments`:
neither `populateOsHandles` nor `createGraphicsAllocation` is called. -/
theorem allocateGraphicsMemory_null_without_fragments (ext : Collaborators) (fuel : Nat)
    (mm : MemoryManager) (size ptr : Nat) (forcePin : Bool)
    (r : RequirementsStatus × MemoryManager × CheckedFragments)
    (hcheck : (mm.drained ext).checkAllocationsForOverlapping ext fuel
      (ext.getAllocationRequirements ptr size) CheckedFragments.uninitialised = some r)
    (hsuccess : r.1 = RequirementsStatus.SUCCESS)
    (hzero : (ext.populateAlreadyAllocatedFragments r.2.1
      (ext.getAllocationRequirements ptr size) r.2.2).fragmentCount = 0) :
    ∃ mm2, mm.allocateGraphicsMemory ext fuel size ptr forcePin =
        some (AllocationOutcome.returned none mm2) ∧
      mm2.calls = r.2.1.calls ++ [Call.populateAlreadyAllocatedFragments
        (ext.populateAlreadyAllocatedFragments r.2.1 (ext.getAllocationRequirements ptr size)
          r.2.2)] ∧
      mm2.graphicsAllocations = r.2.1.graphicsAllocations ∧
      mm2.allocationsForReuse = r.2.1.allocationsForReuse := by
  obtain ⟨st, mm1, cf⟩ := r
  simp only at hsuccess hzero
  subst hsuccess
  refine ⟨mm1.record (Call.populateAlreadyAllocatedFragments
    (ext.populateAlreadyAllocatedFragments mm1 (ext.getAllocationRequirements ptr size) cf)),
    ?_, rfl, rfl, rfl⟩
  unfold MemoryManager.allocateGraphicsMemory
  simp only [hcheck]
  rw [if_neg (by decide), if_pos hzero]

/-- The overlap check of the run used to instantiate C16 comes back. -/
theorem sample_empty_run_isSome :
    (((sampleManager [sampleAllocation 8 3] [] none).drained
      (sampleCollaborators (fun n => n) (fun _ => false) 0 true)).checkAllocationsForOverlapping
        (sampleCollaborators (fun n => n) (fun _ => false) 0 true) 0
        ((sampleCollaborators (fun n => n) (fun _ => false) 0 true).getAllocationRequirements
          4097 100) CheckedFragments.uninitialised).isSome = true := by
  decide

/-- Witness for C16: no overlap, and fragment population resolves no fragment. -/
theorem allocateGraphicsMemory_null_without_fragments_witness :
    ∃ mm2, (sampleManager [sampleAllocation 8 3] [] none).allocateGraphicsMemory
      (sampleCollaborators (fun n => n) (fun _ => false) 0 true) 0 100 4097 false =
        some (AllocationOutcome.returned none mm2) :=
  match allocateGraphicsMemory_null_without_fragments
      (sampleCollaborators (fun n => n) (fun _ => false) 0 true) 0
      (sampleManager [sampleAllocation 8 3] [] none) 100 4097 false
      (Option.get _ sample_empty_run_isSome) (Option.some_get sample_empty_run_isSome).symm
      (by decide) (by decide) with
  | ⟨_, halloc, _⟩ => ⟨_, halloc⟩

/-- C17: when the overlap check of `allocateGraphicsMemory(size, ptr)` comes back with
SUCCESS, fragments are resolved and `populateOsHandles` fails, then `cleanOsHandles` is called
on the storage of this request as `populateOsHandles` left it, null is returned,
`createGraphicsAllocation` is not called (the calls after the overlap check are the three
listed), and the two tracked lists and the freed allocations are as they were after the
overlap check. -/
theorem allocateGraphicsMemory_rolls_back (ext : Collaborators) (fuel : Nat)
    (mm : MemoryManager) (size ptr : Nat) (forcePin : Bool)
    (r : RequirementsStatus × MemoryManager × CheckedFragments)
    (hcheck : (mm.drained ext).checkAllocationsForOverlapping ext fuel
      (ext.getAllocationRequirements ptr size) CheckedFragments.uninitialised = some r)
    (hsuccess : r.1 = RequirementsStatus.SUCCESS)
    (hfragments : (ext.populateAlreadyAllocatedFragments r.2.1
      (ext.getAllocationRequirements ptr size) r.2.2).fragmentCount ≠ 0)
    (hfail : (ext.populateOsHandles
      (r.2.1.record (Call.populateAlreadyAllocatedFragments
        (ext.populateAlreadyAllocatedFragments r.2.1 (ext.getAllocationRequirements ptr size)
          r.2.2)))
      (ext.populateAlreadyAllocatedFragments r.2.1 (ext.getAllocationRequirements ptr size)
        r.2.2)).1 = false) :
    ∃ mm2, mm.allocateGraphicsMemory ext fuel size ptr forcePin =
        some (AllocationOutcome.returned none mm2) ∧
      mm2.calls = r.2.1.calls ++
        [Call.populateAlreadyAllocatedFragments
          (ext.populateAlreadyAllocatedFragments r.2.1 (ext.getAllocationRequirements ptr size)
            r.2.2),
        Call.populateOsHandles
          (ext.populateAlreadyAllocatedFragments r.2.1 (ext.getAllocationRequirements ptr size)
            r.2.2) false,
        Call.cleanOsHandles (ext.populateOsHandles
          (r.2.1.record (Call.populateAlreadyAllocatedFragments
            (ext.populateAlreadyAllocatedFragments r.2.1
              (ext.getAllocationRequirements ptr size) r.2.2)))
          (ext.populateAlreadyAllocatedFragments r.2.1 (ext.getAllocationRequirements ptr size)
            r.2.2)).2] ∧
      mm2.graphicsAllocations = r.2.1.graphicsAllocations ∧
      mm2.allocationsForReuse = r.2.1.allocationsForReuse ∧
      mm2.freed = r.2.1.freed := by
  obtain ⟨st, mm1, cf⟩ := r
  simp only at hsuccess hfragments hfail
  subst hsuccess
  refine ⟨((mm1.record (Call.populateAlreadyAllocatedFragments
      (ext.populateAlreadyAllocatedFragments mm1 (ext.getAllocationRequirements ptr size)
        cf))).record
      (Call.populateOsHandles
        (ext.populateAlreadyAllocatedFragments mm1 (ext.getAllocationRequirements ptr size) cf)
        (ext.populateOsHandles
          (mm1.record (Call.populateAlreadyAllocatedFragments
            (ext.populateAlreadyAllocatedFragments mm1
              (ext.getAllocationRequirements ptr size) cf)))
          (ext.populateAlreadyAllocatedFragments mm1 (ext.getAllocationRequirements ptr size)
            cf)).1)).record
      (Call.cleanOsHandles (ext.populateOsHandles
        (mm1.record (Call.populateAlreadyAllocatedFragments
          (ext.populateAlreadyAllocatedFragments mm1
            (ext.getAllocationRequirements ptr size) cf)))
        (ext.populateAlreadyAllocatedFragments mm1 (ext.getAllocationRequirements ptr size)
          cf)).2), ?_, ?_, rfl, rfl, rfl⟩
  · unfold MemoryManager.allocateGraphicsMemory
    simp only [hcheck]
    rw [if_neg (by decide), if_neg hfragments, if_pos hfail]
  · rw [record_calls_three, hfail]

/-- The overlap check of the run used to instantiate C17 comes back. -/
theorem sample_failing_run_isSome :
    (((sampleManager [sampleAllocation 8 3] [] none).drained
      (sampleCollaborators (fun n => n) (fun _ => false) 1 false)).checkAllocationsForOverlapping
        (sampleCollaborators (fun n => n) (fun _ => false) 1 false) 0
        ((sampleCollaborators (fun n => n) (fun _ => false) 1 false).getAllocationRequirements
          4097 100) CheckedFragments.uninitialised).isSome = true := by
  decide

/-- Witness for C17: no overlap, one fragment resolved, OS registration fails. -/
theorem allocateGraphicsMemory_rolls_back_witness :
    ∃ mm2, (sampleManager [sampleAllocation 8 3] [] none).allocateGraphicsMemory
      (sampleCollaborators (fun n => n) (fun _ => false) 1 false) 0 100 4097 false =
        some (AllocationOutcome.returned none mm2) :=
  match allocateGraphicsMemory_rolls_back
      (sampleCollaborators (fun n => n) (fun _ => false) 1 false) 0
      (sampleManager [sampleAllocation 8 3] [] none) 100 4097 false
      (Option.get _ sample_failing_run_isSome) (Option.some_get sample_failing_run_isSome).symm
      (by decide) (by decide) (by decide) with
  | ⟨_, halloc, _⟩ => ⟨_, halloc⟩

/-- C18: `allocateGraphicsMemoryForSVM(size, coherent)` calls the 64KB-page allocator with
alignment `pageSize64k` when `enable64kbpages` is set and the standard allocator with
alignment `pageSize` otherwise, and makes no other call; a non-null result is the chosen
allocator's result with the coherent flag set to `coherent`, and the result is null exactly
when the chosen allocator returned null. -/
theorem allocateGraphicsMemoryForSVM_selects_allocator (ext : Collaborators)
    (mm : MemoryManager) (size : Nat) (coherent : Bool) :
    (mm.enable64kbpages = true →
      mm.allocateGraphicsMemoryForSVM ext size coherent =
        ((ext.allocateGraphicsMemory64kb mm size pageSize64k false).map
            (fun g => { g with coherent := coherent }),
          mm.record (Call.allocateGraphicsMemory64kb size pageSize64k false))) ∧
    (mm.enable64kbpages = false →
      mm.allocateGraphicsMemoryForSVM ext size coherent =
        ((ext.allocateGraphicsMemory mm size pageSize).map
            (fun g => { g with coherent := coherent }),
          mm.record (Call.allocateGraphicsMemory size pageSize))) ∧
    (∀ g, (mm.allocateGraphicsMemoryForSVM ext size coherent).1 = some g →
      g.coherent = coherent) ∧
    ((mm.allocateGraphicsMemoryForSVM ext size coherent).1 = none ↔
      (if mm.enable64kbpages = true then ext.allocateGraphicsMemory64kb mm size pageSize64k false
        else ext.allocateGraphicsMemory mm size pageSize) = none) := by
  unfold MemoryManager.allocateGraphicsMemoryForSVM
  cases hflag : mm.enable64kbpages with
  | true =>
    simp only [if_true]
    cases hres : ext.allocateGraphicsMemory64kb mm size pageSize64k false with
    | none => simp
    | some g => simp [GraphicsAllocation.setCoherent]
  | false =>
    simp only [Bool.false_eq_true, if_false]
    cases hres : ext.allocateGraphicsMemory mm size pageSize with
    | none => simp
    | some g => simp [GraphicsAllocation.setCoherent]

/-! ## Invariants of the tracked lists -/

/-- In a list without repeated keys, a node selected by `p` has a key that no node selected by
`q` and no node of `other` has, when `p` and `q` exclude each other. -/
theorem key_not_mem_of_split {κ : Type} (key : GraphicsAllocation → κ)
    (p q : GraphicsAllocation → Bool) (hpq : ∀ a, p a = true → q a = false)
    (other : List GraphicsAllocation) :
    ∀ l : List GraphicsAllocation, ((l ++ other).map key).Nodup →
      ∀ x ∈ l.filter p, key x ∉ (l.filter q ++ other).map key := by
  intro l
  induction l with
  | nil =>
    intro _ x hx
    simp at hx
  | cons a l ih =>
    intro hnd x hx
    rw [List.cons_append, List.map_cons, List.nodup_cons] at hnd
    obtain ⟨ha, hnd'⟩ := hnd
    have hsub : ((l.filter q ++ other).map key).Sublist ((l ++ other).map key) :=
      ((List.filter_sublist l).append_right other).map key
    by_cases hpa : p a = true
    · rw [List.filter_cons_of_pos hpa] at hx
      rw [List.filter_cons_of_neg (by simp [hpq a hpa])]
      rcases List.mem_cons.1 hx with rfl | hx'
      · exact fun hmem => ha (hsub.subset hmem)
      · exact ih hnd' x hx'
    · rw [List.filter_cons_of_neg hpa] at hx
      have hxmem : key x ∈ (l ++ other).map key :=
        List.mem_map_of_mem key (List.mem_append_left _ (List.mem_of_mem_filter hx))
      have hne : key x ≠ key a := fun h => ha (h ▸ hxmem)
      by_cases hqa : q a = true
      · rw [List.filter_cons_of_pos hqa, List.cons_append, List.map_cons, List.mem_cons]
        rintro (h | h)
        · exact hne h
        · exact ih hnd' x hx h
      · rw [List.filter_cons_of_neg hqa]
        exact ih hnd' x hx

/-- The three-argument store keeps the single-membership invariant. -/
theorem storeAllocation3_singleMembership {κ : Type} (key : GraphicsAllocation → κ)
    (hkey : ∀ a t, key { a with taskCount := t } = key a)
    (D : DebugVariables) (mm : MemoryManager) (hinv : mm.singleMembership key)
    (A : GraphicsAllocation) (allocationType taskCount : Nat)
    (hA : key A ∉ (mm.graphicsAllocations ++ mm.allocationsForReuse).map key) :
    (mm.storeAllocation3 D A allocationType taskCount).singleMembership key := by
  unfold MemoryManager.singleMembership at hinv ⊢
  unfold MemoryManager.storeAllocation3
  split
  · exact hinv
  · split
    · show ((IDList.pushTailOne mm.graphicsAllocations _ ++ mm.allocationsForReuse).map
        key).Nodup
      unfold IDList.pushTailOne
      rw [List.append_assoc, List.singleton_append, List.map_append, List.map_cons, hkey,
        ← List.map_append] at *
      rw [List.map_append] at hinv hA
      rw [List.nodup_middle, List.nodup_cons]
      exact ⟨hA, hinv⟩
    · show ((mm.graphicsAllocations ++ IDList.pushTailOne mm.allocationsForReuse _).map
        key).Nodup
      unfold IDList.pushTailOne
      rw [← List.append_assoc, List.map_append, List.map_cons, hkey, List.map_nil]
      have := @List.nodup_middle κ (key A)
        ((mm.graphicsAllocations ++ mm.allocationsForReuse).map key) []
      rw [this, List.append_nil, List.nodup_cons]
      exact ⟨hA, hinv⟩

/-- C19: let `key` give the identity of an allocation (stamping the task count does not
change it), and let no two nodes of the temporary and reusable lists taken together have the
same key.  Then this still holds after `storeAllocation`, either overload, of an allocation
whose key is in neither list; after `obtainReusableAllocation`, and the key of the allocation
it returns is in neither list afterwards; and after `cleanAllocationList`, and the keys of
the allocations it frees are in neither list afterwards.  `freeAllocationsList` on a list `l`
next to any `other` list keeps the keys distinct, and the keys of the allocations it frees
are neither in what is left of `l` nor in `other`. -/
theorem single_membership_preserved {κ : Type} (key : GraphicsAllocation → κ)
    (hkey : ∀ a t, key { a with taskCount := t } = key a)
    (D : DebugVariables) (mm : MemoryManager) (hinv : mm.singleMembership key) :
    (∀ A allocationType taskCount,
      key A ∉ (mm.graphicsAllocations ++ mm.allocationsForReuse).map key →
        (mm.storeAllocation3 D A allocationType taskCount).singleMembership key ∧
        (mm.storeAllocation D A allocationType).singleMembership key) ∧
    (∀ minSize,
      (mm.obtainReusableAllocation minSize).2.singleMembership key ∧
      ∀ x, (mm.obtainReusableAllocation minSize).1 = some x →
        key x ∉ ((mm.obtainReusableAllocation minSize).2.graphicsAllocations ++
          (mm.obtainReusableAllocation minSize).2.allocationsForReuse).map key) ∧
    (∀ N allocationType,
      (mm.cleanAllocationList N allocationType).1.singleMembership key ∧
      ∃ newly, (mm.cleanAllocationList N allocationType).1.freed = mm.freed ++ newly ∧
        ∀ x ∈ newly,
          key x ∉ ((mm.cleanAllocationList N allocationType).1.graphicsAllocations ++
            (mm.cleanAllocationList N allocationType).1.allocationsForReuse).map key) ∧
    (∀ N (l other : AllocationsList), ((l ++ other).map key).Nodup →
      (((mm.freeAllocationsList N l).2 ++ other).map key).Nodup ∧
      ∃ newly, (mm.freeAllocationsList N l).1.freed = mm.freed ++ newly ∧
        ∀ x ∈ newly, key x ∉ ((mm.freeAllocationsList N l).2 ++ other).map key) := by
  have hfree : ∀ N (l other : AllocationsList), ((l ++ other).map key).Nodup →
      (((mm.freeAllocationsList N l).2 ++ other).map key).Nodup ∧
      ∃ newly, (mm.freeAllocationsList N l).1.freed = mm.freed ++ newly ∧
        ∀ x ∈ newly, key x ∉ ((mm.freeAllocationsList N l).2 ++ other).map key := by
    intro N l other hnd
    rw [freeAllocationsList_eq]
    refine ⟨?_, l.filter (fun a => decide (a.taskCount ≤ N)), rfl, ?_⟩
    · exact List.Nodup.sublist (((List.filter_sublist l).append_right other).map key) hnd
    · intro x hx
      refine key_not_mem_of_split key _ _ ?_ other l hnd x hx
      intro a ha
      simp only [decide_eq_true_eq] at ha
      simp only [decide_eq_false_iff_not]
      omega
  refine ⟨?_, ?_, ?_, hfree⟩
  · intro A allocationType taskCount hA
    refine ⟨storeAllocation3_singleMembership key hkey D mm hinv A _ _ hA, ?_⟩
    unfold MemoryManager.storeAllocation
    exact storeAllocation3_singleMembership key hkey D mm hinv A _ _ hA
  · intro minSize
    rw [obtainReusableAllocation_eq]
    unfold MemoryManager.singleMembership at hinv ⊢
    constructor
    · exact List.Nodup.sublist
        (((List.eraseP_sublist mm.allocationsForReuse).append_left
          mm.graphicsAllocations).map key) hinv
    · intro x hx
      obtain ⟨hp, before, after, hl, hbefore⟩ := List.find?_eq_some.1 hx
      have herase : List.eraseP (detachTest (ReusableAllocationRequirements.mk minSize
          (mm.csr.map CommandStreamReceiver.getTagAddress))) mm.allocationsForReuse =
          before ++ after := by
        rw [hl, List.eraseP_append_right]
        · rw [List.eraseP_cons_of_pos hp]
        · intro b hb
          simpa using hbefore b hb
      show key x ∉ (mm.graphicsAllocations ++ List.eraseP _ mm.allocationsForReuse).map key
      rw [herase]
      rw [hl, ← List.append_assoc, List.map_append, List.map_cons, List.nodup_middle,
        List.nodup_cons, ← List.map_append, List.append_assoc] at hinv
      exact hinv.1
  · intro N allocationType
    have hexcl : ∀ a : GraphicsAllocation, decide (a.taskCount ≤ N) = true →
        decide (N < a.taskCount) = false := by
      intro a ha
      simp only [decide_eq_true_eq] at ha
      simp only [decide_eq_false_iff_not]
      omega
    unfold MemoryManager.cleanAllocationList
    split
    · simp only [freeAllocationsList_eq]
      refine ⟨?_, mm.graphicsAllocations.filter (fun a => decide (a.taskCount ≤ N)), rfl, ?_⟩
      · exact List.Nodup.sublist
          (((List.filter_sublist mm.graphicsAllocations).append_right
            mm.allocationsForReuse).map key) hinv
      · intro x hx
        exact key_not_mem_of_split key _ _ hexcl mm.allocationsForReuse mm.graphicsAllocations
          hinv x hx
    · have hswap : ((mm.allocationsForReuse ++ mm.graphicsAllocations).map key).Nodup := by
        unfold MemoryManager.singleMembership at hinv
        rw [List.map_append, List.nodup_append] at hinv ⊢
        exact ⟨hinv.2.1, hinv.1, hinv.2.2.symm⟩
      simp only [freeAllocationsList_eq]
      refine ⟨?_, mm.allocationsForReuse.filter (fun a => decide (a.taskCount ≤ N)), rfl, ?_⟩
      · exact List.Nodup.sublist
          (((List.filter_sublist mm.allocationsForReuse).append_left
            mm.graphicsAllocations).map key) hinv
      · intro x hx
        have := key_not_mem_of_split key _ _ hexcl mm.graphicsAllocations
          mm.allocationsForReuse hswap x hx
        rw [List.map_append, List.mem_append] at this
        show key x ∉ (mm.graphicsAllocations ++ List.filter _ mm.allocationsForReuse).map key
        rw [List.map_append, List.mem_append]
        exact fun h => this h.symm

/-- Witness for C19: the host address as the key, one node in each list. -/
theorem single_membership_preserved_witness :
    ((sampleManager [{ cpuPtr := 8192, size := 8, taskCount := 3, coherent := false }]
        [{ cpuPtr := 12288, size := 16, taskCount := 0, coherent := false }]
        none).obtainReusableAllocation 8).2.singleMembership (fun a => a.cpuPtr) ∧
      ∀ x, ((sampleManager [{ cpuPtr := 8192, size := 8, taskCount := 3, coherent := false }]
          [{ cpuPtr := 12288, size := 16, taskCount := 0, coherent := false }]
          none).obtainReusableAllocation 8).1 = some x →
        (fun a : GraphicsAllocation => a.cpuPtr) x ∉
          (((sampleManager [{ cpuPtr := 8192, size := 8, taskCount := 3, coherent := false }]
            [{ cpuPtr := 12288, size := 16, taskCount := 0, coherent := false }]
            none).obtainReusableAllocation 8).2.graphicsAllocations ++
          ((sampleManager [{ cpuPtr := 8192, size := 8, taskCount := 3, coherent := false }]
            [{ cpuPtr := 12288, size := 16, taskCount := 0, coherent := false }]
            none).obtainReusableAllocation 8).2.allocationsForReuse).map
            (fun a => a.cpuPtr) :=
  (single_membership_preserved (fun a => a.cpuPtr) (fun _ _ => rfl)
    { DisableResourceRecycling := false }
    (sampleManager [{ cpuPtr := 8192, size := 8, taskCount := 3, coherent := false }]
      [{ cpuPtr := 12288, size := 16, taskCount := 0, coherent := false }] none)
    (by unfold MemoryManager.singleMembership; decide)).2.1 8

/-- C20, the claim as stated fails: a two-argument reusable store with no receiver attached
stamps 0 on an allocation that carried task count 9, and a three-argument store with
`taskCount = 4` stamps 4 on it. -/
theorem storeAllocation_lowers_taskCount :
    ((sampleManager [] [] none).storeAllocation { DisableResourceRecycling := false }
        (sampleAllocation 64 9) REUSABLE_ALLOCATION).allocationsForReuse =
        [sampleAllocation 64 0] ∧
      (sampleAllocation 64 0).taskCount < (sampleAllocation 64 9).taskCount ∧
      ((sampleManager [] [] (some (sampleReceiver 5 2))).storeAllocation3
        { DisableResourceRecycling := false } (sampleAllocation 64 9)
        TEMPORARY_ALLOCATION 4).graphicsAllocations = [sampleAllocation 64 4] ∧
      (sampleAllocation 64 4).taskCount < (sampleAllocation 64 9).taskCount := by
  decide

/-- C20, amended: what a store does to task counts.  The three-argument store that keeps the
allocation appends it, carrying the `taskCount` argument as its stamp, at the tail of the list
chosen by the kind, and leaves every other node of both lists as it was; with recycling
disabled a reusable store frees the allocation instead.  The two-argument store is the
three-argument store with the stamp `A`'s own task count for a temporary store, and the
receiver's `peekTaskCount()`, or 0 without a receiver, for a reusable store.  So the node that
a store has put in a list carries at least the task count that the allocation carried before
exactly when the stamp is at least that.  `obtainReusableAllocation`, `cleanAllocationList`
and `freeAllocationsList` only remove nodes: what stays, what is returned and what is freed
are nodes of the lists as they were. -/
theorem taskCount_changes_only_by_stamp (D : DebugVariables) (mm : MemoryManager)
    (A : GraphicsAllocation) (allocationType taskCount N minSize : Nat) :
    (¬ (D.DisableResourceRecycling = true ∧ allocationType = REUSABLE_ALLOCATION) →
      mm.storeAllocation3 D A allocationType taskCount =
        if allocationType = TEMPORARY_ALLOCATION then
          { mm with graphicsAllocations :=
              mm.graphicsAllocations ++ [{ A with taskCount := taskCount }] }
        else
          { mm with allocationsForReuse :=
              mm.allocationsForReuse ++ [{ A with taskCount := taskCount }] }) ∧
    (D.DisableResourceRecycling = true ∧ allocationType = REUSABLE_ALLOCATION →
      mm.storeAllocation3 D A allocationType taskCount = mm.freeGraphicsMemory A) ∧
    mm.storeAllocation D A allocationType =
      mm.storeAllocation3 D A allocationType
        (if allocationType = REUSABLE_ALLOCATION then
          (mm.csr.map CommandStreamReceiver.peekTaskCount).getD 0
        else A.taskCount) ∧
    (∀ x, ((mm.storeAllocation3 D A allocationType taskCount).graphicsAllocations =
          mm.graphicsAllocations ++ [x] ∨
        (mm.storeAllocation3 D A allocationType taskCount).allocationsForReuse =
          mm.allocationsForReuse ++ [x]) →
      x = { A with taskCount := taskCount } ∧
        (A.taskCount ≤ x.taskCount ↔ A.taskCount ≤ taskCount)) ∧
    ((mm.storeAllocation D A TEMPORARY_ALLOCATION).graphicsAllocations =
        mm.graphicsAllocations ++ [A] ∧
      (mm.storeAllocation D A TEMPORARY_ALLOCATION).allocationsForReuse =
        mm.allocationsForReuse) ∧
    (D.DisableResourceRecycling = false →
      (mm.storeAllocation D A REUSABLE_ALLOCATION).allocationsForReuse =
          mm.allocationsForReuse ++
            [{ A with taskCount := (mm.csr.map CommandStreamReceiver.peekTaskCount).getD 0 }] ∧
        (mm.storeAllocation D A REUSABLE_ALLOCATION).graphicsAllocations =
          mm.graphicsAllocations) ∧
    ((mm.obtainReusableAllocation minSize).2.graphicsAllocations = mm.graphicsAllocations ∧
      (mm.obtainReusableAllocation minSize).2.allocationsForReuse.Sublist
        mm.allocationsForReuse ∧
      ∀ x, (mm.obtainReusableAllocation minSize).1 = some x → x ∈ mm.allocationsForReuse) ∧
    ((mm.cleanAllocationList N allocationType).1.graphicsAllocations.Sublist
        mm.graphicsAllocations ∧
      (mm.cleanAllocationList N allocationType).1.allocationsForReuse.Sublist
        mm.allocationsForReuse ∧
      ∃ newly, (mm.cleanAllocationList N allocationType).1.freed = mm.freed ++ newly ∧
        ∀ x ∈ newly, x ∈ mm.graphicsAllocations ++ mm.allocationsForReuse) ∧
    (∀ l : AllocationsList, (mm.freeAllocationsList N l).2.Sublist l ∧
      ∃ newly, (mm.freeAllocationsList N l).1.freed = mm.freed ++ newly ∧
        ∀ x ∈ newly, x ∈ l) := by
  have h3 : ∀ (ty t : Nat), ¬ (D.DisableResourceRecycling = true ∧ ty = REUSABLE_ALLOCATION) →
      mm.storeAllocation3 D A ty t =
        if ty = TEMPORARY_ALLOCATION then
          { mm with graphicsAllocations :=
              mm.graphicsAllocations ++ [{ A with taskCount := t }] }
        else
          { mm with allocationsForReuse :=
              mm.allocationsForReuse ++ [{ A with taskCount := t }] } := by
    intro ty t h
    unfold MemoryManager.storeAllocation3
    rw [if_neg h]
    rfl
  have h3d : ∀ (ty t : Nat), D.DisableResourceRecycling = true ∧ ty = REUSABLE_ALLOCATION →
      mm.storeAllocation3 D A ty t = mm.freeGraphicsMemory A := by
    intro ty t h
    unfold MemoryManager.storeAllocation3
    rw [if_pos h]
  have h2 : ∀ ty : Nat, mm.storeAllocation D A ty =
      mm.storeAllocation3 D A ty
        (if ty = REUSABLE_ALLOCATION then
          (mm.csr.map CommandStreamReceiver.peekTaskCount).getD 0
        else A.taskCount) := by
    intro ty
    unfold MemoryManager.storeAllocation
    cases mm.csr <;> rfl
  have hT : ¬ (D.DisableResourceRecycling = true ∧ TEMPORARY_ALLOCATION = REUSABLE_ALLOCATION) :=
    fun h => absurd h.2 (by decide)
  refine ⟨h3 _ _, h3d _ _, h2 _, ?_, ?_, ?_, ?_, ?_, ?_⟩
  · intro x hx
    have hnode : x = { A with taskCount := taskCount } := by
      by_cases hd : D.DisableResourceRecycling = true ∧ allocationType = REUSABLE_ALLOCATION
      · rw [h3d _ _ hd] at hx
        simp [MemoryManager.freeGraphicsMemory] at hx
      · rw [h3 _ _ hd] at hx
        by_cases ht : allocationType = TEMPORARY_ALLOCATION
        · rw [if_pos ht] at hx
          rcases hx with hx | hx
          · have := List.append_cancel_left hx
            simpa using this.symm
          · simp at hx
        · rw [if_neg ht] at hx
          rcases hx with hx | hx
          · simp at hx
          · have := List.append_cancel_left hx
            simpa using this.symm
    refine ⟨hnode, ?_⟩
    rw [hnode]
  · rw [h2, h3 _ _ hT]
    simp [TEMPORARY_ALLOCATION, REUSABLE_ALLOCATION]
  · intro hD
    have hR : ¬ (D.DisableResourceRecycling = true ∧ REUSABLE_ALLOCATION = REUSABLE_ALLOCATION) := by
      rw [hD]
      simp
    rw [h2, h3 _ _ hR]
    simp [TEMPORARY_ALLOCATION, REUSABLE_ALLOCATION]
  · rw [obtainReusableAllocation_eq]
    refine ⟨rfl, List.eraseP_sublist _, ?_⟩
    intro x hx
    exact List.mem_of_find?_eq_some hx
  · unfold MemoryManager.cleanAllocationList
    split
    · simp only [freeAllocationsList_eq]
      refine ⟨List.filter_sublist _, List.Sublist.refl _, _, rfl, ?_⟩
      intro x hx
      exact List.mem_append_left _ (List.mem_of_mem_filter hx)
    · simp only [freeAllocationsList_eq]
      refine ⟨List.Sublist.refl _, List.filter_sublist _, _, rfl, ?_⟩
      intro x hx
      exact List.mem_append_right _ (List.mem_of_mem_filter hx)
  · intro l
    rw [freeAllocationsList_eq]
    refine ⟨List.filter_sublist _, _, rfl, ?_⟩
    intro x hx
    exact List.mem_of_mem_filter hx

/-! ## Detach is first fit, not best fit -/

/-- C21 (counterexample): in the list `[100 bytes, 50 bytes]` with both nodes unused (task
count 0), `detachAllocation(10, tag)` returns the 100-byte node at the head although the
50-byte node is eligible too and smaller. -/
theorem detachAllocation_returns_larger_head :
    (AllocationsList.detachAllocation [sampleAllocation 100 0, sampleAllocation 50 0] 10
        (some 1)).1 = some (sampleAllocation 100 0) ∧
      sampleAllocation 50 0 ∈ [sampleAllocation 100 0, sampleAllocation 50 0] ∧
      reuseEligible 10 1 (sampleAllocation 50 0) ∧
      (sampleAllocation 50 0).size < (sampleAllocation 100 0).size := by
  decide

/-- C21 (amended): `detachAllocation` detaches the first-fit reusable node.  With the tag
address holding `tag`, the node it returns is eligible and sits at a position `j` of the list
such that every eligible node of the list sits at a position `i ≥ j`: among the eligible nodes
it is the one nearest the head, whatever the sizes are. -/
theorem detachAllocation_is_first_fit (l : AllocationsList) (minSize tag : Nat) :
    ∀ x, (AllocationsList.detachAllocation l minSize (some tag)).1 = some x →
      ∃ j : Nat, l[j]? = some x ∧ reuseEligible minSize tag x ∧
        ∀ (i : Nat) (y : GraphicsAllocation),
          l[i]? = some y → reuseEligible minSize tag y → j ≤ i := by
  intro x hx
  unfold AllocationsList.detachAllocation at hx
  rw [detachAllocationImpl_eq] at hx
  obtain ⟨hp, before, after, hl, hbefore⟩ := List.find?_eq_some.1 hx
  refine ⟨before.length, ?_, (detachTest_tag minSize tag x).1 hp, ?_⟩
  · rw [hl, List.getElem?_append_right (Nat.le_refl before.length)]
    simp
  · intro i y hi hy
    by_contra hlt
    have hlt' : i < before.length := by omega
    rw [hl, List.getElem?_append_left hlt'] at hi
    have hmem : y ∈ before := List.getElem?_mem hi
    have hno := hbefore y hmem
    have hyes := (detachTest_tag minSize tag y).2 hy
    simp [hyes] at hno

/-- Witness for C21: the list `[100 bytes, 50 bytes]`, both nodes unused; the node returned
is the 100-byte node at position 0. -/
theorem detachAllocation_is_first_fit_witness :
    ∃ j : Nat, [sampleAllocation 100 0, sampleAllocation 50 0][j]? =
        some (sampleAllocation 100 0) ∧
      reuseEligible 10 1 (sampleAllocation 100 0) ∧
      ∀ (i : Nat) (y : GraphicsAllocation),
        [sampleAllocation 100 0, sampleAllocation 50 0][i]? = some y →
          reuseEligible 10 1 y → j ≤ i :=
  detachAllocation_is_first_fit [sampleAllocation 100 0, sampleAllocation 50 0] 10 1
    (sampleAllocation 100 0) (by decide)

/-! ## System memory: the minimum alignment -/

/-- C23: `allocateSystemMemory(size, alignment)` calls `alignedMalloc` with the requested size
and the alignment `max(alignment, 16)`.  Recording the two arguments of the call: the alignment
passed is at least 16 for every request and is the requested one whenever that is at least
16; and for every `alignedMalloc` the result is its result at these arguments. -/
theorem allocateSystemMemory_minimum_alignment (size alignment : Nat) :
    MemoryManager.allocateSystemMemory Prod.mk size alignment = (size, max alignment 16) ∧
      16 ≤ (MemoryManager.allocateSystemMemory Prod.mk size alignment).2 ∧
      (16 ≤ alignment →
        (MemoryManager.allocateSystemMemory Prod.mk size alignment).2 = alignment) ∧
      (alignment < 16 →
        (MemoryManager.allocateSystemMemory Prod.mk size alignment).2 = 16) ∧
      ∀ (α : Type) (alignedMalloc : Nat → Nat → α),
        MemoryManager.allocateSystemMemory alignedMalloc size alignment =
          alignedMalloc size (max alignment 16) := by
  refine ⟨rfl, ?_, ?_, ?_, ?_⟩
  · show 16 ≤ max alignment 16
    exact Nat.le_max_right _ _
  · intro h
    show max alignment 16 = alignment
    exact Nat.max_eq_left h
  · intro h
    show max alignment 16 = 16
    exact Nat.max_eq_right (Nat.le_of_lt h)
  · intro α alignedMalloc
    rfl

/-! ## Store and obtain: the round trip -/

/-- C24: starting from an empty reusable list, with recycling enabled and no command-stream
receiver attached, `storeAllocation(A, REUSABLE_ALLOCATION)` leaves the list holding `A`
stamped 0 alone; `obtainReusableAllocation(minSize)` then returns `A` (with task count 0) and
leaves the list empty when `minSize ≤ size(A)`, and returns null and leaves `A` in the list
(the manager is unchanged) when `minSize > size(A)`. -/
theorem store_obtain_round_trip (D : DebugVariables) (mm : MemoryManager)
    (A : GraphicsAllocation) (minSize : Nat)
    (hD : D.DisableResourceRecycling = false) (hcsr : mm.csr = none)
    (hempty : mm.allocationsForReuse = []) :
    (mm.storeAllocation D A REUSABLE_ALLOCATION).allocationsForReuse =
        [{ A with taskCount := 0 }] ∧
      (minSize ≤ A.size →
        ((mm.storeAllocation D A REUSABLE_ALLOCATION).obtainReusableAllocation minSize).1 =
            some { A with taskCount := 0 } ∧
          ((mm.storeAllocation D A REUSABLE_ALLOCATION).obtainReusableAllocation
            minSize).2.allocationsForReuse = []) ∧
      (A.size < minSize →
        ((mm.storeAllocation D A REUSABLE_ALLOCATION).obtainReusableAllocation minSize).1 =
            none ∧
          ((mm.storeAllocation D A REUSABLE_ALLOCATION).obtainReusableAllocation minSize).2 =
            mm.storeAllocation D A REUSABLE_ALLOCATION) := by
  have hstore : mm.storeAllocation D A REUSABLE_ALLOCATION =
      { mm with allocationsForReuse := [{ A with taskCount := 0 }] } := by
    simp [MemoryManager.storeAllocation, MemoryManager.storeAllocation3, hD, hcsr, hempty,
      REUSABLE_ALLOCATION, TEMPORARY_ALLOCATION, IDList.pushTailOne]
  rw [hstore, obtainReusableAllocation_eq]
  refine ⟨rfl, ?_, ?_⟩
  · intro hle
    have ht : detachTest (ReusableAllocationRequirements.mk minSize none)
        { A with taskCount := 0 } = true := by
      simp [detachTest, GraphicsAllocation.getUnderlyingBufferSize, hle]
    simp [hcsr, ht]
  · intro hlt
    have ht : detachTest (ReusableAllocationRequirements.mk minSize none)
        { A with taskCount := 0 } = false := by
      simp [detachTest, GraphicsAllocation.getUnderlyingBufferSize, hlt]
    simp [hcsr, ht]

/-- C24 (witness): a 100-byte allocation stored in the empty reusable list of a manager
without a receiver. -/
theorem store_obtain_round_trip_witness :
    ((sampleManager [] [] none).storeAllocation { DisableResourceRecycling := false }
        (sampleAllocation 100 7) REUSABLE_ALLOCATION).allocationsForReuse =
        [{ sampleAllocation 100 7 with taskCount := 0 }] ∧
      (50 ≤ (sampleAllocation 100 7).size →
        (((sampleManager [] [] none).storeAllocation { DisableResourceRecycling := false }
            (sampleAllocation 100 7) REUSABLE_ALLOCATION).obtainReusableAllocation 50).1 =
            some { sampleAllocation 100 7 with taskCount := 0 } ∧
          (((sampleManager [] [] none).storeAllocation { DisableResourceRecycling := false }
            (sampleAllocation 100 7) REUSABLE_ALLOCATION).obtainReusableAllocation
            50).2.allocationsForReuse = []) ∧
      ((sampleAllocation 100 7).size < 50 →
        (((sampleManager [] [] none).storeAllocation { DisableResourceRecycling := false }
            (sampleAllocation 100 7) REUSABLE_ALLOCATION).obtainReusableAllocation 50).1 =
            none ∧
          (((sampleManager [] [] none).storeAllocation { DisableResourceRecycling := false }
            (sampleAllocation 100 7) REUSABLE_ALLOCATION).obtainReusableAllocation 50).2 =
            (sampleManager [] [] none).storeAllocation { DisableResourceRecycling := false }
              (sampleAllocation 100 7) REUSABLE_ALLOCATION) :=
  store_obtain_round_trip { DisableResourceRecycling := false } (sampleManager [] [] none)
    (sampleAllocation 100 7) 50 rfl rfl rfl

/-! ## Reclamation composes by maximum -/

theorem retired_twice_perm (N M : Nat) :
    ∀ l : List GraphicsAllocation,
      List.Perm
        (l.filter (fun a => decide (a.taskCount ≤ N)) ++
          (l.filter (fun a => decide (N < a.taskCount))).filter
            (fun a => decide (a.taskCount ≤ M)))
        (l.filter (fun a => decide (a.taskCount ≤ max N M))) := by
  intro l
  induction l with
  | nil => simp
  | cons a t ih =>
    by_cases h1 : a.taskCount ≤ N
    · have h2 : ¬ N < a.taskCount := by omega
      have h3 : a.taskCount ≤ max N M := le_trans h1 (Nat.le_max_left _ _)
      simp only [List.filter_cons, h1, h2, h3, decide_True, decide_False, if_true,
        Bool.false_eq_true, if_false, List.cons_append]
      exact List.Perm.cons a ih
    · have h2 : N < a.taskCount := by omega
      by_cases h4 : a.taskCount ≤ M
      · have h3 : a.taskCount ≤ max N M := le_trans h4 (Nat.le_max_right _ _)
        simp only [List.filter_cons, h1, h2, h3, h4, decide_True, decide_False, if_true,
          Bool.false_eq_true, if_false]
        exact List.perm_middle.trans (List.Perm.cons a ih)
      · have h3 : ¬ a.taskCount ≤ max N M := by
          intro h
          rcases Nat.le_total N M with hNM | hNM
          · rw [Nat.max_eq_right hNM] at h
            exact h4 h
          · rw [Nat.max_eq_left hNM] at h
            exact h1 h
        simp only [List.filter_cons, h1, h2, h3, h4, decide_True, decide_False, if_true,
          Bool.false_eq_true, if_false]
        exact ih

theorem kept_twice_eq (N M : Nat) (l : List GraphicsAllocation) :
    (l.filter (fun a => decide (N < a.taskCount))).filter (fun a => decide (M < a.taskCount)) =
      l.filter (fun a => decide (max N M < a.taskCount)) := by
  rw [List.filter_filter]
  congr 1
  funext a
  rw [Bool.eq_iff_iff]
  simp only [Bool.and_eq_true, decide_eq_true_eq, Nat.max_lt]
  exact And.comm

/-- C25: reclamation composes by maximum.  For every manager, list, `N` and `M`,
`freeAllocationsList(N)` followed by `freeAllocationsList(M)` leaves the same list as a single
`freeAllocationsList(max(N, M))`, hands the same nodes to `freeGraphicsMemory` (the two
records are permutations of each other; the order of the frees may differ) and leaves the
rest of the manager the same.  A second `freeAllocationsList(N)` with the same `N` frees
nothing and changes neither the list nor the manager. -/
theorem freeAllocationsList_composes_by_max (mm : MemoryManager) (l : AllocationsList)
    (N M : Nat) :
    ((mm.freeAllocationsList N l).1.freeAllocationsList M (mm.freeAllocationsList N l).2).2 =
        (mm.freeAllocationsList (max N M) l).2 ∧
      List.Perm
        ((mm.freeAllocationsList N l).1.freeAllocationsList M
          (mm.freeAllocationsList N l).2).1.freed
        (mm.freeAllocationsList (max N M) l).1.freed ∧
      { ((mm.freeAllocationsList N l).1.freeAllocationsList M
          (mm.freeAllocationsList N l).2).1 with freed := [] } =
        { (mm.freeAllocationsList (max N M) l).1 with freed := [] } ∧
      (mm.freeAllocationsList N l).1.freeAllocationsList N (mm.freeAllocationsList N l).2 =
        mm.freeAllocationsList N l := by
  simp only [freeAllocationsList_eq]
  refine ⟨kept_twice_eq N M l, ?_, trivial, ?_⟩
  · show List.Perm (mm.freed ++ _ ++ _) (mm.freed ++ _)
    rw [List.append_assoc]
    exact List.Perm.append_left mm.freed (retired_twice_perm N M l)
  · have hnone : (l.filter (fun a => decide (N < a.taskCount))).filter
        (fun a => decide (a.taskCount ≤ N)) = [] := by
      rw [List.filter_filter, List.filter_eq_nil_iff]
      intro a _
      simp only [Bool.and_eq_true, decide_eq_true_eq, not_and, not_le]
      omega
    have hkeep : (l.filter (fun a => decide (N < a.taskCount))).filter
        (fun a => decide (N < a.taskCount)) = l.filter (fun a => decide (N < a.taskCount)) := by
      rw [List.filter_filter]
      congr 1
      funext a
      simp
    simp [hnone, hkeep]

/-! ## The overlap check: frame and output shape -/

theorem fragment_quiet (ext : Collaborators) (fuel : Nat) (requirements : AllocationRequirements)
    (i : Nat) (mm : MemoryManager) (k : Nat) (cf : CheckedFragments)
    (h : overlapReport ext requirements i mm ≠
      OverlapStatus.FRAGMENT_OVERLAPING_AND_BIGGER_THEN_STORED_FRAGMENT) :
    MemoryManager.checkAllocationsForOverlapping.fragment ext fuel requirements i mm k cf =
      some (false, mm.afterOverlapCheck ext requirements i, k,
        (MemoryManager.checkAllocationsForOverlapping.check ext requirements i
          (mm, { cf with count := cf.count + 1 })).2) := by
  unfold MemoryManager.checkAllocationsForOverlapping.fragment
  simp only [check_status_self, check_fst]
  rw [if_neg h]
  rfl

theorem afterQuietChecks_frame (ext : Collaborators) (requirements : AllocationRequirements) :
    ∀ (remaining i : Nat) (mm : MemoryManager),
      ∃ t, mm.afterQuietChecks ext requirements remaining i =
        { mm with calls := mm.calls ++ t } := by
  intro remaining
  induction remaining with
  | zero =>
    intro i mm
    exact ⟨[], by simp [MemoryManager.afterQuietChecks]⟩
  | succ n ih =>
    intro i mm
    obtain ⟨t, ht⟩ := ih (i + 1) (mm.afterOverlapCheck ext requirements i)
    refine ⟨overlapCheckCall requirements i (overlapReport ext requirements i mm) :: t, ?_⟩
    show MemoryManager.afterQuietChecks ext requirements n (i + 1)
        (mm.afterOverlapCheck ext requirements i) = _
    rw [ht, afterOverlapCheck_eq]
    simp

theorem loop_quiet (ext : Collaborators) (fuel : Nat) (requirements : AllocationRequirements) :
    ∀ (remaining i : Nat) (mm : MemoryManager) (k : Nat) (cf : CheckedFragments),
      mm.quietChecks ext requirements remaining i = true →
      ∃ cf', MemoryManager.checkAllocationsForOverlapping.loop ext fuel requirements remaining i
        mm k cf = some (RequirementsStatus.SUCCESS,
          mm.afterQuietChecks ext requirements remaining i, k, cf') := by
  intro remaining
  induction remaining with
  | zero =>
    intro i mm k cf _
    exact ⟨cf, rfl⟩
  | succ n ih =>
    intro i mm k cf hq
    simp only [MemoryManager.quietChecks, Bool.and_eq_true, decide_eq_true_eq] at hq
    obtain ⟨h1, h2⟩ := hq
    unfold MemoryManager.checkAllocationsForOverlapping.loop
    rw [fragment_quiet ext fuel requirements i mm k cf h1]
    exact ih (i + 1) _ k _ h2

theorem fragment_passed (ext : Collaborators) (fuel : Nat)
    (requirements : AllocationRequirements)
    (i : Nat) (mm : MemoryManager) (k : Nat) (cf : CheckedFragments)
    (mm' : MemoryManager) (k' : Nat) (cf' : CheckedFragments)
    (h : MemoryManager.checkAllocationsForOverlapping.fragment ext fuel requirements i mm k cf =
      some (false, mm', k', cf')) :
    cf'.status i ≠ OverlapStatus.FRAGMENT_OVERLAPING_AND_BIGGER_THEN_STORED_FRAGMENT := by
  obtain ⟨t, -, hcases⟩ := fragment_trace ext fuel requirements i mm k cf false mm' k' cf' h
  rcases hcases with ⟨s1, hs1, -, -, hst⟩ | ⟨-, -, hf, -⟩ | ⟨c1, s2, -, hs2, -, -, hst⟩ |
    ⟨c1, c2, s3, -, -, hiff, hst⟩
  · rw [hst]
    exact hs1
  · exact absurd hf (by simp)
  · rw [hst]
    exact hs2
  · rw [hst]
    intro hs3
    exact absurd (hiff.2 hs3) (by simp)

/-- The fragments that the loop has gone past carry a final status other than
overlapping-and-bigger: all the fragments before the last one processed, and on SUCCESS all
of them. -/
theorem loop_passed (ext : Collaborators) (fuel : Nat) (requirements : AllocationRequirements) :
    ∀ (remaining i : Nat) (mm : MemoryManager) (k : Nat) (cf : CheckedFragments)
      (st : RequirementsStatus) (mm' : MemoryManager) (k' : Nat) (cf' : CheckedFragments),
      MemoryManager.checkAllocationsForOverlapping.loop ext fuel requirements remaining i mm k cf
        = some (st, mm', k', cf') →
      ∀ j, i ≤ j →
        (j + 1 + cf.count < i + cf'.count ∨
          (st = RequirementsStatus.SUCCESS ∧ j < i + remaining)) →
        cf'.status j ≠ OverlapStatus.FRAGMENT_OVERLAPING_AND_BIGGER_THEN_STORED_FRAGMENT := by
  intro remaining
  induction remaining with
  | zero =>
    intro i mm k cf st mm' k' cf' h j hij hj
    simp only [MemoryManager.checkAllocationsForOverlapping.loop, Option.some.injEq,
      Prod.mk.injEq] at h
    obtain ⟨rfl, rfl, rfl, rfl⟩ := h
    rcases hj with hj | ⟨-, hj⟩ <;> omega
  | succ n ih =>
    intro i mm k cf st mm' k' cf' h j hij hj
    unfold MemoryManager.checkAllocationsForOverlapping.loop at h
    cases hfr : MemoryManager.checkAllocationsForOverlapping.fragment ext fuel requirements i
        mm k cf with
    | none =>
      rw [hfr] at h
      exact absurd h (by simp)
    | some r =>
      obtain ⟨b, mm1, k1, cf1⟩ := r
      rw [hfr] at h
      obtain ⟨-, -, -, -, hcount1, -⟩ :=
        fragment_frame ext fuel requirements i mm k cf b mm1 k1 cf1 hfr
      cases b with
      | true =>
        simp only [Option.some.injEq, Prod.mk.injEq] at h
        obtain ⟨rfl, rfl, rfl, rfl⟩ := h
        rcases hj with hj | ⟨hst, -⟩
        · omega
        · exact absurd hst (by decide)
      | false =>
        simp only [] at h
        by_cases hji : j = i
        · subst hji
          obtain ⟨t, m, -, -, -, -, -, -, -, -, -, -, -, -, hkeep⟩ :=
            loop_summary ext fuel requirements _ _ _ _ _ _ _ _ _ h
          rw [(hkeep j (Or.inl (by omega))).1]
          exact fragment_passed ext fuel requirements j mm k cf mm1 k1 cf1 hfr
        · apply ih (i + 1) mm1 k1 cf1 st mm' k' cf' h j (by omega)
          rcases hj with hj | ⟨hst, hj⟩
          · left
            omega
          · right
            exact ⟨hst, by omega⟩

/-- C26: `checkAllocationsForOverlapping` never modifies the reusable list, and the temporary
list after the call is an order-preserving sublist of the temporary list before it, whatever
result the call comes back with; and it does come back when every wait for the hardware ends
within `fuel` polls.  When no fragment's initial overlap check reports
overlapping-and-bigger-than-stored, the call comes back for every `fuel` with SUCCESS, and
the manager, both lists included, is unchanged but for the record of the calls made. -/
theorem checkAllocationsForOverlapping_lists_frame (ext : Collaborators) (fuel : Nat)
    (mm : MemoryManager) (requirements : AllocationRequirements)
    (checkedFragments : CheckedFragments) :
    (∀ st mm' cf',
      mm.checkAllocationsForOverlapping ext fuel requirements checkedFragments =
        some (st, mm', cf') →
      mm'.allocationsForReuse = mm.allocationsForReuse ∧
        mm'.graphicsAllocations.Sublist mm.graphicsAllocations) ∧
    ((∀ c, mm.csr = some c →
        ∀ n, ∃ j, j < fuel ∧ c.peekLatestSentTaskCount ≤ ext.tagReads (n + j)) →
      ∃ r, mm.checkAllocationsForOverlapping ext fuel requirements checkedFragments = some r) ∧
    (mm.quietChecks ext requirements requirements.requiredFragmentsCount 0 = true →
      ∃ mm' cf',
        mm.checkAllocationsForOverlapping ext fuel requirements checkedFragments =
          some (RequirementsStatus.SUCCESS, mm', cf') ∧
        mm'.graphicsAllocations = mm.graphicsAllocations ∧
        mm'.allocationsForReuse = mm.allocationsForReuse ∧
        mm' = { mm with calls := mm'.calls }) := by
  refine ⟨?_, ?_, ?_⟩
  · intro st mm' cf' h
    unfold MemoryManager.checkAllocationsForOverlapping at h
    cases hloop : MemoryManager.checkAllocationsForOverlapping.loop ext fuel requirements
        requirements.requiredFragmentsCount 0 mm 0 checkedFragments.reset with
    | none =>
      rw [hloop] at h
      exact absurd h (by simp)
    | some q =>
      obtain ⟨st1, mm1, k1, cf1⟩ := q
      rw [hloop] at h
      simp only [Option.map_some', Option.some.injEq, Prod.mk.injEq] at h
      obtain ⟨rfl, rfl, rfl⟩ := h
      obtain ⟨t, m, -, -, -, -, -, -, -, -, -, -, hreuse, hsub, -⟩ :=
        loop_summary ext fuel requirements _ _ _ _ _ _ _ _ _ hloop
      exact ⟨hreuse, hsub⟩
  · intro hprog
    obtain ⟨r, hloop⟩ := loop_isSome ext fuel requirements
      requirements.requiredFragmentsCount 0 mm 0 checkedFragments.reset hprog
    unfold MemoryManager.checkAllocationsForOverlapping
    rw [hloop]
    exact ⟨_, rfl⟩
  · intro hq
    obtain ⟨cf', hloop⟩ := loop_quiet ext fuel requirements
      requirements.requiredFragmentsCount 0 mm 0 checkedFragments.reset hq
    obtain ⟨t, hframe⟩ := afterQuietChecks_frame ext requirements
      requirements.requiredFragmentsCount 0 mm
    refine ⟨mm.afterQuietChecks ext requirements requirements.requiredFragmentsCount 0, cf',
      ?_, ?_, ?_, ?_⟩
    · unfold MemoryManager.checkAllocationsForOverlapping
      rw [hloop]
      rfl
    · rw [hframe]
    · rw [hframe]
    · rw [hframe]

/-- Witness for C26: a receiver is attached, the temporary list could be reclaimed, and the
overlap check of the one fragment reports no overlap: the call comes back with SUCCESS
without a single poll, and both lists are as before. -/
theorem checkAllocationsForOverlapping_lists_frame_witness :
    ∃ mm' cf',
      (sampleManager [sampleAllocation 8 3, sampleAllocation 8 9] [sampleAllocation 16 2]
          (some (sampleReceiver 9 2))).checkAllocationsForOverlapping
        (sampleCollaborators (fun n => n) (fun _ => false) 1 true) 0
        { AllocationFragments := [{ allocationPtr := 4097, allocationSize := 100 }],
          requiredFragmentsCount := 1 }
        CheckedFragments.uninitialised = some (RequirementsStatus.SUCCESS, mm', cf') ∧
      mm'.graphicsAllocations = (sampleManager [sampleAllocation 8 3, sampleAllocation 8 9]
        [sampleAllocation 16 2] (some (sampleReceiver 9 2))).graphicsAllocations ∧
      mm'.allocationsForReuse = (sampleManager [sampleAllocation 8 3, sampleAllocation 8 9]
        [sampleAllocation 16 2] (some (sampleReceiver 9 2))).allocationsForReuse ∧
      mm' = { sampleManager [sampleAllocation 8 3, sampleAllocation 8 9]
        [sampleAllocation 16 2] (some (sampleReceiver 9 2)) with calls := mm'.calls } :=
  (checkAllocationsForOverlapping_lists_frame
    (sampleCollaborators (fun n => n) (fun _ => false) 1 true) 0
    (sampleManager [sampleAllocation 8 3, sampleAllocation 8 9] [sampleAllocation 16 2]
      (some (sampleReceiver 9 2)))
    { AllocationFragments := [{ allocationPtr := 4097, allocationSize := 100 }],
      requiredFragmentsCount := 1 }
    CheckedFragments.uninitialised).2.2 (by decide)

/-- C27: the output shape of `checkAllocationsForOverlapping`, whatever `checkedFragments`
held before the call.  Whenever the call comes back (it does when every wait for the hardware
ends within `fuel` polls), `count ≤ requiredFragmentsCount`.  On SUCCESS `count` equals
`requiredFragmentsCount` and no slot below it holds overlapping-and-bigger.  On FATAL `count`
is `f + 1` for the fatal fragment `f`: slot `f` holds overlapping-and-bigger and no slot
before it does.  Every slot from `count` up to `max_fragments_count` has status
FRAGMENT_NOT_CHECKED and a null fragment. -/
theorem checkAllocationsForOverlapping_output_shape (ext : Collaborators) (fuel : Nat)
    (mm : MemoryManager) (requirements : AllocationRequirements)
    (checkedFragments : CheckedFragments) :
    (∀ st mm' cf',
      mm.checkAllocationsForOverlapping ext fuel requirements checkedFragments =
        some (st, mm', cf') →
      cf'.count ≤ requirements.requiredFragmentsCount ∧
        (st = RequirementsStatus.SUCCESS →
          cf'.count = requirements.requiredFragmentsCount ∧
          ∀ j, j < requirements.requiredFragmentsCount → cf'.status j ≠
            OverlapStatus.FRAGMENT_OVERLAPING_AND_BIGGER_THEN_STORED_FRAGMENT) ∧
        (st = RequirementsStatus.FATAL →
          ∃ f, f < requirements.requiredFragmentsCount ∧ cf'.count = f + 1 ∧
            cf'.status f = OverlapStatus.FRAGMENT_OVERLAPING_AND_BIGGER_THEN_STORED_FRAGMENT ∧
            ∀ j, j < f → cf'.status j ≠
              OverlapStatus.FRAGMENT_OVERLAPING_AND_BIGGER_THEN_STORED_FRAGMENT) ∧
        (∀ j, cf'.count ≤ j → j < max_fragments_count →
          cf'.status j = OverlapStatus.FRAGMENT_NOT_CHECKED ∧ cf'.fragments j = none)) ∧
    ((∀ c, mm.csr = some c →
        ∀ n, ∃ j, j < fuel ∧ c.peekLatestSentTaskCount ≤ ext.tagReads (n + j)) →
      ∃ r, mm.checkAllocationsForOverlapping ext fuel requirements checkedFragments =
        some r) := by
  refine ⟨?_, ?_⟩
  · intro st mm' cf' h
    unfold MemoryManager.checkAllocationsForOverlapping at h
    cases hloop : MemoryManager.checkAllocationsForOverlapping.loop ext fuel requirements
        requirements.requiredFragmentsCount 0 mm 0 checkedFragments.reset with
    | none =>
      rw [hloop] at h
      exact absurd h (by simp)
    | some q =>
      obtain ⟨st1, mm1, k1, cf1⟩ := q
      rw [hloop] at h
      simp only [Option.map_some', Option.some.injEq, Prod.mk.injEq] at h
      obtain ⟨rfl, rfl, rfl⟩ := h
      obtain ⟨t, m, -, hm, hcount, hsucc, hfatal, -, -, -, -, -, -, -, hkeep⟩ :=
        loop_summary ext fuel requirements _ _ _ _ _ _ _ _ _ hloop
      have hpassed := loop_passed ext fuel requirements _ _ _ _ _ _ _ _ _ hloop
      have hc : cf1.count = m := by
        rw [hcount]
        show 0 + m = m
        omega
      refine ⟨by omega, ?_, ?_, ?_⟩
      · intro hst
        refine ⟨by rw [hc]; exact hsucc hst, ?_⟩
        intro j hj
        exact hpassed j (Nat.zero_le _) (Or.inr ⟨hst, by omega⟩)
      · intro hst
        obtain ⟨hpos, hstat⟩ := hfatal hst
        refine ⟨m - 1, by omega, by omega, ?_, ?_⟩
        · rw [Nat.zero_add] at hstat
          exact hstat
        · intro j hj
          apply hpassed j (Nat.zero_le _)
          left
          show j + 1 + 0 < 0 + cf1.count
          omega
      · intro j hj1 hj2
        obtain ⟨h1, h2⟩ := hkeep j (Or.inr (by omega))
        rw [h1, h2]
        simp [CheckedFragments.reset, hj2]
  · intro hprog
    obtain ⟨r, hloop⟩ := loop_isSome ext fuel requirements
      requirements.requiredFragmentsCount 0 mm 0 checkedFragments.reset hprog
    unfold MemoryManager.checkAllocationsForOverlapping
    rw [hloop]
    exact ⟨_, rfl⟩

/-- Witness for C27: no receiver is attached and the overlap check of the one fragment
reports overlapping-and-bigger: the call comes back, so the shape above describes its
output. -/
theorem checkAllocationsForOverlapping_output_shape_witness :
    ∃ r, (sampleManager [sampleAllocation 8 3] [sampleAllocation 16 2]
        none).checkAllocationsForOverlapping
      (sampleCollaborators (fun n => n) (fun _ => true) 1 true) 0
      { AllocationFragments := [{ allocationPtr := 4097, allocationSize := 100 }],
        requiredFragmentsCount := 1 }
      CheckedFragments.uninitialised = some r :=
  (checkAllocationsForOverlapping_output_shape
    (sampleCollaborators (fun n => n) (fun _ => true) 1 true) 0
    (sampleManager [sampleAllocation 8 3] [sampleAllocation 16 2] none)
    { AllocationFragments := [{ allocationPtr := 4097, allocationSize := 100 }],
      requiredFragmentsCount := 1 }
    CheckedFragments.uninitialised).2 (fun c hc => absurd hc (by simp [sampleManager]))

/-! ## Overlap resolution: the status returned -/

theorem fragment_fatal_no_receiver (ext : Collaborators) (fuel : Nat)
    (requirements : AllocationRequirements)
    (i : Nat) (mm : MemoryManager) (k : Nat) (cf : CheckedFragments)
    (hcsr : mm.csr = none)
    (h : overlapReport ext requirements i mm =
      OverlapStatus.FRAGMENT_OVERLAPING_AND_BIGGER_THEN_STORED_FRAGMENT) :
    MemoryManager.checkAllocationsForOverlapping.fragment ext fuel requirements i mm k cf =
      some (true, mm.afterOverlapCheck ext requirements i, k,
        (MemoryManager.checkAllocationsForOverlapping.check ext requirements i
          (mm, { cf with count := cf.count + 1 })).2) := by
  have hrec : (mm.record (overlapCheckCall requirements i
      (overlapReport ext requirements i mm))).csr = none := hcsr
  unfold MemoryManager.checkAllocationsForOverlapping.fragment
  simp only [check_status_self, check_fst]
  rw [if_pos h]
  simp only [hrec]
  rfl

/-- The state after the initial checks of the fragments `i, ..., i + r - 1` is the state after
those of `i, ..., i + r - 2` followed by the check of fragment `i + r - 1`. -/
theorem afterQuietChecks_succ (ext : Collaborators) (requirements : AllocationRequirements) :
    ∀ (r i : Nat) (mm : MemoryManager),
      mm.afterQuietChecks ext requirements (r + 1) i =
        (mm.afterQuietChecks ext requirements r i).afterOverlapCheck ext requirements (i + r)
    := by
  intro r
  induction r with
  | zero =>
    intro i mm
    rfl
  | succ r ih =>
    intro i mm
    show MemoryManager.afterQuietChecks ext requirements (r + 1) (i + 1)
        (mm.afterOverlapCheck ext requirements i) = _
    rw [ih (i + 1) (mm.afterOverlapCheck ext requirements i)]
    have hidx : i + 1 + r = i + (r + 1) := by omega
    rw [hidx]
    rfl

/-- The calls on record after the initial checks of the fragments `i, ..., i + r - 1`: one
overlap check per fragment, in order, each with the status reported in the state that the
checks before it have left. -/
theorem afterQuietChecks_calls (ext : Collaborators) (requirements : AllocationRequirements)
    (i : Nat) (mm : MemoryManager) :
    ∀ r : Nat, mm.afterQuietChecks ext requirements r i =
      { mm with calls := mm.calls ++ (List.range r).map (fun d =>
          overlapCheckCall requirements (i + d)
            (overlapReport ext requirements (i + d)
              (mm.afterQuietChecks ext requirements d i))) } := by
  intro r
  induction r with
  | zero => simp [MemoryManager.afterQuietChecks]
  | succ r ih =>
    rw [afterQuietChecks_succ, afterOverlapCheck_eq, List.range_succ, List.map_append]
    conv_lhs => rw [ih]
    simp only [List.map_cons, List.map_nil, List.append_assoc]
    rw [← ih]

/-- With no receiver attached the loop ends FATAL at the first fragment whose initial check
reports overlapping-and-bigger, in the state that this check has left. -/
theorem loop_fatal_no_receiver (ext : Collaborators) (fuel : Nat)
    (requirements : AllocationRequirements) :
    ∀ (d remaining i : Nat) (mm : MemoryManager) (k : Nat) (cf : CheckedFragments),
      mm.csr = none → d < remaining →
      mm.quietChecks ext requirements d i = true →
      overlapReport ext requirements (i + d) (mm.afterQuietChecks ext requirements d i) =
        OverlapStatus.FRAGMENT_OVERLAPING_AND_BIGGER_THEN_STORED_FRAGMENT →
      ∃ cf', MemoryManager.checkAllocationsForOverlapping.loop ext fuel requirements remaining i
          mm k cf = some (RequirementsStatus.FATAL,
            mm.afterQuietChecks ext requirements (d + 1) i, k, cf') ∧
        cf'.count = cf.count + d + 1 ∧
        cf'.status (i + d) =
          OverlapStatus.FRAGMENT_OVERLAPING_AND_BIGGER_THEN_STORED_FRAGMENT := by
  intro d
  induction d with
  | zero =>
    intro remaining i mm k cf hcsr hd _ hrep
    obtain ⟨r, rfl⟩ : ∃ r, remaining = r + 1 := ⟨remaining - 1, by omega⟩
    have hrep' : overlapReport ext requirements i mm =
        OverlapStatus.FRAGMENT_OVERLAPING_AND_BIGGER_THEN_STORED_FRAGMENT := hrep
    unfold MemoryManager.checkAllocationsForOverlapping.loop
    rw [fragment_fatal_no_receiver ext fuel requirements i mm k cf hcsr hrep']
    refine ⟨_, rfl, rfl, ?_⟩
    show (MemoryManager.checkAllocationsForOverlapping.check ext requirements i
      (mm, { cf with count := cf.count + 1 })).2.status i = _
    rw [check_status_self]
    exact hrep'
  | succ d ih =>
    intro remaining i mm k cf hcsr hd hq hrep
    obtain ⟨r, rfl⟩ : ∃ r, remaining = r + 1 := ⟨remaining - 1, by omega⟩
    simp only [MemoryManager.quietChecks, Bool.and_eq_true, decide_eq_true_eq] at hq
    obtain ⟨h1, h2⟩ := hq
    have hidx : i + (d + 1) = i + 1 + d := by omega
    have hrep' : overlapReport ext requirements (i + 1 + d)
        ((mm.afterOverlapCheck ext requirements i).afterQuietChecks ext requirements d (i + 1))
        = OverlapStatus.FRAGMENT_OVERLAPING_AND_BIGGER_THEN_STORED_FRAGMENT := by
      rw [← hidx]
      exact hrep
    obtain ⟨cf', hloop, hcount, hstat⟩ := ih r (i + 1) (mm.afterOverlapCheck ext requirements i)
      k (MemoryManager.checkAllocationsForOverlapping.check ext requirements i
          (mm, { cf with count := cf.count + 1 })).2 hcsr (by omega) h2 hrep'
    unfold MemoryManager.checkAllocationsForOverlapping.loop
    rw [fragment_quiet ext fuel requirements i mm k cf h1]
    refine ⟨cf', hloop, ?_, ?_⟩
    · rw [hcount, check_count]
      show cf.count + 1 + d + 1 = cf.count + (d + 1) + 1
      omega
    · rw [hidx]
      exact hstat

/-- Either no initial check of the fragments `i, ..., i + r - 1` reports overlapping-and-bigger,
or there is a first one that does. -/
theorem quiet_or_first (ext : Collaborators) (requirements : AllocationRequirements) :
    ∀ (r i : Nat) (mm : MemoryManager),
      mm.quietChecks ext requirements r i = true ∨
        ∃ d, d < r ∧ mm.quietChecks ext requirements d i = true ∧
          overlapReport ext requirements (i + d) (mm.afterQuietChecks ext requirements d i) =
            OverlapStatus.FRAGMENT_OVERLAPING_AND_BIGGER_THEN_STORED_FRAGMENT := by
  intro r
  induction r with
  | zero =>
    intro i mm
    exact Or.inl rfl
  | succ r ih =>
    intro i mm
    by_cases h : overlapReport ext requirements i mm =
        OverlapStatus.FRAGMENT_OVERLAPING_AND_BIGGER_THEN_STORED_FRAGMENT
    · exact Or.inr ⟨0, by omega, rfl, h⟩
    · rcases ih (i + 1) (mm.afterOverlapCheck ext requirements i) with hq | ⟨d, hd, hq, hrep⟩
      · left
        simp only [MemoryManager.quietChecks, Bool.and_eq_true, decide_eq_true_eq]
        exact ⟨h, hq⟩
      · right
        refine ⟨d + 1, by omega, ?_, ?_⟩
        · simp only [MemoryManager.quietChecks, Bool.and_eq_true, decide_eq_true_eq]
          exact ⟨h, hq⟩
        · have hidx : i + (d + 1) = i + 1 + d := by omega
          rw [hidx]
          exact hrep

/-- C12: with no receiver attached, `checkAllocationsForOverlapping` returns FATAL as soon as
a fragment's overlap check reports overlapping-and-bigger.  Let the checks of the fragments
before `j` report something else and the check of fragment `j`, asked in the state that those
checks have left, report overlapping-and-bigger.  Then the call comes back with FATAL, `count`
is `j + 1`, slot `j` holds overlapping-and-bigger, and the manager differs from the one at
entry in the record of calls only, which has grown by exactly one overlap check for each of
the fragments `0, ..., j`, in order: no list is reclaimed, no check is repeated and no
fragment after `j` is checked.  When no fragment's check reports overlapping-and-bigger the
call comes back with SUCCESS after one check per fragment.  So the call always comes back, and
with FATAL exactly when the check of some fragment reports overlapping-and-bigger. -/
theorem checkAllocationsForOverlapping_no_receiver (ext : Collaborators) (fuel : Nat)
    (mm : MemoryManager) (requirements : AllocationRequirements)
    (checkedFragments : CheckedFragments) (hcsr : mm.csr = none) :
    (∀ j, j < requirements.requiredFragmentsCount →
      mm.quietChecks ext requirements j 0 = true →
      overlapReport ext requirements j (mm.afterQuietChecks ext requirements j 0) =
        OverlapStatus.FRAGMENT_OVERLAPING_AND_BIGGER_THEN_STORED_FRAGMENT →
      ∃ cf', mm.checkAllocationsForOverlapping ext fuel requirements checkedFragments =
          some (RequirementsStatus.FATAL,
            { mm with calls := mm.calls ++ (List.range (j + 1)).map (fun i =>
                overlapCheckCall requirements i
                  (overlapReport ext requirements i
                    (mm.afterQuietChecks ext requirements i 0))) }, cf') ∧
        cf'.count = j + 1 ∧
        cf'.status j = OverlapStatus.FRAGMENT_OVERLAPING_AND_BIGGER_THEN_STORED_FRAGMENT) ∧
    (mm.quietChecks ext requirements requirements.requiredFragmentsCount 0 = true →
      ∃ cf', mm.checkAllocationsForOverlapping ext fuel requirements checkedFragments =
          some (RequirementsStatus.SUCCESS,
            { mm with calls := mm.calls ++
                (List.range requirements.requiredFragmentsCount).map (fun i =>
                  overlapCheckCall requirements i
                    (overlapReport ext requirements i
                      (mm.afterQuietChecks ext requirements i 0))) }, cf') ∧
        cf'.count = requirements.requiredFragmentsCount) ∧
    (∃ st mm' cf',
      mm.checkAllocationsForOverlapping ext fuel requirements checkedFragments =
        some (st, mm', cf') ∧
      (st = RequirementsStatus.FATAL ↔
        ∃ j, j < requirements.requiredFragmentsCount ∧
          mm.quietChecks ext requirements j 0 = true ∧
          overlapReport ext requirements j (mm.afterQuietChecks ext requirements j 0) =
            OverlapStatus.FRAGMENT_OVERLAPING_AND_BIGGER_THEN_STORED_FRAGMENT)) := by
  have hcalls : ∀ r, mm.afterQuietChecks ext requirements r 0 =
      { mm with calls := mm.calls ++ (List.range r).map (fun i =>
          overlapCheckCall requirements i
            (overlapReport ext requirements i
              (mm.afterQuietChecks ext requirements i 0))) } := by
    intro r
    have h := afterQuietChecks_calls ext requirements 0 mm r
    simp only [Nat.zero_add] at h
    exact h
  have hfatal : ∀ j, j < requirements.requiredFragmentsCount →
      mm.quietChecks ext requirements j 0 = true →
      overlapReport ext requirements j (mm.afterQuietChecks ext requirements j 0) =
        OverlapStatus.FRAGMENT_OVERLAPING_AND_BIGGER_THEN_STORED_FRAGMENT →
      ∃ cf', mm.checkAllocationsForOverlapping ext fuel requirements checkedFragments =
          some (RequirementsStatus.FATAL,
            { mm with calls := mm.calls ++ (List.range (j + 1)).map (fun i =>
                overlapCheckCall requirements i
                  (overlapReport ext requirements i
                    (mm.afterQuietChecks ext requirements i 0))) }, cf') ∧
        cf'.count = j + 1 ∧
        cf'.status j = OverlapStatus.FRAGMENT_OVERLAPING_AND_BIGGER_THEN_STORED_FRAGMENT := by
    intro j hj hq hrep
    have hrep' : overlapReport ext requirements (0 + j)
        (mm.afterQuietChecks ext requirements j 0) =
        OverlapStatus.FRAGMENT_OVERLAPING_AND_BIGGER_THEN_STORED_FRAGMENT := by
      rw [Nat.zero_add]
      exact hrep
    obtain ⟨cf', hloop, hcount, hstat⟩ := loop_fatal_no_receiver ext fuel requirements j
      requirements.requiredFragmentsCount 0 mm 0 checkedFragments.reset hcsr hj hq hrep'
    refine ⟨cf', ?_, ?_, ?_⟩
    · unfold MemoryManager.checkAllocationsForOverlapping
      rw [hloop, ← hcalls (j + 1)]
      rfl
    · rw [hcount]
      show 0 + j + 1 = j + 1
      omega
    · rw [Nat.zero_add] at hstat
      exact hstat
  have hquiet : mm.quietChecks ext requirements requirements.requiredFragmentsCount 0 = true →
      ∃ cf', mm.checkAllocationsForOverlapping ext fuel requirements checkedFragments =
          some (RequirementsStatus.SUCCESS,
            { mm with calls := mm.calls ++
                (List.range requirements.requiredFragmentsCount).map (fun i =>
                  overlapCheckCall requirements i
                    (overlapReport ext requirements i
                      (mm.afterQuietChecks ext requirements i 0))) }, cf') ∧
        cf'.count = requirements.requiredFragmentsCount := by
    intro hq
    obtain ⟨cf', hloop⟩ := loop_quiet ext fuel requirements
      requirements.requiredFragmentsCount 0 mm 0 checkedFragments.reset hq
    obtain ⟨t, m, -, -, hcount, hsucc, -, -, -, -, -, -, -, -, -⟩ :=
      loop_summary ext fuel requirements _ _ _ _ _ _ _ _ _ hloop
    refine ⟨cf', ?_, ?_⟩
    · unfold MemoryManager.checkAllocationsForOverlapping
      rw [hloop, ← hcalls requirements.requiredFragmentsCount]
      rfl
    · rw [hcount, hsucc rfl]
      show 0 + requirements.requiredFragmentsCount = requirements.requiredFragmentsCount
      omega
  refine ⟨hfatal, hquiet, ?_⟩
  rcases quiet_or_first ext requirements requirements.requiredFragmentsCount 0 mm with
    hq | ⟨j, hj, hq, hrep⟩
  · obtain ⟨cf', hrun, -⟩ := hquiet hq
    refine ⟨_, _, cf', hrun, ?_⟩
    constructor
    · intro h
      exact absurd h (by decide)
    · rintro ⟨j, hj, hqj, hrep⟩
      obtain ⟨cf2, hrun2, -⟩ := hfatal j hj hqj hrep
      rw [hrun] at hrun2
      simp at hrun2
  · rw [Nat.zero_add] at hrep
    obtain ⟨cf', hrun, -⟩ := hfatal j hj hq hrep
    exact ⟨_, _, cf', hrun, fun _ => ⟨j, hj, hq, hrep⟩, fun _ => rfl⟩

/-- Witness for C12: no receiver, one fragment whose check always reports
overlapping-and-bigger, a temporary list that could have been reclaimed: the call returns
FATAL after the one check, and the lists are as they were. -/
theorem checkAllocationsForOverlapping_no_receiver_witness :
    ∃ cf', (sampleManager [sampleAllocation 8 3] [sampleAllocation 16 2]
          none).checkAllocationsForOverlapping
        (sampleCollaborators (fun n => n) (fun _ => true) 1 true) 0
        { AllocationFragments := [{ allocationPtr := 4097, allocationSize := 100 }],
          requiredFragmentsCount := 1 }
        CheckedFragments.uninitialised =
        some (RequirementsStatus.FATAL,
          { sampleManager [sampleAllocation 8 3] [sampleAllocation 16 2] none with
            calls := (sampleManager [sampleAllocation 8 3] [sampleAllocation 16 2] none).calls ++
              (List.range (0 + 1)).map (fun i =>
                overlapCheckCall
                  { AllocationFragments := [{ allocationPtr := 4097, allocationSize := 100 }],
                    requiredFragmentsCount := 1 } i
                  (overlapReport (sampleCollaborators (fun n => n) (fun _ => true) 1 true)
                    { AllocationFragments := [{ allocationPtr := 4097, allocationSize := 100 }],
                      requiredFragmentsCount := 1 } i
                    ((sampleManager [sampleAllocation 8 3] [sampleAllocation 16 2]
                      none).afterQuietChecks
                      (sampleCollaborators (fun n => n) (fun _ => true) 1 true)
                      { AllocationFragments :=
                          [{ allocationPtr := 4097, allocationSize := 100 }],
                        requiredFragmentsCount := 1 } i 0))) }, cf') ∧
      cf'.count = 0 + 1 ∧
      cf'.status 0 = OverlapStatus.FRAGMENT_OVERLAPING_AND_BIGGER_THEN_STORED_FRAGMENT :=
  (checkAllocationsForOverlapping_no_receiver
    (sampleCollaborators (fun n => n) (fun _ => true) 1 true) 0
    (sampleManager [sampleAllocation 8 3] [sampleAllocation 16 2] none)
    { AllocationFragments := [{ allocationPtr := 4097, allocationSize := 100 }],
      requiredFragmentsCount := 1 }
    CheckedFragments.uninitialised rfl).1 0 (by decide) rfl (by decide)

/-- With a receiver attached and a counter that reaches the last submitted task count within
`fuel` reads, the loop body for fragment `i` ends fatal exactly when the overlap check reports
overlapping-and-bigger three times in a row, and leaves the state `afterFragment`. -/
theorem fragment_receiver (ext : Collaborators) (fuel : Nat)
    (requirements : AllocationRequirements)
    (i : Nat) (mm : MemoryManager) (k : Nat) (cf : CheckedFragments)
    (c : CommandStreamReceiver) (hcsr : mm.csr = some c)
    (hprog : ∀ n, ∃ j, j < fuel ∧ c.peekLatestSentTaskCount ≤ ext.tagReads (n + j)) :
    ∃ cf', MemoryManager.checkAllocationsForOverlapping.fragment ext fuel requirements i mm k cf
        = some (mm.overlapsThrice ext fuel requirements i k,
          (mm.afterFragment ext fuel requirements i k).1,
          (mm.afterFragment ext fuel requirements i k).2, cf') ∧
      cf'.count = cf.count + 1 ∧
      ∃ c', (mm.afterFragment ext fuel requirements i k).1.csr = some c' ∧
        c'.latestSentTaskCount = c.latestSentTaskCount := by
  have hprog' : ∀ c0, mm.csr = some c0 →
      ∀ n, ∃ j, j < fuel ∧ c0.peekLatestSentTaskCount ≤ ext.tagReads (n + j) := by
    intro c0 hc0
    rw [hcsr] at hc0
    cases hc0
    exact hprog
  obtain ⟨⟨b, mm1, k1, cf1⟩, hfr⟩ := fragment_isSome ext fuel requirements i mm k cf hprog'
  obtain ⟨-, -, -, hkeep, hcount, -⟩ :=
    fragment_frame ext fuel requirements i mm k cf b mm1 k1 cf1 hfr
  obtain ⟨c', hc', hlat, -⟩ := hkeep c hcsr
  have hres : b = mm.overlapsThrice ext fuel requirements i k ∧
      (mm1, k1) = mm.afterFragment ext fuel requirements i k := by
    rcases fragment_cases ext fuel requirements i mm k cf b mm1 k1 cf1 hfr with
      ⟨h1, hb, hm, hk, -⟩ | ⟨-, hnone, -⟩ | ⟨c0, h1, hc0, h2, hb, hm, hk, -⟩ |
      ⟨c0, k2, h1, hc0, h2, hw, hb, hm, hk, -⟩
    · subst hb hm hk
      simp [MemoryManager.overlapsThrice, MemoryManager.afterFragment, hcsr, h1]
    · rw [hcsr] at hnone
      exact absurd hnone (by simp)
    · rw [hcsr] at hc0
      cases hc0
      subst hb hm hk
      simp [MemoryManager.overlapsThrice, MemoryManager.afterFragment, hcsr, h1, h2]
    · rw [hcsr] at hc0
      cases hc0
      subst hm hk
      constructor
      · simp only [MemoryManager.overlapsThrice, hcsr, h1, h2, hw, decide_True, Bool.true_and]
        rw [Bool.eq_iff_iff, hb]
        simp
      · simp [MemoryManager.afterFragment, hcsr, h1, h2, hw]
  obtain ⟨hb, hs⟩ := hres
  have hm1 : mm1 = (mm.afterFragment ext fuel requirements i k).1 := congrArg Prod.fst hs
  have hk1 : k1 = (mm.afterFragment ext fuel requirements i k).2 := congrArg Prod.snd hs
  refine ⟨cf1, ?_, hcount, c', ?_, hlat⟩
  · rw [hfr, hb, hm1, hk1]
  · rw [← hm1]
    exact hc'

/-- With a receiver attached, the loop over the fragments ends FATAL at the first fragment
whose overlap check reports overlapping-and-bigger three times in a row, and SUCCESS when
there is none; in either case it leaves the state that dealing with the fragments one after
the other leaves. -/
theorem loop_receiver (ext : Collaborators) (fuel : Nat) (requirements : AllocationRequirements) :
    ∀ (remaining i : Nat) (mm : MemoryManager) (k : Nat) (cf : CheckedFragments)
      (c : CommandStreamReceiver), mm.csr = some c →
      (∀ n, ∃ j, j < fuel ∧ c.peekLatestSentTaskCount ≤ ext.tagReads (n + j)) →
      ∃ st mm' k' cf',
        MemoryManager.checkAllocationsForOverlapping.loop ext fuel requirements remaining i mm k
          cf = some (st, mm', k', cf') ∧
        (st = RequirementsStatus.FATAL ↔
          ∃ d, d < remaining ∧
            (mm.atFragment ext fuel requirements d i k).1.overlapsThrice ext fuel requirements
              (i + d) (mm.atFragment ext fuel requirements d i k).2 = true ∧
            ∀ e, e < d →
              (mm.atFragment ext fuel requirements e i k).1.overlapsThrice ext fuel requirements
                (i + e) (mm.atFragment ext fuel requirements e i k).2 = false) ∧
        (st = RequirementsStatus.SUCCESS →
          (mm', k') = mm.atFragment ext fuel requirements remaining i k ∧
            cf'.count = cf.count + remaining) ∧
        (∀ d, d < remaining →
          (mm.atFragment ext fuel requirements d i k).1.overlapsThrice ext fuel requirements
            (i + d) (mm.atFragment ext fuel requirements d i k).2 = true →
          (∀ e, e < d →
            (mm.atFragment ext fuel requirements e i k).1.overlapsThrice ext fuel requirements
              (i + e) (mm.atFragment ext fuel requirements e i k).2 = false) →
          (mm', k') = (mm.atFragment ext fuel requirements d i k).1.afterFragment ext fuel
              requirements (i + d) (mm.atFragment ext fuel requirements d i k).2 ∧
            cf'.count = cf.count + d + 1) := by
  intro remaining
  induction remaining with
  | zero =>
    intro i mm k cf c _ _
    refine ⟨RequirementsStatus.SUCCESS, mm, k, cf, rfl, ?_, ?_, ?_⟩
    · constructor
      · intro h
        exact absurd h (by decide)
      · rintro ⟨d, hd, -⟩
        omega
    · intro _
      exact ⟨rfl, rfl⟩
    · intro d hd
      omega
  | succ r ih =>
    intro i mm k cf c hcsr hprog
    obtain ⟨cf1, hfr, hcount1, c', hc', hlat⟩ :=
      fragment_receiver ext fuel requirements i mm k cf c hcsr hprog
    have hzero : (mm.atFragment ext fuel requirements 0 i k).1.overlapsThrice ext fuel
        requirements (i + 0) (mm.atFragment ext fuel requirements 0 i k).2 =
        mm.overlapsThrice ext fuel requirements i k := rfl
    have hstep : ∀ e, (mm.atFragment ext fuel requirements (e + 1) i k).1.overlapsThrice ext
        fuel requirements (i + (e + 1)) (mm.atFragment ext fuel requirements (e + 1) i k).2 =
        ((mm.afterFragment ext fuel requirements i k).1.atFragment ext fuel requirements e
          (i + 1) (mm.afterFragment ext fuel requirements i k).2).1.overlapsThrice ext fuel
          requirements (i + 1 + e)
          ((mm.afterFragment ext fuel requirements i k).1.atFragment ext fuel requirements e
            (i + 1) (mm.afterFragment ext fuel requirements i k).2).2 := by
      intro e
      have hidx : i + (e + 1) = i + 1 + e := by omega
      rw [hidx]
      rfl
    unfold MemoryManager.checkAllocationsForOverlapping.loop
    rw [hfr]
    cases hT : mm.overlapsThrice ext fuel requirements i k with
    | true =>
      refine ⟨RequirementsStatus.FATAL, _, _, cf1, rfl, ?_, ?_, ?_⟩
      · constructor
        · intro _
          refine ⟨0, by omega, ?_, ?_⟩
          · rw [hzero]
            exact hT
          · intro e he
            omega
        · intro _
          rfl
      · intro h
        exact absurd h (by decide)
      · intro d hd hd1 hmin
        have hd0 : d = 0 := by
          by_contra hne
          have := hmin 0 (by omega)
          rw [hzero, hT] at this
          exact absurd this (by simp)
        subst hd0
        exact ⟨rfl, by rw [hcount1]⟩
    | false =>
      have hprog' : ∀ n, ∃ j, j < fuel ∧ c'.peekLatestSentTaskCount ≤ ext.tagReads (n + j) := by
        intro n
        unfold CommandStreamReceiver.peekLatestSentTaskCount at hprog ⊢
        rw [hlat]
        exact hprog n
      obtain ⟨st, mm', k', cf', hloop, hiff, hsucc, hfirst⟩ :=
        ih (i + 1) (mm.afterFragment ext fuel requirements i k).1
          (mm.afterFragment ext fuel requirements i k).2 cf1 c' hc' hprog'
      refine ⟨st, mm', k', cf', hloop, ?_, ?_, ?_⟩
      · rw [hiff]
        constructor
        · rintro ⟨d, hd, hd1, hmin⟩
          refine ⟨d + 1, by omega, ?_, ?_⟩
          · rw [hstep]
            exact hd1
          · intro e he
            cases e with
            | zero =>
              rw [hzero]
              exact hT
            | succ e =>
              rw [hstep]
              exact hmin e (by omega)
        · rintro ⟨d, hd, hd1, hmin⟩
          cases d with
          | zero =>
            rw [hzero, hT] at hd1
            exact absurd hd1 (by simp)
          | succ d =>
            refine ⟨d, by omega, ?_, ?_⟩
            · rw [← hstep]
              exact hd1
            · intro e he
              rw [← hstep]
              exact hmin (e + 1) (by omega)
      · intro hst
        obtain ⟨h1, h2⟩ := hsucc hst
        refine ⟨h1, ?_⟩
        rw [h2, hcount1]
        omega
      · intro d hd hd1 hmin
        cases d with
        | zero =>
          rw [hzero, hT] at hd1
          exact absurd hd1 (by simp)
        | succ d =>
          have hidx : i + (d + 1) = i + 1 + d := by omega
          obtain ⟨h1, h2⟩ := hfirst d (by omega) (by rw [← hstep]; exact hd1)
            (fun e he => by rw [← hstep]; exact hmin (e + 1) (by omega))
          refine ⟨?_, ?_⟩
          · rw [h1, hidx]
            rfl
          · rw [h2, hcount1]
            omega

/-- The calls made while the overlap of one fragment is dealt with, with a receiver attached:
one overlap check when the initial check reports no overlapping-and-bigger; a check, a reclaim
and a recheck when the recheck reports none; and else a check, a reclaim, a recheck, a second
reclaim and a last check. -/
theorem afterFragment_calls (ext : Collaborators) (fuel : Nat)
    (requirements : AllocationRequirements) (i k : Nat) (s : MemoryManager)
    (c : CommandStreamReceiver) (hc : s.csr = some c) :
    (overlapReport ext requirements i s ≠
        OverlapStatus.FRAGMENT_OVERLAPING_AND_BIGGER_THEN_STORED_FRAGMENT →
      (s.afterFragment ext fuel requirements i k).1.calls = s.calls ++
        [overlapCheckCall requirements i (overlapReport ext requirements i s)]) ∧
    (overlapReport ext requirements i s =
        OverlapStatus.FRAGMENT_OVERLAPING_AND_BIGGER_THEN_STORED_FRAGMENT →
      overlapReport ext requirements i (s.atRecheck ext requirements i k c) ≠
        OverlapStatus.FRAGMENT_OVERLAPING_AND_BIGGER_THEN_STORED_FRAGMENT →
      (s.afterFragment ext fuel requirements i k).1.calls = s.calls ++
        [overlapCheckCall requirements i
            OverlapStatus.FRAGMENT_OVERLAPING_AND_BIGGER_THEN_STORED_FRAGMENT,
          Call.cleanAllocationList i (ext.tagReads k) TEMPORARY_ALLOCATION,
          overlapCheckCall requirements i
            (overlapReport ext requirements i (s.atRecheck ext requirements i k c))]) ∧
    (overlapReport ext requirements i s =
        OverlapStatus.FRAGMENT_OVERLAPING_AND_BIGGER_THEN_STORED_FRAGMENT →
      overlapReport ext requirements i (s.atRecheck ext requirements i k c) =
        OverlapStatus.FRAGMENT_OVERLAPING_AND_BIGGER_THEN_STORED_FRAGMENT →
      ∀ k2, MemoryManager.checkAllocationsForOverlapping.wait ext.tagReads
          c.peekLatestSentTaskCount fuel (k + 1) = some k2 →
        (s.afterFragment ext fuel requirements i k).1.calls = s.calls ++
          [overlapCheckCall requirements i
              OverlapStatus.FRAGMENT_OVERLAPING_AND_BIGGER_THEN_STORED_FRAGMENT,
            Call.cleanAllocationList i (ext.tagReads k) TEMPORARY_ALLOCATION,
            overlapCheckCall requirements i
              OverlapStatus.FRAGMENT_OVERLAPING_AND_BIGGER_THEN_STORED_FRAGMENT,
            Call.cleanAllocationList i (ext.tagReads k2) TEMPORARY_ALLOCATION,
            overlapCheckCall requirements i
              (overlapReport ext requirements i
                (s.atLastCheck ext requirements i k k2 c))]) := by
  have hre : (s.atRecheck ext requirements i k c).calls = s.calls ++
      [overlapCheckCall requirements i (overlapReport ext requirements i s),
        Call.cleanAllocationList i (ext.tagReads k) TEMPORARY_ALLOCATION] := by
    rw [atRecheck_eq]
  have hla : ∀ k2, (s.atLastCheck ext requirements i k k2 c).calls = s.calls ++
      [overlapCheckCall requirements i (overlapReport ext requirements i s),
        Call.cleanAllocationList i (ext.tagReads k) TEMPORARY_ALLOCATION,
        overlapCheckCall requirements i
          (overlapReport ext requirements i (s.atRecheck ext requirements i k c)),
        Call.cleanAllocationList i (ext.tagReads k2) TEMPORARY_ALLOCATION] := by
    intro k2
    rw [atLastCheck_eq]
  refine ⟨?_, ?_, ?_⟩
  · intro h1
    unfold MemoryManager.afterFragment
    simp only [hc]
    rw [if_pos h1]
    rfl
  · intro h1 h2
    unfold MemoryManager.afterFragment
    simp only [hc]
    rw [if_neg (fun h => h h1), if_pos h2]
    show ((s.atRecheck ext requirements i k c).afterOverlapCheck ext requirements i).calls = _
    rw [afterOverlapCheck_eq]
    simp only [hre, h1, List.append_assoc, List.cons_append, List.nil_append]
  · intro h1 h2 k2 hw
    unfold MemoryManager.afterFragment
    simp only [hc]
    rw [if_neg (fun h => h h1), if_neg (fun h => h h2)]
    simp only [hw]
    show ((s.atLastCheck ext requirements i k k2 c).afterOverlapCheck ext requirements i).calls
      = _
    rw [afterOverlapCheck_eq]
    simp only [hla, h1, h2, List.append_assoc, List.cons_append, List.nil_append]

/-- C13: with a receiver attached and a counter that, from any read on, reaches the last
submitted task count within `fuel` reads, `checkAllocationsForOverlapping` comes back.  Let
`atFragment j` be the state in which fragment `j` comes up after the fragments before it have
been dealt with.  The call returns FATAL exactly when for some fragment `j`, the first such,
the overlap check reports overlapping-and-bigger three times in a row: at the initial check in
the state `atFragment j`, at the recheck after the first reclaim, and at the recheck after the
wait and the second reclaim; it then stops there with `count = j + 1`.  Otherwise it returns
SUCCESS, having dealt with all the fragments.  For every fragment the calls made are one
check; or a check, a reclaim and a recheck; or a check, a reclaim, a recheck, a second reclaim
and a last check: at most three overlap checks and two reclaims, and the reusable list is not
touched. -/
theorem checkAllocationsForOverlapping_receiver_fatal_iff (ext : Collaborators) (fuel : Nat)
    (mm : MemoryManager) (requirements : AllocationRequirements)
    (checkedFragments : CheckedFragments) (csr : CommandStreamReceiver)
    (hcsr : mm.csr = some csr)
    (hprog : ∀ n, ∃ j, j < fuel ∧ csr.peekLatestSentTaskCount ≤ ext.tagReads (n + j)) :
    ∃ st mm' cf' t,
      mm.checkAllocationsForOverlapping ext fuel requirements checkedFragments =
        some (st, mm', cf') ∧
      mm'.calls = mm.calls ++ t ∧
      (st = RequirementsStatus.FATAL ↔
        ∃ j, j < requirements.requiredFragmentsCount ∧
          (mm.atFragment ext fuel requirements j 0 0).1.overlapsThrice ext fuel requirements j
            (mm.atFragment ext fuel requirements j 0 0).2 = true ∧
          ∀ i, i < j →
            (mm.atFragment ext fuel requirements i 0 0).1.overlapsThrice ext fuel requirements i
              (mm.atFragment ext fuel requirements i 0 0).2 = false) ∧
      (st ≠ RequirementsStatus.FATAL →
        st = RequirementsStatus.SUCCESS ∧
          mm' = (mm.atFragment ext fuel requirements requirements.requiredFragmentsCount
            0 0).1 ∧
          cf'.count = requirements.requiredFragmentsCount) ∧
      (∀ j, j < requirements.requiredFragmentsCount →
        (mm.atFragment ext fuel requirements j 0 0).1.overlapsThrice ext fuel requirements j
          (mm.atFragment ext fuel requirements j 0 0).2 = true →
        (∀ i, i < j →
          (mm.atFragment ext fuel requirements i 0 0).1.overlapsThrice ext fuel requirements i
            (mm.atFragment ext fuel requirements i 0 0).2 = false) →
        mm' = ((mm.atFragment ext fuel requirements j 0 0).1.afterFragment ext fuel
            requirements j (mm.atFragment ext fuel requirements j 0 0).2).1 ∧
          cf'.count = j + 1) ∧
      (∀ (i k : Nat) (s : MemoryManager) (c : CommandStreamReceiver), s.csr = some c →
        (overlapReport ext requirements i s ≠
            OverlapStatus.FRAGMENT_OVERLAPING_AND_BIGGER_THEN_STORED_FRAGMENT →
          (s.afterFragment ext fuel requirements i k).1.calls = s.calls ++
            [overlapCheckCall requirements i (overlapReport ext requirements i s)]) ∧
        (overlapReport ext requirements i s =
            OverlapStatus.FRAGMENT_OVERLAPING_AND_BIGGER_THEN_STORED_FRAGMENT →
          overlapReport ext requirements i (s.atRecheck ext requirements i k c) ≠
            OverlapStatus.FRAGMENT_OVERLAPING_AND_BIGGER_THEN_STORED_FRAGMENT →
          (s.afterFragment ext fuel requirements i k).1.calls = s.calls ++
            [overlapCheckCall requirements i
                OverlapStatus.FRAGMENT_OVERLAPING_AND_BIGGER_THEN_STORED_FRAGMENT,
              Call.cleanAllocationList i (ext.tagReads k) TEMPORARY_ALLOCATION,
              overlapCheckCall requirements i
                (overlapReport ext requirements i (s.atRecheck ext requirements i k c))]) ∧
        (overlapReport ext requirements i s =
            OverlapStatus.FRAGMENT_OVERLAPING_AND_BIGGER_THEN_STORED_FRAGMENT →
          overlapReport ext requirements i (s.atRecheck ext requirements i k c) =
            OverlapStatus.FRAGMENT_OVERLAPING_AND_BIGGER_THEN_STORED_FRAGMENT →
          ∀ k2, MemoryManager.checkAllocationsForOverlapping.wait ext.tagReads
              c.peekLatestSentTaskCount fuel (k + 1) = some k2 →
            (s.afterFragment ext fuel requirements i k).1.calls = s.calls ++
              [overlapCheckCall requirements i
                  OverlapStatus.FRAGMENT_OVERLAPING_AND_BIGGER_THEN_STORED_FRAGMENT,
                Call.cleanAllocationList i (ext.tagReads k) TEMPORARY_ALLOCATION,
                overlapCheckCall requirements i
                  OverlapStatus.FRAGMENT_OVERLAPING_AND_BIGGER_THEN_STORED_FRAGMENT,
                Call.cleanAllocationList i (ext.tagReads k2) TEMPORARY_ALLOCATION,
                overlapCheckCall requirements i
                  (overlapReport ext requirements i
                    (s.atLastCheck ext requirements i k k2 c))])) ∧
      (∀ j, (overlapChecksOf j t).length ≤ 3 ∧ (reclaimsOf j t).length ≤ 2) ∧
      mm'.allocationsForReuse = mm.allocationsForReuse := by
  obtain ⟨st, mm', k', cf', hloop, hiff, hsucc, hfirst⟩ :=
    loop_receiver ext fuel requirements requirements.requiredFragmentsCount 0 mm 0
      checkedFragments.reset csr hcsr hprog
  simp only [Nat.zero_add] at hiff hsucc hfirst
  obtain ⟨t, m, hcalls, -, -, -, -, -, -, hlen, -, -, hreuse, -, -⟩ :=
    loop_summary ext fuel requirements _ _ _ _ _ _ _ _ _ hloop
  refine ⟨st, mm', cf', t, ?_, hcalls, hiff, ?_, ?_, ?_, hlen, hreuse⟩
  · unfold MemoryManager.checkAllocationsForOverlapping
    rw [hloop]
    rfl
  · intro hne
    have hst : st = RequirementsStatus.SUCCESS := by
      cases st with
      | SUCCESS => rfl
      | FATAL => exact absurd rfl hne
    obtain ⟨h1, h2⟩ := hsucc hst
    refine ⟨hst, congrArg Prod.fst h1, ?_⟩
    rw [h2]
    show 0 + requirements.requiredFragmentsCount = requirements.requiredFragmentsCount
    omega
  · intro j hj hj1 hmin
    obtain ⟨h1, h2⟩ := hfirst j hj hj1 hmin
    refine ⟨congrArg Prod.fst h1, ?_⟩
    rw [h2]
    show 0 + j + 1 = j + 1
    omega
  · intro i k s c hc
    exact afterFragment_calls ext fuel requirements i k s c hc

/-- The run used to instantiate C13 returns FATAL: the counter read for the `n`-th time
yields `2 + 4 n`, the last submitted task count is 9, and the overlap check of the one
fragment reports overlapping-and-bigger every time. -/
theorem sample_persisting_overlap_fatal :
    ((sampleManager [sampleAllocation 8 3, sampleAllocation 8 9] [sampleAllocation 16 2]
        (some (sampleReceiver 9 2))).checkAllocationsForOverlapping
      (sampleCollaborators (fun n => 2 + 4 * n) (fun _ => true) 1 true) 3
      { AllocationFragments := [{ allocationPtr := 4097, allocationSize := 100 }],
        requiredFragmentsCount := 1 }
      CheckedFragments.uninitialised).map (fun r => (r.1, r.2.1.graphicsAllocations)) =
      some (RequirementsStatus.FATAL, []) := by
  decide

/-- Witness for C13: a receiver is attached, the counter read for the `n`-th time yields
`2 + 4 n`, the last submitted task count is 9, and the overlap check of the one fragment
reports overlapping-and-bigger every time: the call comes back, with FATAL, after both
reclaims have emptied the temporary list. -/
theorem checkAllocationsForOverlapping_receiver_fatal_iff_witness :
    (∃ st mm' cf',
      (sampleManager [sampleAllocation 8 3, sampleAllocation 8 9] [sampleAllocation 16 2]
          (some (sampleReceiver 9 2))).checkAllocationsForOverlapping
        (sampleCollaborators (fun n => 2 + 4 * n) (fun _ => true) 1 true) 3
        { AllocationFragments := [{ allocationPtr := 4097, allocationSize := 100 }],
          requiredFragmentsCount := 1 }
        CheckedFragments.uninitialised = some (st, mm', cf') ∧
      (st = RequirementsStatus.FATAL ↔
        ∃ j, j < (AllocationRequirements.mk [{ allocationPtr := 4097, allocationSize := 100 }]
            1).requiredFragmentsCount ∧
          ((sampleManager [sampleAllocation 8 3, sampleAllocation 8 9] [sampleAllocation 16 2]
            (some (sampleReceiver 9 2))).atFragment
            (sampleCollaborators (fun n => 2 + 4 * n) (fun _ => true) 1 true) 3
            { AllocationFragments := [{ allocationPtr := 4097, allocationSize := 100 }],
              requiredFragmentsCount := 1 } j 0 0).1.overlapsThrice
            (sampleCollaborators (fun n => 2 + 4 * n) (fun _ => true) 1 true) 3
            { AllocationFragments := [{ allocationPtr := 4097, allocationSize := 100 }],
              requiredFragmentsCount := 1 } j
            ((sampleManager [sampleAllocation 8 3, sampleAllocation 8 9]
              [sampleAllocation 16 2] (some (sampleReceiver 9 2))).atFragment
              (sampleCollaborators (fun n => 2 + 4 * n) (fun _ => true) 1 true) 3
              { AllocationFragments := [{ allocationPtr := 4097, allocationSize := 100 }],
                requiredFragmentsCount := 1 } j 0 0).2 = true ∧
          ∀ i, i < j →
            ((sampleManager [sampleAllocation 8 3, sampleAllocation 8 9]
              [sampleAllocation 16 2] (some (sampleReceiver 9 2))).atFragment
              (sampleCollaborators (fun n => 2 + 4 * n) (fun _ => true) 1 true) 3
              { AllocationFragments := [{ allocationPtr := 4097, allocationSize := 100 }],
                requiredFragmentsCount := 1 } i 0 0).1.overlapsThrice
              (sampleCollaborators (fun n => 2 + 4 * n) (fun _ => true) 1 true) 3
              { AllocationFragments := [{ allocationPtr := 4097, allocationSize := 100 }],
                requiredFragmentsCount := 1 } i
              ((sampleManager [sampleAllocation 8 3, sampleAllocation 8 9]
                [sampleAllocation 16 2] (some (sampleReceiver 9 2))).atFragment
                (sampleCollaborators (fun n => 2 + 4 * n) (fun _ => true) 1 true) 3
                { AllocationFragments := [{ allocationPtr := 4097, allocationSize := 100 }],
                  requiredFragmentsCount := 1 } i 0 0).2 = false)) ∧
    ((sampleManager [sampleAllocation 8 3, sampleAllocation 8 9] [sampleAllocation 16 2]
        (some (sampleReceiver 9 2))).checkAllocationsForOverlapping
      (sampleCollaborators (fun n => 2 + 4 * n) (fun _ => true) 1 true) 3
      { AllocationFragments := [{ allocationPtr := 4097, allocationSize := 100 }],
        requiredFragmentsCount := 1 }
      CheckedFragments.uninitialised).map (fun r => (r.1, r.2.1.graphicsAllocations)) =
      some (RequirementsStatus.FATAL, []) :=
  ⟨match checkAllocationsForOverlapping_receiver_fatal_iff
      (sampleCollaborators (fun n => 2 + 4 * n) (fun _ => true) 1 true) 3
      (sampleManager [sampleAllocation 8 3, sampleAllocation 8 9] [sampleAllocation 16 2]
        (some (sampleReceiver 9 2)))
      { AllocationFragments := [{ allocationPtr := 4097, allocationSize := 100 }],
        requiredFragmentsCount := 1 }
      CheckedFragments.uninitialised (sampleReceiver 9 2) rfl
      (fun n => ⟨2, by decide, by
        show 9 ≤ 2 + 4 * (n + 2)
        omega⟩) with
    | ⟨st, mm', cf', _, h1, _, h3, _⟩ => ⟨st, mm', cf', h1, h3⟩,
   sample_persisting_overlap_fatal⟩

/-! ## Host pointer requirements: the fragments cover the range -/

/-- C22: for every host pointer `p` and size `s`, the fragments of
`HostPtrManager::getAllocationRequirements(p, s)`, as the spec describes the function, are at
most three (`requiredFragmentsCount` is their number); a byte lies in some fragment exactly
when it lies in `[p, p+s)`; every fragment but the first starts at a page boundary, and every
fragment but the last ends at one. -/
theorem getAllocationRequirements_fragments_cover (p s : Nat) :
    (HostPtrManager.getAllocationRequirements p s).AllocationFragments.length ≤ 3 ∧
      (HostPtrManager.getAllocationRequirements p s).requiredFragmentsCount =
        (HostPtrManager.getAllocationRequirements p s).AllocationFragments.length ∧
      (∀ b : Nat,
        (∃ f ∈ (HostPtrManager.getAllocationRequirements p s).AllocationFragments,
          f.allocationPtr ≤ b ∧ b < f.allocationPtr + f.allocationSize) ↔
        (p ≤ b ∧ b < p + s)) ∧
      (∀ f ∈ (HostPtrManager.getAllocationRequirements p s).AllocationFragments.tail,
        f.allocationPtr % pageSize = 0) ∧
      (∀ f ∈ (HostPtrManager.getAllocationRequirements p s).AllocationFragments.dropLast,
        (f.allocationPtr + f.allocationSize) % pageSize = 0) := by
  simp only [HostPtrManager.getAllocationRequirements, pageSize]
  generalize hu : (p + (4096 - 1)) / 4096 * 4096 = u
  generalize hd : (p + s) / 4096 * 4096 = d
  generalize he : p + s = e at hd ⊢
  have hu1 : u % 4096 = 0 ∧ p ≤ u ∧ u < p + 4096 := by omega
  have hd1 : d % 4096 = 0 ∧ d ≤ e ∧ e < d + 4096 := by omega
  clear hu hd
  split_ifs with h1 h2 h3 h3 h2 h3 h3 <;>
  refine ⟨by simp, trivial, ?_, ?_, ?_⟩ <;>
  simp <;> omega

/-! ## Supported image formats: helper lemmas -/

theorem copyBase_eq (t : List SurfaceFormatInfo) :
    ∀ (remaining entry : Nat) (writes : List (Nat × cl_image_format)),
      entry + remaining ≤ t.length →
      Context.getSupportedImageFormats.copyBase (some t) remaining entry writes =
        some (entry + remaining, writes ++ List.enumFrom entry
          (((t.drop entry).take remaining).map SurfaceFormatInfo.OCLImageFormat)) := by
  intro remaining
  induction remaining with
  | zero =>
    intro entry writes _
    simp [Context.getSupportedImageFormats.copyBase]
  | succ r ih =>
    intro entry writes h
    have hlt : entry < t.length := by omega
    have hget : t[entry]? = some t[entry] := List.getElem?_eq_getElem hlt
    unfold Context.getSupportedImageFormats.copyBase
    simp only [hget]
    rw [ih (entry + 1) _ (by omega), List.drop_eq_getElem_cons hlt]
    simp only [List.take_succ_cons, List.map_cons, List.enumFrom_cons, List.append_assoc,
      List.singleton_append]
    congr 2
    omega

theorem appendFormats_eq (t : List SurfaceFormatInfo) (numEntries : Nat) :
    ∀ (remaining tableEntry entry : Nat) (writes : List (Nat × cl_image_format)),
      tableEntry + remaining ≤ t.length →
      Context.getSupportedImageFormats.appendFormats (some t) numEntries remaining tableEntry
          entry writes =
        some (entry + min remaining (numEntries - entry), writes ++ List.enumFrom entry
          (((t.drop tableEntry).take (min remaining (numEntries - entry))).map
            SurfaceFormatInfo.OCLImageFormat)) := by
  intro remaining
  induction remaining with
  | zero =>
    intro tableEntry entry writes _
    simp [Context.getSupportedImageFormats.appendFormats]
  | succ r ih =>
    intro tableEntry entry writes h
    unfold Context.getSupportedImageFormats.appendFormats
    by_cases hlt : entry < numEntries
    · have hj : tableEntry < t.length := by omega
      have hget : t[tableEntry]? = some t[tableEntry] := List.getElem?_eq_getElem hj
      have hmin : min (r + 1) (numEntries - entry) =
          min r (numEntries - (entry + 1)) + 1 := by omega
      rw [if_pos hlt]
      simp only [hget]
      rw [ih (tableEntry + 1) (entry + 1) _ (by omega), List.drop_eq_getElem_cons hj, hmin]
      simp only [List.take_succ_cons, List.map_cons, List.enumFrom_cons, List.append_assoc,
        List.singleton_append]
      congr 2
      omega
    · have hmin : min (r + 1) (numEntries - entry) = 0 := by omega
      rw [if_neg hlt, hmin]
      simp

/-- Appending a table to what has been written: when the buffer holds the first `numEntries`
formats of `S`, written at the indices from 0 on, the loop over table `t` leaves it holding
the first `numEntries` formats of `S` followed by `t`. -/
theorem written_step (numEntries : Nat) (S Y : List cl_image_format) :
    min numEntries S.length + min Y.length (numEntries - min numEntries S.length) =
        min numEntries (S ++ Y).length ∧
      List.enumFrom 0 (S.take numEntries) ++ List.enumFrom (min numEntries S.length)
          (Y.take (min Y.length (numEntries - min numEntries S.length))) =
        List.enumFrom 0 ((S ++ Y).take numEntries) := by
  constructor
  · rw [List.length_append]
    omega
  · rw [List.take_append_eq_append_take, List.enumFrom_append, List.length_take, Nat.zero_add]
    congr 2
    have hk : numEntries - min numEntries S.length = numEntries - S.length := by omega
    rw [hk]
    by_cases hle : numEntries - S.length ≤ Y.length
    · rw [Nat.min_eq_right hle]
    · rw [Nat.min_eq_left (by omega), List.take_of_length_le (Nat.le_refl _),
        List.take_of_length_le (by omega)]

theorem appendFormats_step (table : Option (List SurfaceFormatInfo)) (count numEntries : Nat)
    (S : List cl_image_format)
    (h : (∃ t, table = some t ∧ count = t.length) ∨ (table = none ∧ count = 0)) :
    Context.getSupportedImageFormats.appendFormats table numEntries count 0
        (min numEntries S.length) (List.enumFrom 0 (S.take numEntries)) =
      some (min numEntries
          (S ++ (table.getD []).map SurfaceFormatInfo.OCLImageFormat).length,
        List.enumFrom 0
          ((S ++ (table.getD []).map SurfaceFormatInfo.OCLImageFormat).take numEntries)) := by
  rcases h with ⟨t, rfl, rfl⟩ | ⟨rfl, rfl⟩
  · rw [appendFormats_eq t numEntries t.length 0 _ _ (by omega)]
    obtain ⟨h1, h2⟩ := written_step numEntries S (t.map SurfaceFormatInfo.OCLImageFormat)
    simp only [List.length_map] at h1 h2
    simp only [List.drop_zero, Option.getD_some, List.map_take]
    rw [h1, h2]
  · simp [Context.getSupportedImageFormats.appendFormats]

theorem select_base (tables : SurfaceFormatTables) (device : Device) (flags imageType : Nat)
    (h32 : tables.sizesAre32Bit) :
    ∃ B, (Context.getSupportedImageFormats.select tables device flags imageType).surfaceFormats
        = some B ∧
      (Context.getSupportedImageFormats.select tables device flags imageType).numImageFormats
        = B.length := by
  obtain ⟨h1, h2, h3, -, -, -, -⟩ := h32
  unfold Context.getSupportedImageFormats.select
  simp only [static_cast_cl_uint]
  split_ifs <;> simp [Nat.mod_eq_of_lt, h1, h2, h3]

theorem select_depth (tables : SurfaceFormatTables) (device : Device) (flags imageType : Nat)
    (h32 : tables.sizesAre32Bit) :
    (∃ t, (Context.getSupportedImageFormats.select tables device flags imageType).depthFormats
          = some t ∧
        (Context.getSupportedImageFormats.select tables device flags imageType).numDepthFormats
          = t.length) ∨
      ((Context.getSupportedImageFormats.select tables device flags imageType).depthFormats
          = none ∧
        (Context.getSupportedImageFormats.select tables device flags imageType).numDepthFormats
          = 0) := by
  obtain ⟨-, -, -, h4, h5, -, -⟩ := h32
  unfold Context.getSupportedImageFormats.select
  simp only [static_cast_cl_uint]
  split_ifs <;> simp [Nat.mod_eq_of_lt, h4, h5]

theorem appendFormats_if (c : Prop) [Decidable c] (table : Option (List SurfaceFormatInfo))
    (count numEntries : Nat) (S : List cl_image_format)
    (h : (∃ t, table = some t ∧ count = t.length) ∨ (table = none ∧ count = 0)) :
    (if c then
        Context.getSupportedImageFormats.appendFormats table numEntries count 0
          (min numEntries S.length) (List.enumFrom 0 (S.take numEntries))
      else some (min numEntries S.length, List.enumFrom 0 (S.take numEntries))) =
      some (min numEntries
          (S ++ if c then (table.getD []).map SurfaceFormatInfo.OCLImageFormat else []).length,
        List.enumFrom 0
          ((S ++ if c then (table.getD []).map SurfaceFormatInfo.OCLImageFormat else []).take
            numEntries)) := by
  by_cases hc : c
  · rw [if_pos hc, if_pos hc]
    exact appendFormats_step table count numEntries S h
  · rw [if_neg hc, if_neg hc, List.append_nil]

/-- The loops of `getSupportedImageFormats` that fill the buffer, in closed form: the writes
are the first `numEntries` supported formats at the indices from 0 on. -/
theorem getSupportedImageFormats_copied (tables : SurfaceFormatTables) (device : Device)
    (flags imageType numEntries : Nat) (h32 : tables.sizesAre32Bit) (m : Nat) :
    ((Context.getSupportedImageFormats.copyBase
        (Context.getSupportedImageFormats.select tables device flags imageType).surfaceFormats
        (min numEntries
          (Context.getSupportedImageFormats.select tables device flags
            imageType).numImageFormats) 0 []).bind
      fun s1 =>
      (if device.getDeviceInfo.nv12Extension = true ∧
          (Context.getSupportedImageFormats.select tables device flags
            imageType).appendPlanarYUVSurfaces = true then
          Context.getSupportedImageFormats.appendFormats (some tables.planarYuvSurfaceFormats)
            numEntries tables.planarYuvSurfaceFormats.length 0 s1.1 s1.2
        else some s1).bind fun s2 =>
      (if (Context.getSupportedImageFormats.select tables device flags
            imageType).appendDepthSurfaces = true then
          Context.getSupportedImageFormats.appendFormats
            (Context.getSupportedImageFormats.select tables device flags imageType).depthFormats
            numEntries
            (Context.getSupportedImageFormats.select tables device flags
              imageType).numDepthFormats 0 s2.1 s2.2
        else some s2).bind fun s3 =>
      (if device.getDeviceInfo.packedYuvExtension = true ∧
          (Context.getSupportedImageFormats.select tables device flags
            imageType).appendPackedYUVSurfaces = true then
          Context.getSupportedImageFormats.appendFormats (some tables.packedYuvSurfaceFormats)
            numEntries tables.packedYuvSurfaceFormats.length 0 s3.1 s3.2
        else some s3).map fun s4 => (m, s4.2)) =
      some (m, List.enumFrom 0
        ((supportedImageFormats tables device flags imageType).take numEntries)) := by
  obtain ⟨B, hB, hnB⟩ := select_base tables device flags imageType h32
  have hD := select_depth tables device flags imageType h32
  have hbase : Context.getSupportedImageFormats.copyBase (some B) (min numEntries B.length) 0 []
      = some (min numEntries (B.map SurfaceFormatInfo.OCLImageFormat).length,
        List.enumFrom 0 ((B.map SurfaceFormatInfo.OCLImageFormat).take numEntries)) := by
    rw [copyBase_eq B _ 0 [] (by omega)]
    simp only [List.drop_zero, List.nil_append, Nat.zero_add, List.length_map, List.map_take]
    congr 3
    by_cases hle : numEntries ≤ B.length
    · rw [Nat.min_eq_left hle]
    · rw [Nat.min_eq_right (by omega), List.take_of_length_le (by simp),
        List.take_of_length_le (by simp; omega)]
  unfold supportedImageFormats
  rw [hB, hnB, hbase]
  simp only [Option.some_bind]
  rw [appendFormats_if _ (some tables.planarYuvSurfaceFormats) _ _ _ (Or.inl ⟨_, rfl, rfl⟩)]
  simp only [Option.some_bind]
  rw [appendFormats_if _ _ _ _ _ hD]
  simp only [Option.some_bind]
  rw [appendFormats_if _ (some tables.packedYuvSurfaceFormats) _ _ _ (Or.inl ⟨_, rfl, rfl⟩)]
  simp only [Option.map_some', Option.getD_some, hB]

/-! ## Supported image formats: what is written -/

/-- C28: with a non-null `imageFormats` buffer (and table sizes in the `cl_uint` range),
`getSupportedImageFormats` runs without reading a null table or past the end of a table, and
the assignments it makes to `imageFormats` are, in this order, the first `numEntries` of the
supported formats taken in the order base, planar YUV, depth, packed YUV, at the indices 0,
1, 2, ...  So it writes exactly `min(numEntries, T)` entries, where `T` is the number of
supported formats, and never at an index `≥ numEntries`.  In the `CL_MEM_NO_ACCESS_INTEL`
branch the depth table is null and its count is 0: the run is defined there as well. -/
theorem getSupportedImageFormats_writes (tables : SurfaceFormatTables) (device : Device)
    (flags imageType numEntries : Nat) (numImageFormatsReturned : Bool)
    (h32 : tables.sizesAre32Bit) :
    (∃ r, Context.getSupportedImageFormats tables device flags imageType numEntries true
        numImageFormatsReturned = some r ∧
      r.retVal = CL_SUCCESS ∧
      r.writes = List.enumFrom 0
        ((supportedImageFormats tables device flags imageType).take numEntries) ∧
      r.writes.length =
        min numEntries (supportedImageFormats tables device flags imageType).length ∧
      (∀ w ∈ r.writes, w.1 < numEntries)) ∧
    (flags &&& CL_MEM_READ_ONLY = 0 → flags &&& CL_MEM_WRITE_ONLY = 0 →
      device.getDeviceInfo.nv12Extension = true → flags &&& CL_MEM_NO_ACCESS_INTEL ≠ 0 →
      (Context.getSupportedImageFormats.select tables device flags imageType).depthFormats =
          none ∧
        (Context.getSupportedImageFormats.select tables device flags imageType).numDepthFormats
          = 0) := by
  constructor
  · simp only [Context.getSupportedImageFormats, if_true]
    rw [getSupportedImageFormats_copied tables device flags imageType numEntries h32]
    refine ⟨_, rfl, rfl, rfl, ?_, ?_⟩
    · simp only [List.enumFrom_length, List.length_take]
    · intro w hw
      obtain ⟨i, x⟩ := w
      obtain ⟨-, hi, -⟩ := List.mem_enumFrom hw
      simp only [List.length_take] at hi
      show i < numEntries
      omega
  · intro h1 h2 h3 h4
    have c1 : ¬ (flags &&& CL_MEM_READ_ONLY ≠ 0) := by simp [h1]
    have c2 : ¬ (flags &&& CL_MEM_WRITE_ONLY ≠ 0) := by simp [h2]
    have c3 : device.getDeviceInfo.nv12Extension = true ∧
        flags &&& CL_MEM_NO_ACCESS_INTEL ≠ 0 := ⟨h3, h4⟩
    simp only [Context.getSupportedImageFormats.select, if_neg c1, if_neg c2, if_pos c3]
    split_ifs <;> exact ⟨rfl, rfl⟩

theorem sampleTables_sizesAre32Bit : sampleTables.sizesAre32Bit := by
  unfold SurfaceFormatTables.sizesAre32Bit
  decide

/-- Witness for C28: the sample tables, the nv12 extension enabled, `CL_MEM_NO_ACCESS_INTEL`
alone in the flags, a 2D image and room for three of the four supported formats; the depth
table is null in this run. -/
theorem getSupportedImageFormats_writes_witness :
    (∃ r, Context.getSupportedImageFormats sampleTables sampleDevice 16777216 0x10F1 3 true true
        = some r ∧
      r.retVal = CL_SUCCESS ∧
      r.writes = List.enumFrom 0
        ((supportedImageFormats sampleTables sampleDevice 16777216 0x10F1).take 3) ∧
      r.writes.length =
        min 3 (supportedImageFormats sampleTables sampleDevice 16777216 0x10F1).length ∧
      (∀ w ∈ r.writes, w.1 < 3)) ∧
    ((Context.getSupportedImageFormats.select sampleTables sampleDevice 16777216
          0x10F1).depthFormats = none ∧
      (Context.getSupportedImageFormats.select sampleTables sampleDevice 16777216
          0x10F1).numDepthFormats = 0) :=
  ⟨(getSupportedImageFormats_writes sampleTables sampleDevice 16777216 0x10F1 3 true
      sampleTables_sizesAre32Bit).1,
    (getSupportedImageFormats_writes sampleTables sampleDevice 16777216 0x10F1 3 true
      sampleTables_sizesAre32Bit).2 (by decide) (by decide) rfl (by decide)⟩

/-! ## Supported image formats: the count returned -/

theorem supportedImageFormats_length (tables : SurfaceFormatTables) (device : Device)
    (flags imageType : Nat) (h32 : tables.sizesAre32Bit) :
    (supportedImageFormats tables device flags imageType).length =
      (Context.getSupportedImageFormats.select tables device flags imageType).numImageFormats +
        (if device.getDeviceInfo.nv12Extension = true ∧
            (Context.getSupportedImageFormats.select tables device flags
              imageType).appendPlanarYUVSurfaces = true then
          tables.planarYuvSurfaceFormats.length else 0) +
        (if (Context.getSupportedImageFormats.select tables device flags
              imageType).appendDepthSurfaces = true then
          (Context.getSupportedImageFormats.select tables device flags imageType).numDepthFormats
          else 0) +
        (if device.getDeviceInfo.packedYuvExtension = true ∧
            (Context.getSupportedImageFormats.select tables device flags
              imageType).appendPackedYUVSurfaces = true then
          tables.packedYuvSurfaceFormats.length else 0) := by
  obtain ⟨B, hB, hnB⟩ := select_base tables device flags imageType h32
  have hlen : ((Context.getSupportedImageFormats.select tables device flags
      imageType).depthFormats.getD []).length =
      (Context.getSupportedImageFormats.select tables device flags imageType).numDepthFormats := by
    rcases select_depth tables device flags imageType h32 with ⟨t, h1, h2⟩ | ⟨h1, h2⟩
    · rw [h1, h2]
      rfl
    · rw [h1, h2]
      rfl
  simp only [supportedImageFormats, hB, hnB, Option.getD_some, List.length_append,
    List.length_map, apply_ite List.length, hlen, List.length_nil]

theorem select_bounds (tables : SurfaceFormatTables) (device : Device) (flags imageType : Nat) :
    (Context.getSupportedImageFormats.select tables device flags imageType).numImageFormats
        < 4294967296 ∧
      (Context.getSupportedImageFormats.select tables device flags imageType).numDepthFormats
        < 4294967296 := by
  unfold Context.getSupportedImageFormats.select
  simp only [static_cast_cl_uint]
  split_ifs <;> refine ⟨?_, ?_⟩ <;> dsimp only <;> omega

/-- C29: the count that `getSupportedImageFormats` stores in `*numImageFormatsReturned`.
Without an `imageFormats` buffer it is the number `T` of supported formats, for every
`numEntries`.  With a buffer the base part of the count is `min(numEntries, numImageFormats)`
instead of the number `numImageFormats` of base formats, because the local `numImageFormats`
has been overwritten by the bound of the copy loop: the count stored is `T` only when
`numEntries` is at least the number of base formats, and falls short of `T` by the difference
otherwise. -/
theorem getSupportedImageFormats_returned_count (tables : SurfaceFormatTables)
    (device : Device) (flags imageType numEntries : Nat) (h32 : tables.sizesAre32Bit) :
    (∃ r, Context.getSupportedImageFormats tables device flags imageType numEntries false true
        = some r ∧
      r.numImageFormatsReturned =
        some ((supportedImageFormats tables device flags imageType).length % 4294967296)) ∧
    (∃ r, Context.getSupportedImageFormats tables device flags imageType numEntries true true
        = some r ∧
      r.numImageFormatsReturned =
        some ((min numEntries
            (Context.getSupportedImageFormats.select tables device flags
              imageType).numImageFormats +
          ((supportedImageFormats tables device flags imageType).length -
            (Context.getSupportedImageFormats.select tables device flags
              imageType).numImageFormats)) % 4294967296)) := by
  obtain ⟨hb1, hb2⟩ := select_bounds tables device flags imageType
  have hlen := supportedImageFormats_length tables device flags imageType h32
  have hcopied := getSupportedImageFormats_copied tables device flags imageType numEntries h32
  obtain ⟨-, -, -, -, -, h6, h7⟩ := h32
  constructor
  · simp only [Context.getSupportedImageFormats, Bool.false_eq_true, if_false, if_true,
      Option.map_some', static_cast_cl_uint]
    refine ⟨_, rfl, ?_⟩
    rw [hlen]
    dsimp only
    split_ifs <;> congr 1 <;> omega
  · simp only [Context.getSupportedImageFormats, if_true, static_cast_cl_uint]
    rw [hcopied]
    simp only [Option.map_some']
    refine ⟨_, rfl, ?_⟩
    rw [hlen]
    dsimp only
    split_ifs <;> congr 1 <;> omega

/-- Witness for C29: the sample tables (three read-only base formats, seven supported formats
in all for `CL_MEM_READ_ONLY` and a 2D image) and `numEntries = 1`.  Without a buffer the
count stored is 7; with a buffer it is 5. -/
theorem getSupportedImageFormats_returned_count_witness :
    ((∃ r, Context.getSupportedImageFormats sampleTables sampleDevice 4 0x10F1 1 false true
          = some r ∧
        r.numImageFormatsReturned =
          some ((supportedImageFormats sampleTables sampleDevice 4 0x10F1).length
            % 4294967296)) ∧
      (∃ r, Context.getSupportedImageFormats sampleTables sampleDevice 4 0x10F1 1 true true
          = some r ∧
        r.numImageFormatsReturned =
          some ((min 1
              (Context.getSupportedImageFormats.select sampleTables sampleDevice 4
                0x10F1).numImageFormats +
            ((supportedImageFormats sampleTables sampleDevice 4 0x10F1).length -
              (Context.getSupportedImageFormats.select sampleTables sampleDevice 4
                0x10F1).numImageFormats)) % 4294967296))) ∧
    (supportedImageFormats sampleTables sampleDevice 4 0x10F1).length = 7 ∧
    (Context.getSupportedImageFormats sampleTables sampleDevice 4 0x10F1 1 false true).map
        (fun r => r.numImageFormatsReturned) = some (some 7) ∧
    (Context.getSupportedImageFormats sampleTables sampleDevice 4 0x10F1 1 true true).map
        (fun r => r.numImageFormatsReturned) = some (some 5) :=
  ⟨getSupportedImageFormats_returned_count sampleTables sampleDevice 4 0x10F1 1
      sampleTables_sizesAre32Bit,
    by decide, by decide, by decide⟩

/-! ## Context creation: helper lemmas -/

theorem property_frame (ext : ContextCollaborators) (propertyType propertyValue : Int)
    (l : PropertyLocals) (context : Context) :
    (Context.createImpl.property ext propertyType propertyValue l context).2 =
      { context with sharingFunctions :=
        (Context.createImpl.property ext propertyType propertyValue l context).2.sharingFunctions }
    := by
  unfold Context.createImpl.property
  dsimp only
  split_ifs <;> rfl

theorem property_consumed (ext : ContextCollaborators) (propertyType propertyValue : Int)
    (l : PropertyLocals) (context : Context) :
    (Context.createImpl.property ext propertyType propertyValue l context).1.consumed =
      l.consumed + 2 := by
  unfold Context.createImpl.property
  dsimp only
  split_ifs <;> rfl

/-- The context that the loop over the property list leaves behind differs from the one it
started with in the registered sharing functions at most, however the loop ends. -/
theorem createImpl_loop_frame (ext : ContextCollaborators) :
    ∀ (n : Nat) (words : List Int) (l : PropertyLocals) (context : Context),
      words.length ≤ n →
      (∀ e c1, Context.createImpl.loop ext words l context =
          some (PropertyLoopOutcome.rejected e c1) →
        c1 = { context with sharingFunctions := c1.sharingFunctions }) ∧
      (∀ l1 c1, Context.createImpl.loop ext words l context =
          some (PropertyLoopOutcome.parsed l1 c1) →
        c1 = { context with sharingFunctions := c1.sharingFunctions }) := by
  intro n
  induction n with
  | zero =>
    intro words l context h
    have : words = [] := List.length_eq_zero.1 (by omega)
    subst this
    constructor <;> intro _ _ h <;> simp [Context.createImpl.loop] at h
  | succ n ih =>
    intro words l context h
    match words, h with
    | [], _ =>
      constructor <;> intro _ _ h <;> simp [Context.createImpl.loop] at h
    | [w], _ =>
      constructor
      · intro e c1 h
        simp only [Context.createImpl.loop] at h
        split_ifs at h
        simp at h
      · intro l1 c1 h
        simp only [Context.createImpl.loop] at h
        by_cases h0 : w = 0
        · rw [if_pos h0] at h
          simp only [Option.some.injEq, PropertyLoopOutcome.parsed.injEq] at h
          rw [← h.2]
        · rw [if_neg h0] at h
          simp at h
    | w :: v :: rest, hlen =>
      have hrest : rest.length ≤ n := by
        simp only [List.length_cons] at hlen
        omega
      have hf := property_frame ext w v l context
      obtain ⟨ih1, ih2⟩ := ih rest (Context.createImpl.property ext w v l context).1
        (Context.createImpl.property ext w v l context).2 hrest
      constructor
      · intro e c1 h
        simp only [Context.createImpl.loop] at h
        by_cases h0 : w = 0
        · rw [if_pos h0] at h
          simp at h
        · rw [if_neg h0] at h
          by_cases hrej : (Context.createImpl.property ext w v l context).1.errcodeRet ≠
              CL_SUCCESS
          · rw [if_pos hrej] at h
            simp only [Option.some.injEq, PropertyLoopOutcome.rejected.injEq] at h
            rw [← h.2]
            exact hf
          · rw [if_neg hrej] at h
            have := ih1 e c1 h
            rw [this, hf]
      · intro l1 c1 h
        simp only [Context.createImpl.loop] at h
        by_cases h0 : w = 0
        · rw [if_pos h0] at h
          simp only [Option.some.injEq, PropertyLoopOutcome.parsed.injEq] at h
          rw [← h.2]
        · rw [if_neg h0] at h
          by_cases hrej : (Context.createImpl.property ext w v l context).1.errcodeRet ≠
              CL_SUCCESS
          · rw [if_pos hrej] at h
            simp at h
          · rw [if_neg hrej] at h
            have := ih2 l1 c1 h
            rw [this, hf]

/-- On a list that holds the given pairs, all with a key other than 0, and then a 0 word, the
loop is defined; when it reaches the 0 word it has consumed two words for every pair. -/
theorem createImpl_loop_consumed (ext : ContextCollaborators) (rest : List Int) :
    ∀ (pairs : List (Int × Int)) (l : PropertyLocals) (context : Context),
      (∀ p ∈ pairs, p.1 ≠ 0) →
      (∃ o, Context.createImpl.loop ext (propertyWords pairs ++ 0 :: rest) l context = some o) ∧
      (∀ l1 c1, Context.createImpl.loop ext (propertyWords pairs ++ 0 :: rest) l context =
          some (PropertyLoopOutcome.parsed l1 c1) →
        l1.consumed = l.consumed + 2 * pairs.length) := by
  intro pairs
  induction pairs with
  | nil =>
    intro l context _
    have hloop : Context.createImpl.loop ext (propertyWords [] ++ 0 :: rest) l context =
        some (PropertyLoopOutcome.parsed l context) := by
      cases rest <;> simp [propertyWords, Context.createImpl.loop]
    rw [hloop]
    refine ⟨⟨_, rfl⟩, ?_⟩
    intro l1 c1 h
    simp only [Option.some.injEq, PropertyLoopOutcome.parsed.injEq] at h
    rw [← h.1]
    simp
  | cons p ps ih =>
    intro l context hkeys
    obtain ⟨k, v⟩ := p
    have hk : k ≠ 0 := hkeys (k, v) (List.mem_cons_self _ _)
    have hps : ∀ q ∈ ps, q.1 ≠ 0 := fun q hq => hkeys q (List.mem_cons_of_mem _ hq)
    obtain ⟨ih1, ih2⟩ := ih (Context.createImpl.property ext k v l context).1
      (Context.createImpl.property ext k v l context).2 hps
    have hc := property_consumed ext k v l context
    simp only [propertyWords, List.cons_append, Context.createImpl.loop, if_neg hk]
    by_cases hrej : (Context.createImpl.property ext k v l context).1.errcodeRet ≠ CL_SUCCESS
    · rw [if_pos hrej]
      refine ⟨⟨_, rfl⟩, ?_⟩
      intro l1 c1 h
      simp at h
    · rw [if_neg hrej]
      refine ⟨ih1, ?_⟩
      intro l1 c1 h
      have := ih2 l1 c1 h
      rw [this, hc, List.length_cons]
      omega

theorem propertyWords_length :
    ∀ pairs : List (Int × Int), (propertyWords pairs).length = 2 * pairs.length := by
  intro pairs
  induction pairs with
  | nil => rfl
  | cons p ps ih =>
    obtain ⟨k, v⟩ := p
    simp only [propertyWords, List.length_cons, ih]
    omega

/-- The last part of `createImpl` leaves the stored properties, their number and the devices
as they are, and the memory manager too when it returns false. -/
theorem finish_frame (ext : ContextCollaborators) (context : Context) (devices : List Device)
    (l : PropertyLocals) (b : Bool) (e : Int) (c1 : Context)
    (h : Context.createImpl.finish ext context devices l = some (b, e, c1)) :
    c1.properties = context.properties ∧ c1.numProperties = context.numProperties ∧
      c1.devices = context.devices ∧
      (b = false → c1.memoryManager = context.memoryManager ∧
        (ext.finalizeProperties l.sharingBuilder context l.errcodeRet).1 = false) ∧
      (b = true → (ext.finalizeProperties l.sharingBuilder context l.errcodeRet).1 = true) := by
  unfold Context.createImpl.finish at h
  dsimp only at h
  by_cases hf : (ext.finalizeProperties l.sharingBuilder context l.errcodeRet).1 = false
  · rw [if_pos hf] at h
    simp only [Option.some.injEq, Prod.mk.injEq] at h
    obtain ⟨rfl, -, rfl⟩ := h
    exact ⟨rfl, rfl, rfl, fun _ => ⟨rfl, hf⟩, fun hb => absurd hb (by simp)⟩
  · rw [if_neg hf] at h
    cases devices with
    | nil => simp at h
    | cons device ds =>
      dsimp only at h
      split at h
      · simp at h
      · simp only [Option.some.injEq, Prod.mk.injEq] at h
        obtain ⟨rfl, -, rfl⟩ := h
        exact ⟨rfl, rfl, rfl, fun hb => absurd hb (by simp), fun _ => by simpa using hf⟩

/-! ## Context creation: the property list -/

/-- C30 (counterexample): with a sharing builder whose `finalizeProperties` fails,
`createImpl` on the list `CL_CONTEXT_PLATFORM, 7, 0` (7 is the current platform) returns
false after it has stored the copied properties, their number 3 and the devices in the
context, which held none of them before. -/
theorem createImpl_finalize_failure_stores :
    (Context.createImpl (sampleContextCollaborators false) Context.new
        (some [CL_CONTEXT_PLATFORM, 7, 0]) [sampleDevice] none none 0).map
        (fun r => (r.1, r.2.2.properties, r.2.2.numProperties, r.2.2.devices)) =
      some (false, some [CL_CONTEXT_PLATFORM, 7, 0], 3, [sampleDevice]) ∧
    Context.new.properties = none ∧ Context.new.numProperties = 0 ∧
    Context.new.devices = [] := by
  decide

theorem createImpl_parsed (ext : ContextCollaborators) (context : Context)
    (words : List Int) (devices : List Device) (funcNotify data : Option Nat) (errcodeRet : Int)
    (l : PropertyLocals) (c0 : Context)
    (h : Context.createImpl.loop ext words (PropertyLocals.mk errcodeRet false none [] 0) context
      = some (PropertyLoopOutcome.parsed l c0)) :
    Context.createImpl ext context (some words) devices funcNotify data errcodeRet =
      Context.createImpl.finish ext (Context.createImpl.store c0 (some words) devices l)
        devices l := by
  simp only [Context.createImpl, h]

/-- What the store part of `createImpl` puts in the context when the loop has consumed the
`2k` words of `k` pairs. -/
theorem store_pairs (c0 : Context) (pairs : List (Int × Int)) (rest : List Int)
    (devices : List Device) (l : PropertyLocals) (hl : l.consumed = 2 * pairs.length) :
    (Context.createImpl.store c0 (some (propertyWords pairs ++ 0 :: rest)) devices
        l).properties = (if pairs = [] then none else some (propertyWords pairs ++ [0])) ∧
      (Context.createImpl.store c0 (some (propertyWords pairs ++ 0 :: rest)) devices
        l).numProperties = (if pairs = [] then 0 else 2 * pairs.length + 1) ∧
      (Context.createImpl.store c0 (some (propertyWords pairs ++ 0 :: rest)) devices
        l).devices = devices ∧
      (Context.createImpl.store c0 (some (propertyWords pairs ++ 0 :: rest)) devices
        l).memoryManager = c0.memoryManager := by
  cases pairs with
  | nil =>
    have h0 : l.consumed = 0 := by simpa using hl
    simp [Context.createImpl.store, h0]
  | cons p ps =>
    have hpos : 2 * (p :: ps).length ≠ 0 := by simp
    simp only [Context.createImpl.store, hl, if_pos hpos, Option.getD_some]
    rw [← propertyWords_length (p :: ps), List.take_left]
    simp

/-- C30 (amended): property handling in `createImpl`, for every context, device vector and
collaborators.

* If a property is rejected while the list is parsed (the loop ends in `return false` with
  code `e`), `createImpl` returns false with that code and the context's properties,
  numProperties, devices and memoryManager are as before.  So it is when
  `CL_CONTEXT_PLATFORM` comes first and names another platform than the current one: the
  code is `CL_INVALID_PLATFORM` and the context is unchanged altogether.
* Whenever `createImpl` returns false, the memoryManager is as before; a false return that is
  not a rejection in the loop is a failure of `finalizeProperties`, and then the properties,
  their number and the devices have been stored already.  When the loop has come through and
  `finalizeProperties`, called on the context with these stored, answers false, `createImpl`
  does return false, with the code that `finalizeProperties` left.  For a list of `k` pairs
  (keys other than 0) and a 0 word, the properties stored on such a return are the `2k` words
  and a 0 word, with `numProperties = 2k + 1` (null and 0 when `k = 0`), and the devices are
  the ones passed.
* On success with `k ≥ 1` key/value pairs (keys other than 0) before the 0 word, the stored
  properties are the `2k` input words followed by a 0 word, and `numProperties = 2k + 1`.
* With a null list or a list that starts with the 0 word, whenever `createImpl` returns,
  properties is null and numProperties is 0, and `getInfo(CL_CONTEXT_PROPERTIES)` then
  reports size 0 and `CL_SUCCESS`. -/
theorem createImpl_property_handling (ext : ContextCollaborators) (context : Context)
    (devices : List Device) (funcNotify data : Option Nat) (errcodeRet : Int) :
    (∀ words e c1,
      Context.createImpl.loop ext words (PropertyLocals.mk errcodeRet false none [] 0) context =
        some (PropertyLoopOutcome.rejected e c1) →
      Context.createImpl ext context (some words) devices funcNotify data errcodeRet =
          some (false, e, c1) ∧
        c1.properties = context.properties ∧ c1.numProperties = context.numProperties ∧
        c1.devices = context.devices ∧ c1.memoryManager = context.memoryManager) ∧
    (∀ value rest, value ≠ ext.platform →
      Context.createImpl ext context (some (CL_CONTEXT_PLATFORM :: value :: rest)) devices
        funcNotify data errcodeRet = some (false, CL_INVALID_PLATFORM, context)) ∧
    (∀ properties e c1,
      Context.createImpl ext context properties devices funcNotify data errcodeRet =
        some (false, e, c1) →
      c1.memoryManager = context.memoryManager ∧
        ((∃ words, properties = some words ∧
            Context.createImpl.loop ext words (PropertyLocals.mk errcodeRet false none [] 0)
              context = some (PropertyLoopOutcome.rejected e c1)) ∨
          c1.devices = devices)) ∧
    (∀ words l c0,
      Context.createImpl.loop ext words (PropertyLocals.mk errcodeRet false none [] 0) context =
        some (PropertyLoopOutcome.parsed l c0) →
      (ext.finalizeProperties l.sharingBuilder
        (Context.createImpl.store c0 (some words) devices l) l.errcodeRet).1 = false →
      Context.createImpl ext context (some words) devices funcNotify data errcodeRet =
        some (false,
          (ext.finalizeProperties l.sharingBuilder
            (Context.createImpl.store c0 (some words) devices l) l.errcodeRet).2.1,
          { Context.createImpl.store c0 (some words) devices l with
            sharingFunctions := (ext.finalizeProperties l.sharingBuilder
              (Context.createImpl.store c0 (some words) devices l) l.errcodeRet).2.2 })) ∧
    (∀ pairs rest e c1, (∀ p ∈ pairs, p.1 ≠ 0) →
      Context.createImpl ext context (some (propertyWords pairs ++ 0 :: rest)) devices
        funcNotify data errcodeRet = some (false, e, c1) →
      Context.createImpl.loop ext (propertyWords pairs ++ 0 :: rest)
          (PropertyLocals.mk errcodeRet false none [] 0) context =
          some (PropertyLoopOutcome.rejected e c1) ∨
        (c1.properties = (if pairs = [] then none else some (propertyWords pairs ++ [0])) ∧
          c1.numProperties = (if pairs = [] then 0 else 2 * pairs.length + 1) ∧
          c1.devices = devices ∧ c1.memoryManager = context.memoryManager)) ∧
    (∀ pairs rest e c1, pairs ≠ [] → (∀ p ∈ pairs, p.1 ≠ 0) →
      Context.createImpl ext context (some (propertyWords pairs ++ 0 :: rest)) devices
        funcNotify data errcodeRet = some (true, e, c1) →
      c1.properties = some (propertyWords pairs ++ [0]) ∧
        c1.numProperties = 2 * pairs.length + 1) ∧
    (∀ properties b e c1, (properties = none ∨ ∃ rest, properties = some (0 :: rest)) →
      Context.createImpl ext context properties devices funcNotify data errcodeRet =
        some (b, e, c1) →
      c1.properties = none ∧ c1.numProperties = 0 ∧
        ∀ paramValueSize paramValue,
          Context.getInfo ext c1 CL_CONTEXT_PROPERTIES paramValueSize paramValue true =
            (CL_SUCCESS, some 0)) := by
  refine ⟨?_, ?_, ?_, ?_, ?_, ?_, ?_⟩
  · intro words e c1 h
    have hfr := (createImpl_loop_frame ext words.length words _ context (Nat.le_refl _)).1 e c1 h
    refine ⟨?_, ?_⟩
    · simp only [Context.createImpl, h]
    · rw [hfr]
      exact ⟨rfl, rfl, rfl, rfl⟩
  · intro value rest hne
    have hk : ¬ (CL_CONTEXT_PLATFORM = 0) := by decide
    have hr : ¬ (CL_INVALID_PLATFORM = CL_SUCCESS) := by decide
    simp [Context.createImpl, Context.createImpl.loop, Context.createImpl.property, hk, hne, hr]
  · intro properties e c1 h
    unfold Context.createImpl at h
    dsimp only at h
    cases properties with
    | none =>
      dsimp only at h
      obtain ⟨-, -, h3, h4, -⟩ := finish_frame ext _ devices _ false e c1 h
      exact ⟨(h4 rfl).1, Or.inr h3⟩
    | some words =>
      dsimp only at h
      cases hloop : Context.createImpl.loop ext words (PropertyLocals.mk errcodeRet false none
          [] 0) context with
      | none =>
        rw [hloop] at h
        simp at h
      | some o =>
        rw [hloop] at h
        cases o with
        | rejected e' c' =>
          simp only [Option.some.injEq, Prod.mk.injEq, true_and] at h
          obtain ⟨rfl, rfl⟩ := h
          have hfr := (createImpl_loop_frame ext words.length words _ context
            (Nat.le_refl _)).1 e' c' hloop
          refine ⟨?_, Or.inl ⟨words, rfl, hloop⟩⟩
          rw [hfr]
        | parsed l c' =>
          dsimp only at h
          obtain ⟨-, -, h3, h4, -⟩ := finish_frame ext _ devices _ false e c1 h
          have hfr := (createImpl_loop_frame ext words.length words _ context
            (Nat.le_refl _)).2 l c' hloop
          refine ⟨?_, Or.inr h3⟩
          rw [(h4 rfl).1]
          show c'.memoryManager = context.memoryManager
          rw [hfr]
  · intro words l c0 hloop hf
    rw [createImpl_parsed ext context words devices funcNotify data errcodeRet l c0 hloop]
    unfold Context.createImpl.finish
    dsimp only
    rw [if_pos hf]
  · intro pairs rest e c1 hkeys h
    obtain ⟨-, hcons⟩ := createImpl_loop_consumed ext rest pairs
      (PropertyLocals.mk errcodeRet false none [] 0) context hkeys
    cases hloop : Context.createImpl.loop ext (propertyWords pairs ++ 0 :: rest)
        (PropertyLocals.mk errcodeRet false none [] 0) context with
    | none =>
      simp only [Context.createImpl, hloop] at h
      simp at h
    | some o =>
      cases o with
      | rejected e' c' =>
        simp only [Context.createImpl, hloop, Option.some.injEq, Prod.mk.injEq, true_and] at h
        obtain ⟨rfl, rfl⟩ := h
        exact Or.inl rfl
      | parsed l c' =>
        right
        rw [createImpl_parsed ext context _ devices funcNotify data errcodeRet l c' hloop] at h
        obtain ⟨h1, h2, h3, h4, -⟩ := finish_frame ext _ devices _ false e c1 h
        have hl : l.consumed = 2 * pairs.length := by
          rw [hcons l c' hloop]
          simp
        obtain ⟨s1, s2, s3, s4⟩ := store_pairs c' pairs rest devices l hl
        have hfr := (createImpl_loop_frame ext _ _ _ context (Nat.le_refl _)).2 l c' hloop
        refine ⟨by rw [h1, s1], by rw [h2, s2], by rw [h3, s3], ?_⟩
        rw [(h4 rfl).1, s4, hfr]
  · intro pairs rest e c1 hne hkeys h
    obtain ⟨-, hcons⟩ := createImpl_loop_consumed ext rest pairs
      (PropertyLocals.mk errcodeRet false none [] 0) context hkeys
    unfold Context.createImpl at h
    dsimp only at h
    cases hloop : Context.createImpl.loop ext (propertyWords pairs ++ 0 :: rest)
        (PropertyLocals.mk errcodeRet false none [] 0) context with
    | none =>
      rw [hloop] at h
      simp at h
    | some o =>
      rw [hloop] at h
      cases o with
      | rejected e' c' => simp at h
      | parsed l c' =>
        dsimp only at h
        obtain ⟨h1, h2, -, -, -⟩ := finish_frame ext _ devices _ true e c1 h
        have hl : l.consumed = 2 * pairs.length := by
          rw [hcons l c' hloop]
          simp
        have hpos : 2 * pairs.length ≠ 0 := by
          cases pairs with
          | nil => exact absurd rfl hne
          | cons p ps => simp
        rw [h1, h2]
        simp only [Context.createImpl.store, hl, if_pos hpos, Option.getD_some]
        rw [← propertyWords_length pairs, List.take_left]
        exact ⟨rfl, trivial⟩
  · intro properties b e c1 hp h
    have hloop : ∃ l, l.consumed = 0 ∧
        Context.createImpl ext context properties devices funcNotify data errcodeRet =
          Context.createImpl.finish ext
            (Context.createImpl.store context properties devices l) devices l := by
      rcases hp with rfl | ⟨rest, rfl⟩
      · exact ⟨_, rfl, rfl⟩
      · refine ⟨PropertyLocals.mk errcodeRet false none [] 0, rfl, ?_⟩
        cases rest <;> simp [Context.createImpl, Context.createImpl.loop]
    obtain ⟨l, hl, heq⟩ := hloop
    rw [heq] at h
    obtain ⟨h1, h2, -, -, -⟩ := finish_frame ext _ devices _ b e c1 h
    have hp1 : c1.properties = none := by
      rw [h1]
      simp [Context.createImpl.store, hl]
    have hp2 : c1.numProperties = 0 := by
      rw [h2]
      simp [Context.createImpl.store, hl]
    refine ⟨hp1, hp2, ?_⟩
    intro paramValueSize paramValue
    have hd : ¬ (CL_CONTEXT_PROPERTIES = CL_CONTEXT_DEVICES) := by decide
    have hn : ¬ (CL_CONTEXT_PROPERTIES = CL_CONTEXT_NUM_DEVICES) := by decide
    simp [Context.getInfo, hd, hn, hp2]

/-- Witness for C30: on a new context, with 7 the current platform, the list
`CL_CONTEXT_PLATFORM, 8, 0` is rejected with `CL_INVALID_PLATFORM` and the context stays as it
was; the list `CL_CONTEXT_PLATFORM, 7, CL_CONTEXT_INTEROP_USER_SYNC, 1, 0` is accepted, and
its four words with a 0 word after them are stored, `numProperties` being 5. -/
theorem createImpl_property_handling_witness :
    Context.createImpl (sampleContextCollaborators true) Context.new
        (some (CL_CONTEXT_PLATFORM :: 8 :: [0])) [sampleDevice] none none 0 =
        some (false, CL_INVALID_PLATFORM, Context.new) ∧
      (Context.createImpl (sampleContextCollaborators true) Context.new
          (some (propertyWords [(CL_CONTEXT_PLATFORM, 7), (CL_CONTEXT_INTEROP_USER_SYNC, 1)]
            ++ 0 :: [])) [sampleDevice] none none 0).map
          (fun r => (r.1, r.2.2.properties, r.2.2.numProperties)) =
        some (true,
          some (propertyWords [(CL_CONTEXT_PLATFORM, 7), (CL_CONTEXT_INTEROP_USER_SYNC, 1)]
            ++ [0]), 5) :=
  ⟨(createImpl_property_handling (sampleContextCollaborators true) Context.new [sampleDevice]
      none none 0).2.1 8 [0] (by decide),
    by decide⟩

end OCLRT
